import Mathlib

/-!
Verification development for the beak-fuzz repository.

Shallow embedding of the RV32IM codec (`src/rv32im/instruction.rs`), the
OpenVM bucket matcher (`projects/openvm-336f1a…/src/lib/bucket.rs`), the
canonical-signature pipeline, the novelty feedback and bandit
(`crates/beak-core/src/fuzz/{loop1,bandit}.rs`), the mutators
(`crates/beak-core/src/fuzz/mutators.rs`), the Loop2 direct driver
(`crates/beak-core/src/fuzz/loop2.rs`), the seed loader, the oracle runner
(`crates/beak-core/src/rv32im/oracle.rs`) and the OpenVM backend seed gate
(`projects/openvm-336f1a…/src/lib/backend.rs`).

Machine integers (u32/i32/u64) are embedded as `Nat`/`Int` with explicit
reductions modulo 2^32 where the Rust code relies on wrapping casts.
Bitwise or of disjoint fields is rendered as addition; shifts and masks are
rendered as division/multiplication and remainder by powers of two.
-/

namespace Beak

/-- Sign extension of a `bits`-wide field to a signed integer:
models Rust's `as i32` conversions after a mask of `bits` bits. -/
def signExt (bits : Nat) (v : Nat) : Int :=
  if v < 2 ^ (bits - 1) then (v : Int) else (v : Int) - 2 ^ bits

/-- `i as u32` for a Rust `i32` value: two's-complement reduction mod 2^32. -/
def u32OfInt (i : Int) : Nat := (i % (2 ^ 32 : Int)).toNat

/-- `((i >> lo) & (2^width - 1)) as u32` on a Rust `i32`: arithmetic shift is
floor division, masking is Euclidean remainder. -/
def extBits (i : Int) (lo width : Nat) : Nat :=
  ((i / (2 ^ lo : Int)) % (2 ^ width : Int)).toNat

/-- `RV32IMFormat` from `src/rv32im/instruction.rs`. -/
inductive RVFormat
  | R | I | S | B | U | J | CSR
deriving DecidableEq, Repr

/-- `MnemonicSpec` from `src/rv32im/instruction.rs`. -/
structure MnemonicSpec where
  literal : String
  format : RVFormat
  opcode : Nat
  funct3 : Nat
  funct7 : Nat
deriving DecidableEq, Repr

/-- `mnemonic_spec` lookup table from `src/rv32im/instruction.rs`. -/
def mnemonicSpec (literal : String) : Option MnemonicSpec :=
  match literal with
  | "add" => some ⟨"add", .R, 0x33, 0x0, 0x00⟩
  | "sub" => some ⟨"sub", .R, 0x33, 0x0, 0x20⟩
  | "sll" => some ⟨"sll", .R, 0x33, 0x1, 0x00⟩
  | "slt" => some ⟨"slt", .R, 0x33, 0x2, 0x00⟩
  | "sltu" => some ⟨"sltu", .R, 0x33, 0x3, 0x00⟩
  | "xor" => some ⟨"xor", .R, 0x33, 0x4, 0x00⟩
  | "srl" => some ⟨"srl", .R, 0x33, 0x5, 0x00⟩
  | "sra" => some ⟨"sra", .R, 0x33, 0x5, 0x20⟩
  | "or" => some ⟨"or", .R, 0x33, 0x6, 0x00⟩
  | "and" => some ⟨"and", .R, 0x33, 0x7, 0x00⟩
  | "mul" => some ⟨"mul", .R, 0x33, 0x0, 0x01⟩
  | "mulh" => some ⟨"mulh", .R, 0x33, 0x1, 0x01⟩
  | "mulhsu" => some ⟨"mulhsu", .R, 0x33, 0x2, 0x01⟩
  | "mulhu" => some ⟨"mulhu", .R, 0x33, 0x3, 0x01⟩
  | "div" => some ⟨"div", .R, 0x33, 0x4, 0x01⟩
  | "divu" => some ⟨"divu", .R, 0x33, 0x5, 0x01⟩
  | "rem" => some ⟨"rem", .R, 0x33, 0x6, 0x01⟩
  | "remu" => some ⟨"remu", .R, 0x33, 0x7, 0x01⟩
  | "addi" => some ⟨"addi", .I, 0x13, 0x0, 0x00⟩
  | "slti" => some ⟨"slti", .I, 0x13, 0x2, 0x00⟩
  | "sltiu" => some ⟨"sltiu", .I, 0x13, 0x3, 0x00⟩
  | "xori" => some ⟨"xori", .I, 0x13, 0x4, 0x00⟩
  | "ori" => some ⟨"ori", .I, 0x13, 0x6, 0x00⟩
  | "andi" => some ⟨"andi", .I, 0x13, 0x7, 0x00⟩
  | "slli" => some ⟨"slli", .I, 0x13, 0x1, 0x00⟩
  | "srli" => some ⟨"srli", .I, 0x13, 0x5, 0x00⟩
  | "srai" => some ⟨"srai", .I, 0x13, 0x5, 0x20⟩
  | "lb" => some ⟨"lb", .I, 0x03, 0x0, 0x00⟩
  | "lh" => some ⟨"lh", .I, 0x03, 0x1, 0x00⟩
  | "lw" => some ⟨"lw", .I, 0x03, 0x2, 0x00⟩
  | "lbu" => some ⟨"lbu", .I, 0x03, 0x4, 0x00⟩
  | "lhu" => some ⟨"lhu", .I, 0x03, 0x5, 0x00⟩
  | "sb" => some ⟨"sb", .S, 0x23, 0x0, 0x00⟩
  | "sh" => some ⟨"sh", .S, 0x23, 0x1, 0x00⟩
  | "sw" => some ⟨"sw", .S, 0x23, 0x2, 0x00⟩
  | "beq" => some ⟨"beq", .B, 0x63, 0x0, 0x00⟩
  | "bne" => some ⟨"bne", .B, 0x63, 0x1, 0x00⟩
  | "blt" => some ⟨"blt", .B, 0x63, 0x4, 0x00⟩
  | "bge" => some ⟨"bge", .B, 0x63, 0x5, 0x00⟩
  | "bltu" => some ⟨"bltu", .B, 0x63, 0x6, 0x00⟩
  | "bgeu" => some ⟨"bgeu", .B, 0x63, 0x7, 0x00⟩
  | "lui" => some ⟨"lui", .U, 0x37, 0x0, 0x00⟩
  | "auipc" => some ⟨"auipc", .U, 0x17, 0x0, 0x00⟩
  | "jal" => some ⟨"jal", .J, 0x6F, 0x0, 0x00⟩
  | "jalr" => some ⟨"jalr", .I, 0x67, 0x0, 0x00⟩
  | "fence" => some ⟨"fence", .I, 0x0F, 0x0, 0x00⟩
  | "fence.i" => some ⟨"fence.i", .I, 0x0F, 0x1, 0x00⟩
  | "ecall" => some ⟨"ecall", .I, 0x73, 0x0, 0x00⟩
  | "ebreak" => some ⟨"ebreak", .I, 0x73, 0x0, 0x00⟩
  | "csrrw" => some ⟨"csrrw", .CSR, 0x73, 0x1, 0x00⟩
  | "csrrs" => some ⟨"csrrs", .CSR, 0x73, 0x2, 0x00⟩
  | "csrrc" => some ⟨"csrrc", .CSR, 0x73, 0x3, 0x00⟩
  | "csrrwi" => some ⟨"csrrwi", .CSR, 0x73, 0x5, 0x00⟩
  | "csrrsi" => some ⟨"csrrsi", .CSR, 0x73, 0x6, 0x00⟩
  | "csrrci" => some ⟨"csrrci", .CSR, 0x73, 0x7, 0x00⟩
  | _ => none

/-- `RV32IMEncodeError` (the variants exercised by `encode_from_parts`). -/
inductive EncodeError
  | unknownMnemonic (mnemonic : String)
  | invalidRegister (field : String) (value : Nat)
  | missingOperand (field : String)
deriving DecidableEq, Repr

/-- `RV32IMInstruction` from `src/rv32im/instruction.rs`.
The display-only `asm` string field is not modelled; `word` is the
authoritative field and all claims compare `(mnemonic, rd, rs1, rs2, imm)`. -/
structure Instr where
  mnemonic : String
  rd : Option Nat
  rs1 : Option Nat
  rs2 : Option Nat
  imm : Option Int
  word : Nat
deriving DecidableEq, Repr

/-- `is_shift_imm` from `src/rv32im/instruction.rs`. -/
def isShiftImm (mnemonic : String) : Bool :=
  mnemonic = "slli" || mnemonic = "srli" || mnemonic = "srai"

/-- `no_operand_imm` from `src/rv32im/instruction.rs`. -/
def noOperandImm (mnemonic : String) : Option Int :=
  match mnemonic with
  | "fence" => some 0
  | "fence.i" => some 0
  | "ecall" => some 0
  | "ebreak" => some 1
  | _ => none

/-- `require_reg` from `src/rv32im/instruction.rs`. -/
def requireReg (value : Option Nat) (field : String) : Except EncodeError Nat :=
  match value with
  | none => .error (.missingOperand field)
  | some v => if v > 31 then .error (.invalidRegister field v) else .ok v

/-- `encode_from_parts` from `src/rv32im/instruction.rs`.
Bitwise or of disjoint fields is rendered as addition (every field is
bounded by its width: registers are checked `≤ 31`, table funct3 `< 8`,
table funct7 `< 128`, immediates are masked). -/
def encodeFromParts (mnemonic : String) (rd rs1 rs2 : Option Nat)
    (imm : Option Int) : Except EncodeError Nat :=
  match mnemonicSpec mnemonic with
  | none => .error (.unknownMnemonic mnemonic)
  | some spec =>
    let op := spec.opcode
    let f3 := spec.funct3
    let f7 := spec.funct7
    let rd' := if (noOperandImm spec.literal).isSome then some 0 else rd
    let rs1' := if (noOperandImm spec.literal).isSome then some 0 else rs1
    let imm' := match noOperandImm spec.literal with
      | some d => some d
      | none => imm
    match spec.format with
    | .R => do
      let rdv ← requireReg rd' "rd"
      let rs1v ← requireReg rs1' "rs1"
      let rs2v ← requireReg rs2 "rs2"
      pure (f7 * 2 ^ 25 + rs2v * 2 ^ 20 + rs1v * 2 ^ 15 + f3 * 2 ^ 12 +
        rdv * 2 ^ 7 + op)
    | .I => do
      let rdv ← requireReg rd' "rd"
      let rs1v ← requireReg rs1' "rs1"
      match imm' with
      | none => .error (.missingOperand "imm")
      | some i =>
        if isShiftImm spec.literal then
          pure (f7 * 2 ^ 25 + (u32OfInt i % 2 ^ 5) * 2 ^ 20 + rs1v * 2 ^ 15 +
            f3 * 2 ^ 12 + rdv * 2 ^ 7 + op)
        else
          pure ((u32OfInt i % 2 ^ 12) * 2 ^ 20 + rs1v * 2 ^ 15 +
            f3 * 2 ^ 12 + rdv * 2 ^ 7 + op)
    | .S => do
      let rs1v ← requireReg rs1' "rs1"
      let rs2v ← requireReg rs2 "rs2"
      match imm' with
      | none => .error (.missingOperand "imm")
      | some i =>
        pure (extBits i 5 7 * 2 ^ 25 + rs2v * 2 ^ 20 + rs1v * 2 ^ 15 +
          f3 * 2 ^ 12 + (u32OfInt i % 2 ^ 5) * 2 ^ 7 + op)
    | .B => do
      let rs1v ← requireReg rs1' "rs1"
      let rs2v ← requireReg rs2 "rs2"
      match imm' with
      | none => .error (.missingOperand "imm")
      | some i =>
        pure (extBits i 12 1 * 2 ^ 31 + extBits i 5 6 * 2 ^ 25 +
          rs2v * 2 ^ 20 + rs1v * 2 ^ 15 + f3 * 2 ^ 12 +
          extBits i 1 4 * 2 ^ 8 + extBits i 11 1 * 2 ^ 7 + op)
    | .U => do
      let rdv ← requireReg rd' "rd"
      match imm' with
      | none => .error (.missingOperand "imm")
      | some i =>
        pure ((u32OfInt i % 2 ^ 20) * 2 ^ 12 + rdv * 2 ^ 7 + op)
    | .J => do
      let rdv ← requireReg rd' "rd"
      match imm' with
      | none => .error (.missingOperand "imm")
      | some i =>
        pure (extBits i 20 1 * 2 ^ 31 + extBits i 1 10 * 2 ^ 21 +
          extBits i 11 1 * 2 ^ 20 + extBits i 12 8 * 2 ^ 12 +
          rdv * 2 ^ 7 + op)
    | .CSR => do
      let rdv ← requireReg rd' "rd"
      let rs1v ← requireReg rs1' "rs1"
      match imm' with
      | none => .error (.missingOperand "csr")
      | some i =>
        pure ((u32OfInt i % 2 ^ 12) * 2 ^ 20 + rs1v * 2 ^ 15 +
          f3 * 2 ^ 12 + rdv * 2 ^ 7 + op)

/-- The CSR row materialised by `decode_system_instruction` (rd, rs1 and
the raw 12-bit CSR immediate). -/
def mkCsr (w : Nat) (m : String) : Instr :=
  ⟨m, some (w / 2 ^ 7 % 2 ^ 5), some (w / 2 ^ 15 % 2 ^ 5), none,
   some ((w / 2 ^ 20 % 2 ^ 12 : Nat) : Int), w⟩

/-- The CSR mnemonic dispatch of `decode_system_instruction` (reached only
when `funct3 ∈ {1,2,3,5,6,7}`; the final else is `csrrci`). -/
def decodeCsr (w : Nat) : Option Instr :=
  if w / 2 ^ 12 % 2 ^ 3 = 1 then some (mkCsr w "csrrw")
  else if w / 2 ^ 12 % 2 ^ 3 = 2 then some (mkCsr w "csrrs")
  else if w / 2 ^ 12 % 2 ^ 3 = 3 then some (mkCsr w "csrrc")
  else if w / 2 ^ 12 % 2 ^ 3 = 5 then some (mkCsr w "csrrwi")
  else if w / 2 ^ 12 % 2 ^ 3 = 6 then some (mkCsr w "csrrsi")
  else some (mkCsr w "csrrci")

/-- `decode_system_instruction` from `src/rv32im/instruction.rs`
(opcode = bits 0-6, rd = bits 7-11, funct3 = bits 12-14,
rs1 = bits 15-19, imm12 = bits 20-31). -/
def decodeSystemInstruction (w : Nat) : Option Instr :=
  if w % 2 ^ 7 = 0x0f ∧ w / 2 ^ 12 % 2 ^ 3 = 0x1 ∧ w / 2 ^ 7 % 2 ^ 5 = 0 ∧
      w / 2 ^ 15 % 2 ^ 5 = 0 ∧ w / 2 ^ 20 % 2 ^ 12 = 0 then
    some ⟨"fence.i", none, none, none, none, w⟩
  else if w % 2 ^ 7 = 0x73 ∧ w / 2 ^ 12 % 2 ^ 3 = 0 ∧ w / 2 ^ 7 % 2 ^ 5 = 0 ∧
      w / 2 ^ 15 % 2 ^ 5 = 0 ∧ w / 2 ^ 20 % 2 ^ 12 = 0 then
    some ⟨"ecall", none, none, none, none, w⟩
  else if w % 2 ^ 7 = 0x73 ∧ w / 2 ^ 12 % 2 ^ 3 = 0 ∧ w / 2 ^ 7 % 2 ^ 5 = 0 ∧
      w / 2 ^ 15 % 2 ^ 5 = 0 ∧ w / 2 ^ 20 % 2 ^ 12 = 1 then
    some ⟨"ebreak", none, none, none, none, w⟩
  else if w % 2 ^ 7 = 0x73 ∧ w / 2 ^ 12 % 2 ^ 3 = 0 ∧ w / 2 ^ 7 % 2 ^ 5 = 0 ∧
      w / 2 ^ 15 % 2 ^ 5 = 0 ∧ w / 2 ^ 20 % 2 ^ 12 = 0x102 then
    some ⟨"sret", none, none, none, none, w⟩
  else if w % 2 ^ 7 = 0x73 ∧ w / 2 ^ 12 % 2 ^ 3 = 0 ∧ w / 2 ^ 7 % 2 ^ 5 = 0 ∧
      w / 2 ^ 15 % 2 ^ 5 = 0 ∧ w / 2 ^ 20 % 2 ^ 12 = 0x302 then
    some ⟨"mret", none, none, none, none, w⟩
  else if w % 2 ^ 7 = 0x73 ∧ w / 2 ^ 12 % 2 ^ 3 = 0 ∧ w / 2 ^ 7 % 2 ^ 5 = 0 ∧
      w / 2 ^ 15 % 2 ^ 5 = 0 ∧ w / 2 ^ 20 % 2 ^ 12 = 0x105 then
    some ⟨"wfi", none, none, none, none, w⟩
  else if w % 2 ^ 7 = 0x73 ∧ w / 2 ^ 12 % 2 ^ 3 = 0 ∧
      w / 2 ^ 20 % 2 ^ 12 = 0x120 then
    some ⟨"sfence.vma", none, some (w / 2 ^ 15 % 2 ^ 5), none, none, w⟩
  else if w % 2 ^ 7 = 0x73 ∧ (w / 2 ^ 12 % 2 ^ 3 = 1 ∨ w / 2 ^ 12 % 2 ^ 3 = 2 ∨
      w / 2 ^ 12 % 2 ^ 3 = 3 ∨ w / 2 ^ 12 % 2 ^ 3 = 5 ∨
      w / 2 ^ 12 % 2 ^ 3 = 6 ∨ w / 2 ^ 12 % 2 ^ 3 = 7) then
    decodeCsr w
  else
    none

/-- rrs_lib `instruction_formats::RType` fields, as filled into an
`RV32IMInstruction` by the repository's `InstructionBuilder`. -/
def mkRType (w : Nat) (m : String) : Instr :=
  ⟨m, some (w / 2 ^ 7 % 2 ^ 5), some (w / 2 ^ 15 % 2 ^ 5),
   some (w / 2 ^ 20 % 2 ^ 5), none, w⟩

/-- rrs_lib `instruction_formats::IType` fields (sign-extended 12-bit
immediate). -/
def mkIType (w : Nat) (m : String) : Instr :=
  ⟨m, some (w / 2 ^ 7 % 2 ^ 5), some (w / 2 ^ 15 % 2 ^ 5), none,
   some (signExt 12 (w / 2 ^ 20 % 2 ^ 12)), w⟩

/-- rrs_lib `instruction_formats::ITypeShamt` fields (5-bit shift
amount). -/
def mkITypeShamt (w : Nat) (m : String) : Instr :=
  ⟨m, some (w / 2 ^ 7 % 2 ^ 5), some (w / 2 ^ 15 % 2 ^ 5), none,
   some ((w / 2 ^ 20 % 2 ^ 5 : Nat) : Int), w⟩

/-- rrs_lib `instruction_formats::SType` fields. -/
def mkSType (w : Nat) (m : String) : Instr :=
  ⟨m, none, some (w / 2 ^ 15 % 2 ^ 5), some (w / 2 ^ 20 % 2 ^ 5),
   some (signExt 12 (w / 2 ^ 25 % 2 ^ 7 * 2 ^ 5 + w / 2 ^ 7 % 2 ^ 5)), w⟩

/-- rrs_lib `instruction_formats::BType` fields. -/
def mkBType (w : Nat) (m : String) : Instr :=
  ⟨m, none, some (w / 2 ^ 15 % 2 ^ 5), some (w / 2 ^ 20 % 2 ^ 5),
   some (signExt 13 (w / 2 ^ 31 % 2 * 2 ^ 12 + w / 2 ^ 7 % 2 * 2 ^ 11 +
     w / 2 ^ 25 % 2 ^ 6 * 2 ^ 5 + w / 2 ^ 8 % 2 ^ 4 * 2)), w⟩

/-- rrs_lib `instruction_formats::UType` fields: the immediate is the
already-shifted `(insn & 0xffff_f000) as i32`. -/
def mkUType (w : Nat) (m : String) : Instr :=
  ⟨m, some (w / 2 ^ 7 % 2 ^ 5), none, none,
   some (signExt 32 (w / 2 ^ 12 % 2 ^ 20 * 2 ^ 12)), w⟩

/-- rrs_lib `instruction_formats::JType` fields. -/
def mkJType (w : Nat) (m : String) : Instr :=
  ⟨m, some (w / 2 ^ 7 % 2 ^ 5), none, none,
   some (signExt 21 (w / 2 ^ 31 % 2 * 2 ^ 20 + w / 2 ^ 12 % 2 ^ 8 * 2 ^ 12 +
     w / 2 ^ 20 % 2 * 2 ^ 11 + w / 2 ^ 21 % 2 ^ 10 * 2)), w⟩

/-- The `funct3 = 0` row of the R-type table (add/sub/mul). -/
def rrsDecodeOp0 (w : Nat) : Option Instr :=
  if w / 2 ^ 25 % 2 ^ 7 = 0 then some (mkRType w "add")
  else if w / 2 ^ 25 % 2 ^ 7 = 0x20 then some (mkRType w "sub")
  else if w / 2 ^ 25 % 2 ^ 7 = 1 then some (mkRType w "mul")
  else none

/-- The `funct3 = 1` row of the R-type table (sll/mulh). -/
def rrsDecodeOp1 (w : Nat) : Option Instr :=
  if w / 2 ^ 25 % 2 ^ 7 = 0 then some (mkRType w "sll")
  else if w / 2 ^ 25 % 2 ^ 7 = 1 then some (mkRType w "mulh")
  else none

/-- The `funct3 = 2` row of the R-type table (slt/mulhsu). -/
def rrsDecodeOp2 (w : Nat) : Option Instr :=
  if w / 2 ^ 25 % 2 ^ 7 = 0 then some (mkRType w "slt")
  else if w / 2 ^ 25 % 2 ^ 7 = 1 then some (mkRType w "mulhsu")
  else none

/-- The `funct3 = 3` row of the R-type table (sltu/mulhu). -/
def rrsDecodeOp3 (w : Nat) : Option Instr :=
  if w / 2 ^ 25 % 2 ^ 7 = 0 then some (mkRType w "sltu")
  else if w / 2 ^ 25 % 2 ^ 7 = 1 then some (mkRType w "mulhu")
  else none

/-- The `funct3 = 4` row of the R-type table (xor/div). -/
def rrsDecodeOp4 (w : Nat) : Option Instr :=
  if w / 2 ^ 25 % 2 ^ 7 = 0 then some (mkRType w "xor")
  else if w / 2 ^ 25 % 2 ^ 7 = 1 then some (mkRType w "div")
  else none

/-- The `funct3 = 5` row of the R-type table (srl/sra/divu). -/
def rrsDecodeOp5 (w : Nat) : Option Instr :=
  if w / 2 ^ 25 % 2 ^ 7 = 0 then some (mkRType w "srl")
  else if w / 2 ^ 25 % 2 ^ 7 = 0x20 then some (mkRType w "sra")
  else if w / 2 ^ 25 % 2 ^ 7 = 1 then some (mkRType w "divu")
  else none

/-- The `funct3 = 6` row of the R-type table (or/rem). -/
def rrsDecodeOp6 (w : Nat) : Option Instr :=
  if w / 2 ^ 25 % 2 ^ 7 = 0 then some (mkRType w "or")
  else if w / 2 ^ 25 % 2 ^ 7 = 1 then some (mkRType w "rem")
  else none

/-- The `funct3 = 7` row of the R-type table (and/remu). -/
def rrsDecodeOp7 (w : Nat) : Option Instr :=
  if w / 2 ^ 25 % 2 ^ 7 = 0 then some (mkRType w "and")
  else if w / 2 ^ 25 % 2 ^ 7 = 1 then some (mkRType w "remu")
  else none

/-- rrs_lib `process_opcode_op` (`OPCODE_OP = 0x33`): the R-type table,
dispatched on `funct3` (bits 12-14), then `funct7` (bits 25-31). -/
def rrsDecodeOp (w : Nat) : Option Instr :=
  if w / 2 ^ 12 % 2 ^ 3 = 0 then rrsDecodeOp0 w
  else if w / 2 ^ 12 % 2 ^ 3 = 1 then rrsDecodeOp1 w
  else if w / 2 ^ 12 % 2 ^ 3 = 2 then rrsDecodeOp2 w
  else if w / 2 ^ 12 % 2 ^ 3 = 3 then rrsDecodeOp3 w
  else if w / 2 ^ 12 % 2 ^ 3 = 4 then rrsDecodeOp4 w
  else if w / 2 ^ 12 % 2 ^ 3 = 5 then rrsDecodeOp5 w
  else if w / 2 ^ 12 % 2 ^ 3 = 6 then rrsDecodeOp6 w
  else rrsDecodeOp7 w

/-- rrs_lib `process_opcode_op_imm` (`OPCODE_OP_IMM = 0x13`): I-type
arithmetic and the shamt shifts. -/
def rrsDecodeOpImm (w : Nat) : Option Instr :=
  if w / 2 ^ 12 % 2 ^ 3 = 0 then some (mkIType w "addi")
  else if w / 2 ^ 12 % 2 ^ 3 = 1 then
    if w / 2 ^ 25 % 2 ^ 7 = 0 then some (mkITypeShamt w "slli") else none
  else if w / 2 ^ 12 % 2 ^ 3 = 2 then some (mkIType w "slti")
  else if w / 2 ^ 12 % 2 ^ 3 = 3 then some (mkIType w "sltiu")
  else if w / 2 ^ 12 % 2 ^ 3 = 4 then some (mkIType w "xori")
  else if w / 2 ^ 12 % 2 ^ 3 = 5 then
    if w / 2 ^ 25 % 2 ^ 7 = 0 then some (mkITypeShamt w "srli")
    else if w / 2 ^ 25 % 2 ^ 7 = 0x20 then some (mkITypeShamt w "srai")
    else none
  else if w / 2 ^ 12 % 2 ^ 3 = 6 then some (mkIType w "ori")
  else some (mkIType w "andi")

/-- rrs_lib `process_opcode_branch` (`OPCODE_BRANCH = 0x63`). -/
def rrsDecodeBranch (w : Nat) : Option Instr :=
  if w / 2 ^ 12 % 2 ^ 3 = 0 then some (mkBType w "beq")
  else if w / 2 ^ 12 % 2 ^ 3 = 1 then some (mkBType w "bne")
  else if w / 2 ^ 12 % 2 ^ 3 = 4 then some (mkBType w "blt")
  else if w / 2 ^ 12 % 2 ^ 3 = 5 then some (mkBType w "bge")
  else if w / 2 ^ 12 % 2 ^ 3 = 6 then some (mkBType w "bltu")
  else if w / 2 ^ 12 % 2 ^ 3 = 7 then some (mkBType w "bgeu")
  else none

/-- rrs_lib `process_opcode_load` (`OPCODE_LOAD = 0x03`). -/
def rrsDecodeLoad (w : Nat) : Option Instr :=
  if w / 2 ^ 12 % 2 ^ 3 = 0 then some (mkIType w "lb")
  else if w / 2 ^ 12 % 2 ^ 3 = 1 then some (mkIType w "lh")
  else if w / 2 ^ 12 % 2 ^ 3 = 2 then some (mkIType w "lw")
  else if w / 2 ^ 12 % 2 ^ 3 = 4 then some (mkIType w "lbu")
  else if w / 2 ^ 12 % 2 ^ 3 = 5 then some (mkIType w "lhu")
  else none

/-- rrs_lib `process_opcode_store` (`OPCODE_STORE = 0x23`). -/
def rrsDecodeStore (w : Nat) : Option Instr :=
  if w / 2 ^ 12 % 2 ^ 3 = 0 then some (mkSType w "sb")
  else if w / 2 ^ 12 % 2 ^ 3 = 1 then some (mkSType w "sh")
  else if w / 2 ^ 12 % 2 ^ 3 = 2 then some (mkSType w "sw")
  else none

/-- rrs_lib `process_opcode_jal` / `process_opcode_jalr` /
`process_opcode_misc_mem` (`OPCODE_JAL = 0x6F`, `OPCODE_JALR = 0x67`,
`OPCODE_MISC_MEM = 0x0F`; `jalr` and `fence` require `funct3 = 0`). -/
def rrsDecodeCtrl (w : Nat) : Option Instr :=
  if w % 2 ^ 7 = 0x6F then some (mkJType w "jal")
  else if w % 2 ^ 7 = 0x67 then
    if w / 2 ^ 12 % 2 ^ 3 = 0 then some (mkIType w "jalr") else none
  else if w % 2 ^ 7 = 0x0F then
    if w / 2 ^ 12 % 2 ^ 3 = 0 then some (mkIType w "fence") else none
  else none

/-- Models the decoder of the external `rrs_lib` crate
(`process_instruction`: dispatch on the opcode, bits 0-6, to the
per-opcode processors), combined with the repository's
`InstructionBuilder` which fills `(mnemonic, rd, rs1, rs2, imm)` from the
decoded formats; mnemonics per the `InstructionProcessor` impl in
`src/rv32im/instruction.rs`. -/
def rrsDecode (w : Nat) : Option Instr :=
  if w % 2 ^ 7 = 0x33 then rrsDecodeOp w
  else if w % 2 ^ 7 = 0x13 then rrsDecodeOpImm w
  else if w % 2 ^ 7 = 0x37 then some (mkUType w "lui")
  else if w % 2 ^ 7 = 0x17 then some (mkUType w "auipc")
  else if w % 2 ^ 7 = 0x63 then rrsDecodeBranch w
  else if w % 2 ^ 7 = 0x03 then rrsDecodeLoad w
  else if w % 2 ^ 7 = 0x23 then rrsDecodeStore w
  else rrsDecodeCtrl w

/-- `RV32IMInstruction::decode` / `decode_with_pc` from
`src/rv32im/instruction.rs`: system instructions take priority, the rest is
delegated to the rrs_lib decoder. -/
def decode (w : Nat) : Option Instr :=
  match decodeSystemInstruction w with
  | some i => some i
  | none => rrsDecode w

/-- `RV32IMInstruction::from_word` (success/failure shape of the
`Result`): `decode(word).ok_or(DecodeFailed)`. -/
def fromWord (w : Nat) : Option Instr := decode w

/-- `RV32IMInstruction::from_parts`: lowercase the mnemonic (Rust
`to_ascii_lowercase`, modelled with `String.toLower`), encode, then decode
the produced word. -/
def fromParts (mnemonic : String) (rd rs1 rs2 : Option Nat)
    (imm : Option Int) : Option Instr :=
  match encodeFromParts mnemonic.toLower rd rs1 rs2 imm with
  | .error _ => none
  | .ok w => fromWord w



def excludedC1 (m : String) : Bool :=
  m = "lui" || m = "auipc" || m = "fence" || m = "sret" || m = "mret" ||
  m = "wfi" || m = "sfence.vma"


/-! ### Generic list helpers used by the embeddings -/

/-- `Vec::sort_unstable_by`-style insertion of one element into a sorted
list, with a boolean "less or equal" comparator. -/
def insertLe {α : Type} (le : α → α → Bool) (a : α) : List α → List α
  | [] => [a]
  | b :: t => if le a b then a :: b :: t else b :: insertLe le a t

/-- Comparator-based sort (insertion sort). The Rust side uses an unstable
sort; every comparator in this development is total and antisymmetric on
the keys that matter, so any sorting algorithm yields the same output. -/
def sortLe {α : Type} (le : α → α → Bool) : List α → List α
  | [] => []
  | a :: t => insertLe le a (sortLe le t)

/-- `Vec::dedup`: remove *consecutive* duplicate elements. -/
def destutter {α : Type} [DecidableEq α] : List α → List α
  | [] => []
  | [a] => [a]
  | a :: b :: t => if a = b then destutter (b :: t) else a :: destutter (b :: t)

/-- Whitespace test used by Rust's `str::trim` (modelled with Lean's
`Char.isWhitespace`). -/
def isWsChar (c : Char) : Bool := c.isWhitespace

/-- Drop trailing characters matching `p`. -/
def dropEndWhile (p : Char → Bool) : List Char → List Char
  | [] => []
  | a :: t =>
    let r := dropEndWhile p t
    if r.isEmpty && p a then [] else a :: r

/-- Rust `str::trim` on the character list: drop leading and trailing
whitespace. -/
def trimChars (l : List Char) : List Char :=
  dropEndWhile isWsChar (l.dropWhile isWsChar)

/-- Rust `str::trim` on strings. -/
def rustTrim (s : String) : String := ⟨trimChars s.data⟩

namespace Core

/-- `BucketType` from `crates/beak-core/src/trace/mod.rs`: the cross-zkvm
taxonomy is not defined yet, so the enum has the single placeholder
variant. -/
inductive BucketType
  | unknown
deriving DecidableEq, Repr

/-- `BucketType` ordering (`#[derive(PartialOrd, Ord)]` on the enum):
declaration order.  With a single variant every comparison is `Eq`. -/
def BucketType.cmp : BucketType → BucketType → Ordering
  | .unknown, .unknown => .eq

/-- A reporting-only detail value (`serde_json::Value` payloads actually
stored by the matchers: numbers, strings, booleans, null). -/
inductive JVal
  | num (n : Int)
  | str (s : String)
  | boolean (b : Bool)
  | null
deriving DecidableEq, Repr

/-- `BucketHit` from `crates/beak-core/src/trace/mod.rs`.
`details` is reporting-only and must never participate in matching or
signature computation. -/
structure BucketHit where
  bucket_id : String
  bucket_type : BucketType
  details : List (String × JVal)
deriving DecidableEq, Repr

/-- `BucketHit::signature`. -/
def BucketHit.signature (h : BucketHit) : String := h.bucket_id

/-- Comparator of `sorted_signatures_from_hits`:
`a.bucket_type.cmp(&b.bucket_type).then_with(|| a.signature().cmp(b.signature()))`
rendered as a boolean "a sorts no later than b". -/
def hitLe (a b : BucketHit) : Bool :=
  match a.bucket_type.cmp b.bucket_type with
  | .lt => true
  | .gt => false
  | .eq => a.signature ≤ b.signature

/-- `sorted_signatures_from_hits` from `crates/beak-core/src/trace/mod.rs`:
include all hits (no deduplication), sort by `(bucket_type, signature)`,
map to the signature strings. -/
def sortedSignaturesFromHits (hits : List BucketHit) : List String :=
  (sortLe hitLe hits).map BucketHit.signature

/-- The token list built by `canonical_bucket_sig`
(`crates/beak-core/src/fuzz/loop1.rs`): trim each signature, drop empties,
deduplicate by first occurrence (the `seen` hash set). -/
def canonTokens (seen : List String) : List String → List String
  | [] => []
  | s :: rest =>
    let t := rustTrim s
    if t = "" then canonTokens seen rest
    else if t ∈ seen then canonTokens seen rest
    else t :: canonTokens (t :: seen) rest

/-- `canonical_bucket_sig` from `crates/beak-core/src/fuzz/loop1.rs`:
canonical tokens joined with `';'`. -/
def canonicalBucketSig (sigs : List String) : String :=
  String.intercalate ";" (canonTokens [] sigs)

end Core

namespace Core

/-- JSON-object metadata as an association list (string keys to values). -/
def Metadata : Type := List (String × JVal)

instance : DecidableEq Metadata := by
  unfold Metadata
  infer_instance

/-- `serde_json::Map::insert`: set a key, replacing any previous binding. -/
def mdInsert (m : Metadata) (k : String) (v : JVal) : Metadata :=
  (k, v) :: (m.filter (fun p => p.1 ≠ k) : List (String × JVal))

/-- Lookup in a metadata object. -/
def mdGet (m : Metadata) (k : String) : Option JVal :=
  ((m : List (String × JVal)).find? (fun p => p.1 = k)).map Prod.snd

/-- `CorpusRecord` from `crates/beak-core/src/fuzz/jsonl.rs`. -/
structure CorpusRecord where
  zkvm_commit : String
  rng_seed : Nat
  timeout_ms : Nat
  timed_out : Bool
  mismatch : Bool
  bucket_hits_sig : String
  instructions : List Nat
  metadata : Metadata

/-- `BugRecord` from `crates/beak-core/src/fuzz/jsonl.rs`. -/
structure BugRecord where
  zkvm_commit : String
  rng_seed : Nat
  timeout_ms : Nat
  timed_out : Bool
  bucket_hits_sig : String
  micro_op_count : Nat
  backend_error : Option String
  oracle_error : Option String
  bucket_hits : List BucketHit
  mismatch_regs : List (Nat × Nat × Nat)
  instructions : List Nat
  metadata : Metadata

/-- `BanditArmStats` from `crates/beak-core/src/fuzz/bandit.rs`.
`total_reward` is an `f64` in Rust; the rewards handed to the bandit are
dyadic rationals (multiples of 0.25) of tiny magnitude, on which `f64`
addition is exact, so the field is embedded as `ℚ`. -/
structure ArmStats where
  pulls : Nat
  total_reward : ℚ
deriving DecidableEq, Repr

/-- `BanditArmStats::new`. -/
def ArmStats.init : ArmStats := ⟨0, 0⟩

/-- `Bandit::update` from `crates/beak-core/src/fuzz/bandit.rs`: clamp the
arm index to the last arm, bump `pulls`, accumulate the reward. -/
def banditUpdate (arms : List ArmStats) (armIdx : Nat) (reward : ℚ) :
    List ArmStats :=
  if arms.isEmpty then arms
  else
    let i := min armIdx (arms.length - 1)
    match arms.get? i with
    | none => arms
    | some a => arms.set i ⟨a.pulls + 1, a.total_reward + reward⟩

/-- `RunStats` from `crates/beak-core/src/fuzz/loop1.rs` (the snapshot the
harness hands to the feedback through `LAST_RUN`). -/
structure RunStats where
  bucket_hits_sig : String
  bucket_hit_count : Nat
  micro_op_count : Nat
  bucket_hits : List BucketHit
  mismatch_regs : List (Nat × Nat × Nat)
  backend_error : Option String
  timed_out : Bool

/-- Session state owned by `BucketNoveltyFeedback` plus the module-level
bandit state and "last arm" slot. -/
structure FeedbackState where
  seen : List String
  seenBucketIds : List String
  writtenBugKeys : List String
  arms : List ArmStats
  lastArm : Option Nat

/-- Everything `BucketNoveltyFeedback::is_interesting` produces in one call:
the updated session state, the computed reward quantities, and the records
appended to the bug/corpus writers. -/
structure FeedbackOut where
  state : FeedbackState
  newBucketIdCount : Nat
  isNewCombo : Bool
  reward : ℚ
  bugRecords : List BugRecord
  corpusRecords : List CorpusRecord
  interesting : Bool

/-- The per-bucket novelty fold at the top of `is_interesting`: insert every
hit's id into `seen_bucket_ids`, counting fresh insertions. -/
def absorbBucketIds (seenIds : List String) (hits : List BucketHit) :
    List String × Nat :=
  hits.foldl
    (fun acc h =>
      if h.bucket_id ∈ acc.1 then acc else (h.bucket_id :: acc.1, acc.2 + 1))
    (seenIds, 0)

/-- Configuration fields of `Loop1Config` consulted by the feedback and the
Loop2 driver. -/
structure LoopCfg where
  zkvm_commit : String
  rng_seed : Nat
  timeout_ms : Nat

/-- Hex key of a word list as used in the bug-dedup keys (the exact string
rendering is irrelevant to every claim; only injectivity on word lists
matters, which a decimal rendering also provides). -/
def wordsKey (words : List Nat) : String :=
  String.intercalate "," (words.map (fun w => toString w))

/-- `BucketNoveltyFeedback::is_interesting` from
`crates/beak-core/src/fuzz/loop1.rs`, as a pure state transformer.
`words` is the input decoded via `decode_words_from_input(input, 2048)`.
The loop1 call sites construct `BugRecord` without an oracle error, so
`oracle_error` is `none` in both bug shapes. -/
def isInterestingStep (cfg : LoopCfg) (st : FeedbackState) (stats : RunStats)
    (words : List Nat) : FeedbackOut :=
  let absorbed := absorbBucketIds st.seenBucketIds stats.bucket_hits
  let seenIds' := absorbed.1
  let newBucketIdCount := absorbed.2
  let mismatchKey := "mismatch|" ++ stats.bucket_hits_sig ++ "|" ++ wordsKey words
  let mismatchBug :=
    stats.mismatch_regs ≠ [] ∧ mismatchKey ∉ st.writtenBugKeys
  let keys1 :=
    if stats.mismatch_regs ≠ [] then
      if mismatchKey ∈ st.writtenBugKeys then st.writtenBugKeys
      else mismatchKey :: st.writtenBugKeys
    else st.writtenBugKeys
  let bugs1 : List BugRecord :=
    if mismatchBug then
      [{ zkvm_commit := cfg.zkvm_commit, rng_seed := cfg.rng_seed,
         timeout_ms := cfg.timeout_ms, timed_out := stats.timed_out,
         bucket_hits_sig := stats.bucket_hits_sig,
         micro_op_count := stats.micro_op_count,
         backend_error := stats.backend_error, oracle_error := none,
         bucket_hits := stats.bucket_hits,
         mismatch_regs := stats.mismatch_regs, instructions := words,
         metadata := [("kind", JVal.str "mismatch")] }]
    else []
  let errStr := stats.backend_error.getD "timed_out"
  let excKey := "exception|" ++ stats.bucket_hits_sig ++ "|" ++ errStr ++ "|" ++
    wordsKey words
  let excCond := stats.timed_out ∨ stats.backend_error.isSome
  let excBug := excCond ∧ excKey ∉ keys1
  let keys2 :=
    if excCond then
      if excKey ∈ keys1 then keys1 else excKey :: keys1
    else keys1
  let bugs2 : List BugRecord :=
    if excBug then
      [{ zkvm_commit := cfg.zkvm_commit, rng_seed := cfg.rng_seed,
         timeout_ms := cfg.timeout_ms, timed_out := stats.timed_out,
         bucket_hits_sig := stats.bucket_hits_sig,
         micro_op_count := stats.micro_op_count,
         backend_error := stats.backend_error, oracle_error := none,
         bucket_hits := stats.bucket_hits, mismatch_regs := [],
         instructions := words,
         metadata := [("kind", JVal.str "exception"),
                      ("timed_out", JVal.boolean stats.timed_out)] }]
    else []
  let sig := stats.bucket_hits_sig
  -- `!sig.is_empty() && self.seen.insert(sig)`: short-circuit, so the set is
  -- only touched when the signature is non-empty.
  let comboState :=
    if sig = "" then (false, st.seen)
    else if sig ∈ st.seen then (false, st.seen)
    else (true, sig :: st.seen)
  let isNewCombo := comboState.1
  let seen' := comboState.2
  let reward : ℚ := (if isNewCombo then 1 else 0) + (newBucketIdCount : ℚ) * (1 / 4)
  let arms' :=
    match st.lastArm with
    | some armIdx => banditUpdate st.arms armIdx reward
    | none => st.arms
  let corpus : List CorpusRecord :=
    if isNewCombo then
      [{ zkvm_commit := cfg.zkvm_commit, rng_seed := cfg.rng_seed,
         timeout_ms := cfg.timeout_ms, timed_out := stats.timed_out,
         mismatch := stats.mismatch_regs ≠ [],
         bucket_hits_sig := sig, instructions := words,
         metadata := [("kind", JVal.str "interesting"),
                      ("new_bucket_id_count",
                        JVal.num (newBucketIdCount : Int))] }]
    else []
  { state := { seen := seen', seenBucketIds := seenIds',
               writtenBugKeys := keys2, arms := arms', lastArm := none },
    newBucketIdCount := newBucketIdCount,
    isNewCombo := isNewCombo,
    reward := reward,
    bugRecords := bugs1 ++ bugs2,
    corpusRecords := corpus,
    interesting := isNewCombo }

end Core

namespace Core

/-! ### Mutators (`crates/beak-core/src/fuzz/mutators.rs`) -/

/-- `UsedOperands` from `crates/beak-core/src/fuzz/mutators.rs`. -/
structure UsedOperands where
  regs : List Nat
  mem_bases : List Nat
  mem_imms : List Int
deriving Repr

/-- `collect_used_operands`: gather referenced registers and load/store
base/offset components, then `sort_unstable` + `dedup` each list. -/
def collectUsedOperands (words : List Nat) : UsedOperands :=
  let raw := words.foldl
    (fun (acc : UsedOperands) word =>
      match Beak.fromWord word with
      | none => acc
      | some insn =>
        let regs := acc.regs ++ (insn.rd.toList ++ insn.rs1.toList ++ insn.rs2.toList)
        let m := insn.mnemonic
        let isMem := m = "lb" ∨ m = "lh" ∨ m = "lw" ∨ m = "lbu" ∨ m = "lhu" ∨
          m = "sb" ∨ m = "sh" ∨ m = "sw"
        if isMem then
          { regs := regs,
            mem_bases := acc.mem_bases ++ insn.rs1.toList,
            mem_imms := acc.mem_imms ++ insn.imm.toList }
        else
          { acc with regs := regs })
    ⟨[], [], []⟩
  { regs := destutter (sortLe (fun a b => a ≤ b) raw.regs),
    mem_bases := destutter (sortLe (fun a b => a ≤ b) raw.mem_bases),
    mem_imms := destutter (sortLe (fun a b => a ≤ b) raw.mem_imms) }

/-- `pick_from_slice_u32`: pick an element of `xs`, with the `below(32)`
fallback on an empty slice.  `r` stands for the RNG draw. -/
def pickSliceNat (xs : List Nat) (r : Nat) : Nat :=
  if xs.isEmpty then r % 32 else xs.getD (r % xs.length) 0

/-- `pick_from_slice_i32`: pick an element of `xs`, with the small signed
window fallback on an empty slice. -/
def pickSliceInt (xs : List Int) (r : Nat) : Int :=
  if xs.isEmpty then (r % 64 : Int) - 32 else xs.getD (r % xs.length) 0

/-- The random draws consumed by one `SeedMutator` arm.  Each Rust
`rand.below(nz(n))` draw is modelled as an arbitrary natural reduced
`% n` at the use site. -/
structure MutRand where
  idx : Nat
  which : Nat
  pickA : Nat
  pickB : Nat
  pickC : Nat
  choiceIdx : Nat
  memRoll : Nat
  cutA : Nat
  cutB : Nat
  otherIdx : Nat

/-- `SeedMutator::mutate_registers`. -/
def mutateRegisters (r : MutRand) (words : List Nat) (usedRegs : List Nat) :
    List Nat :=
  if words.isEmpty then words
  else
    let idx := r.idx % words.length
    let word := words.getD idx 0
    match Beak.fromWord word with
    | none => words
    | some insn =>
      let pick := pickSliceNat usedRegs r.pickA
      let fields :=
        if r.which % 3 = 0 then
          (if insn.rd.isSome then some pick else insn.rd, insn.rs1, insn.rs2)
        else if r.which % 3 = 1 then
          (insn.rd, if insn.rs1.isSome then some pick else insn.rs1, insn.rs2)
        else
          (insn.rd, insn.rs1, if insn.rs2.isSome then some pick else insn.rs2)
      match Beak.fromParts insn.mnemonic fields.1 fields.2.1 fields.2.2 insn.imm with
      | none => words
      | some newInsn => words.set idx newInsn.word

/-- The immediate choice table of `SeedMutator::mutate_constants`. -/
def constChoices : List Int := [0, 1, -1, 2, 4, 8, 16, 32, 127, -128]

/-- `SeedMutator::mutate_constants`. -/
def mutateConstants (r : MutRand) (words : List Nat) : List Nat :=
  if words.isEmpty then words
  else
    let idx := r.idx % words.length
    let word := words.getD idx 0
    match Beak.fromWord word with
    | none => words
    | some insn =>
      match insn.imm with
      | none => words
      | some oldImm =>
        let newImm := constChoices.getD (r.choiceIdx % constChoices.length) 0
        if newImm = oldImm then words
        else
          match Beak.fromParts insn.mnemonic insn.rd insn.rs1 insn.rs2 (some newImm) with
          | none => words
          | some newInsn => words.set idx newInsn.word

/-- `SeedMutator::insert_random_instruction`. -/
def insertRandomInstruction (r : MutRand) (words : List Nat)
    (used : UsedOperands) : List Nat :=
  if words.length ≥ 2048 then words
  else
    let chooseMem := ¬used.mem_bases.isEmpty ∧ r.memRoll % 4 = 0
    let insn :=
      if chooseMem then
        let memMnems := ["lw", "sw", "lh", "sh", "lb", "sb", "lhu", "lbu"]
        let mnemonic := memMnems.getD (r.choiceIdx % memMnems.length) "lw"
        let isStore := mnemonic = "sw" ∨ mnemonic = "sh" ∨ mnemonic = "sb"
        let rs1 := some (pickSliceNat used.mem_bases r.pickA)
        let imm := some (pickSliceInt used.mem_imms r.pickB)
        if isStore then
          Beak.fromParts mnemonic none rs1 (some (pickSliceNat used.regs r.pickC)) imm
        else
          Beak.fromParts mnemonic (some (pickSliceNat used.regs r.pickC)) rs1 none imm
      else
        let mnems := ["addi", "xori", "ori", "andi", "slli", "srli"]
        let mnemonic := mnems.getD (r.choiceIdx % mnems.length) "addi"
        let rd := some (pickSliceNat used.regs r.pickA)
        let rs1 := some (pickSliceNat used.regs r.pickB)
        let imm : Option Int := some ((r.pickC % 64 : Int) - 32)
        Beak.fromParts mnemonic rd rs1 none imm
    match insn with
    | none => words
    | some i => words ++ [i.word]

/-- `SeedMutator::delete_one_instruction`. -/
def deleteOneInstruction (r : MutRand) (words : List Nat) : List Nat :=
  if words.length ≤ 1 then words
  else words.eraseIdx (r.idx % words.length)

/-- `SeedMutator::duplicate_one_instruction`. -/
def duplicateOneInstruction (r : MutRand) (words : List Nat) : List Nat :=
  if words.isEmpty ∨ words.length ≥ 2048 then words
  else
    let idx := r.idx % words.length
    let w := words.getD idx 0
    words.insertIdx (idx + 1) w

/-- `SeedMutator::swap_adjacent_instructions`. -/
def swapAdjacentInstructions (r : MutRand) (words : List Nat) : List Nat :=
  if words.length < 2 then words
  else
    let idx := r.idx % (words.length - 1)
    let a := words.getD idx 0
    let b := words.getD (idx + 1) 0
    (words.set idx b).set (idx + 1) a

/-- The mnemonic substitution table of
`SeedMutator::replace_mnemonic_same_format`. -/
def replacementMnemonic (insn : Beak.Instr) : Option String :=
  let m := insn.mnemonic
  if insn.rs2.isSome ∧ insn.imm.isNone then
    if m = "add" then some "sub"
    else if m = "sub" then some "add"
    else if m = "and" then some "or"
    else if m = "or" then some "xor"
    else if m = "xor" then some "and"
    else if m = "slt" then some "sltu"
    else if m = "sltu" then some "slt"
    else none
  else if insn.rs2.isNone ∧ insn.imm.isSome then
    if m = "addi" then some "xori"
    else if m = "xori" then some "ori"
    else if m = "ori" then some "andi"
    else if m = "andi" then some "addi"
    else if m = "slli" then some "srli"
    else if m = "srli" then some "srai"
    else if m = "srai" then some "slli"
    else none
  else
    if m = "lw" then some "lh"
    else if m = "lh" then some "lb"
    else if m = "lb" then some "lbu"
    else if m = "lbu" then some "lhu"
    else if m = "lhu" then some "lw"
    else if m = "sw" then some "sh"
    else if m = "sh" then some "sb"
    else if m = "sb" then some "sw"
    else none

/-- `SeedMutator::replace_mnemonic_same_format`. -/
def replaceMnemonicSameFormat (r : MutRand) (words : List Nat) : List Nat :=
  if words.isEmpty then words
  else
    let idx := r.idx % words.length
    let word := words.getD idx 0
    match Beak.fromWord word with
    | none => words
    | some insn =>
      match replacementMnemonic insn with
      | none => words
      | some newMnemonic =>
        match Beak.fromParts newMnemonic insn.rd insn.rs1 insn.rs2 insn.imm with
        | none => words
        | some newInsn => words.set idx newInsn.word

/-- `SeedMutator::splice_two`.  `corpus` carries the other in-memory corpus
inputs already decoded with the hard cap 2048
(`decode_words_from_input(other_input, 2048)`). -/
def spliceTwo (r : MutRand) (words : List Nat) (corpus : List (List Nat)) :
    List Nat :=
  if corpus.length < 2 ∨ words.isEmpty then words
  else
    let otherWords := (corpus.getD (r.otherIdx % corpus.length) []).take 2048
    if otherWords.isEmpty then words
    else
      let cutA := r.cutA % words.length
      let cutB := r.cutB % otherWords.length
      let newWords := words.take cutA ++ otherWords.drop cutB
      if newWords.isEmpty then words
      else newWords.take 2048

/-- `SEED_MUTATOR_NUM_ARMS`. -/
def seedMutatorNumArms : Nat := 8

/-- `SeedMutator::mutate`: decode with the configured cap, dispatch on the
bandit-selected arm, truncate, re-encode. -/
def seedMutate (maxInstructions : Nat) (r : MutRand) (arm : Nat)
    (corpus : List (List Nat)) (input : List Nat) : List Nat :=
  let words := input.take maxInstructions
  if words.isEmpty then words
  else
    let used := collectUsedOperands words
    let mutated :=
      if arm = 0 then spliceTwo r words corpus
      else if arm = 1 then mutateRegisters r words used.regs
      else if arm = 2 then mutateConstants r words
      else if arm = 3 then insertRandomInstruction r words used
      else if arm = 4 then deleteOneInstruction r words
      else if arm = 5 then duplicateOneInstruction r words
      else if arm = 6 then swapAdjacentInstructions r words
      else if arm = 7 then replaceMnemonicSameFormat r words
      else insertRandomInstruction r words used
    mutated.take maxInstructions

/-- A word is decodable when `from_word` (= `decode`) succeeds on it. -/
def decodableWord (w : Nat) : Bool := (Beak.fromWord w).isSome

/-! ### Loop2 direct driver (`crates/beak-core/src/fuzz/loop2.rs`) -/

/-- `DirectRunStats` from `crates/beak-core/src/fuzz/loop2.rs`. -/
structure DirectRunStats where
  bucket_hits_sig : String
  micro_op_count : Nat
  bucket_hits : List BucketHit
  mismatch_regs : List (Nat × Nat × Nat)
  backend_error : Option String
  oracle_error : Option String
  timed_out : Bool

/-- `OpenVmBackend::map_bucket_to_injection`
(`projects/openvm-336f1a…/src/lib/backend.rs`): the injection-anchor
table, returning the injection kind (plans always use step 0). -/
def mapBucketToInjection (bucketId : String) : Option String :=
  if bucketId = "openvm.loop2.target.base_alu_imm_limbs" then
    some "openvm.audit_o5.rs2_imm_limbs"
  else if bucketId = "openvm.auipc.seen" then
    some "openvm.audit_o7.auipc_pc_limbs"
  else if bucketId = "openvm.mem.access_seen" then
    some "openvm.audit_o8.loadstore_imm_sign"
  else if bucketId = "openvm.divrem.div_by_zero" ∨
      bucketId = "openvm.divrem.overflow_case" ∨
      bucketId = "openvm.divrem.rs1_eq_rs2" then
    some "openvm.audit_o15.divrem_special_case_on_invalid"
  else none

/-- `OpenVmBackend::bucket_has_direct_injection`. -/
def bucketHasDirectInjection (bucketId : String) : Bool :=
  (mapBucketToInjection bucketId).isSome

/-- The metadata object built for one Loop2 phase before the bug-specific
inserts. -/
def loop2PhaseMetadata (seedMeta : Metadata) (phaseName : String)
    (seedIdx : Nat) (isInjectedPhase hasTarget : Bool) : Metadata :=
  let m := mdInsert seedMeta "mode" (JVal.str "loop2_direct")
  let m := mdInsert m "phase" (JVal.str phaseName)
  let m := mdInsert m "seed_index" (JVal.num (seedIdx : Int))
  let m := mdInsert m "injected_phase" (JVal.boolean isInjectedPhase)
  mdInsert m "has_direct_injection_target" (JVal.boolean hasTarget)

/-- One phase of the Loop2 per-seed loop body
(`run_direct_bucket_mutate`): the corpus record always appended, and the
bug record appended when the phase mismatched, errored, or is an
under-constrained candidate. -/
def loop2Phase (cfg : LoopCfg) (seedMeta : Metadata) (seedIdx : Nat)
    (words : List Nat) (hasTarget : Bool) (phaseName : String)
    (isInjectedPhase : Bool) (stats : DirectRunStats) :
    CorpusRecord × Option BugRecord :=
  let mismatch := stats.mismatch_regs ≠ []
  let metadata := loop2PhaseMetadata seedMeta phaseName seedIdx
    isInjectedPhase hasTarget
  let corpus : CorpusRecord :=
    { zkvm_commit := cfg.zkvm_commit, rng_seed := cfg.rng_seed,
      timeout_ms := cfg.timeout_ms, timed_out := stats.timed_out,
      mismatch := mismatch, bucket_hits_sig := stats.bucket_hits_sig,
      instructions := words, metadata := metadata }
  let underconstrained := isInjectedPhase ∧ hasTarget ∧
    stats.backend_error = none ∧ stats.oracle_error = none
  let bug : Option BugRecord :=
    if mismatch ∨ stats.backend_error.isSome ∨ stats.oracle_error.isSome ∨
        underconstrained then
      let kind :=
        if stats.backend_error.isSome ∨ stats.oracle_error.isSome then
          "exception"
        else if mismatch then "mismatch"
        else "underconstrained_candidate"
      let metadata := mdInsert metadata "kind" (JVal.str kind)
      let metadata := mdInsert metadata "underconstrained_candidate"
        (JVal.boolean underconstrained)
      some
        { zkvm_commit := cfg.zkvm_commit, rng_seed := cfg.rng_seed,
          timeout_ms := cfg.timeout_ms, timed_out := stats.timed_out,
          bucket_hits_sig := stats.bucket_hits_sig,
          micro_op_count := stats.micro_op_count,
          backend_error := stats.backend_error,
          oracle_error := stats.oracle_error,
          bucket_hits := stats.bucket_hits,
          mismatch_regs := stats.mismatch_regs,
          instructions := words, metadata := metadata }
    else none
  (corpus, bug)

/-- The Loop2 per-seed body: run the baseline probe, rerun with injection
when a baseline bucket is a direct-injection anchor, and record every
phase.  `baseline` and `injected` are the two `run_single_eval` outcomes
(the injected one is consulted only when an anchor was hit). -/
def loop2Seed (cfg : LoopCfg) (seedMeta : Metadata) (seedIdx : Nat)
    (words : List Nat) (baseline injected : DirectRunStats) :
    List CorpusRecord × List BugRecord :=
  let hasTarget := baseline.bucket_hits.any
    (fun h => bucketHasDirectInjection h.bucket_id)
  let phases : List (String × Bool × DirectRunStats) :=
    [("baseline", false, baseline)] ++
      (if hasTarget then [("injected", true, injected)] else [])
  phases.foldl
    (fun acc phase =>
      let out := loop2Phase cfg seedMeta seedIdx words hasTarget
        phase.1 phase.2.1 phase.2.2
      (acc.1 ++ [out.1], acc.2 ++ out.2.toList))
    ([], [])

/-! ### Seed loading (`load_initial_seeds` in loop1.rs / loop2.rs) -/

/-- Modelled from the spec: `FuzzingSeed` of the beak-core crate (the
crate's `fuzz/seed.rs` is not part of the sources; §6 "Seed JSONL (input)"
documents one object per line `{"instructions": [u32, …], "metadata": {…}}`,
and the loaders treat `instructions` as a vector of raw `u32` words). -/
structure FuzzingSeed where
  instructions : List Nat
  metadata : Metadata

/-- `load_initial_seeds` (identical in loop1.rs and loop2.rs), as a pure
function over the file's lines.  `parse` abstracts `serde_json::from_str`;
a line whose parse fails hits the Rust `.expect("parse seed jsonl")`,
which aborts loading with a panic — modelled as `Except.error`. -/
def loadInitialSeeds (parse : String → Option FuzzingSeed)
    (maxInstructions : Nat) (isUsable : List Nat → Bool)
    (lines : List String) : Except String (List (List Nat × Metadata)) :=
  match lines with
  | [] => .ok []
  | line :: rest =>
    let s := rustTrim line
    if s = "" then loadInitialSeeds parse maxInstructions isUsable rest
    else
      match parse s with
      | none => .error "parse seed jsonl"
      | some seed =>
        let words := seed.instructions.take maxInstructions
        if ¬isUsable words then
          loadInitialSeeds parse maxInstructions isUsable rest
        else if words.any (fun w => (Beak.fromWord w).isNone) then
          loadInitialSeeds parse maxInstructions isUsable rest
        else
          match loadInitialSeeds parse maxInstructions isUsable rest with
          | .error e => .error e
          | .ok out => .ok ((words, seed.metadata) :: out)

/-! ### Oracle runner (`crates/beak-core/src/rv32im/oracle.rs`) -/

/-- `OracleMemoryModel`. -/
inductive OracleMemoryModel
  | sharedCodeData
  | splitCodeData
deriving DecidableEq, Repr

/-- `OracleConfig`. -/
structure OracleConfig where
  memory_model : OracleMemoryModel
  code_base : Nat
  data_size_bytes : Nat
deriving Repr

/-- rrs_lib `HartState` as far as the oracle consults it: the program
counter and the 32 registers. -/
structure Hart where
  pc : Nat
  regs : List Nat
deriving Repr

/-- One rrs_lib `InstructionExecutor::step`: `some` on `Ok(())` with the
mutated state, `none` on any of the faults the oracle breaks on.  The
executor itself is external to the repository, so the oracle is embedded
parametrically in it. -/
def OracleStep : Type := Hart → Option Hart

/-- The oracle's bounded step loop: run up to `fuel` steps, stopping early
on the first fault. -/
def runSteps (step : OracleStep) : Nat → Hart → Hart
  | 0, h => h
  | fuel + 1, h =>
    match step h with
    | some h' => runSteps step fuel h'
    | none => h

/-- Successful `n`-fold iteration of `step` (used to state the budget
bound). -/
def applySteps (step : OracleStep) : Nat → Hart → Option Hart
  | 0, h => some h
  | fuel + 1, h =>
    match step h with
    | some h' => applySteps step fuel h'
    | none => none

/-- `MAX_INSTRUCTIONS`. -/
def oracleMaxInstructions : Nat := 1000

/-- The initial program counter per `RISCVOracle::execute_with_config`:
0 in the shared model; in the split model the code base is bumped above
the zero-initialized data region and 4-byte aligned.  The `(data_words*4)
as u32` cast and the `saturating_add` are modelled explicitly. -/
def oracleInitialPc (cfg : OracleConfig) (_wordCount : Nat) : Nat :=
  match cfg.memory_model with
  | .sharedCodeData => 0
  | .splitCodeData =>
    let dataBytes := max cfg.data_size_bytes 4
    let dataWords := (dataBytes + 3) / 4
    let dataRegionLen := dataWords * 4 % 2 ^ 32
    let minCodeBase := min (dataRegionLen + 4) (2 ^ 32 - 1)
    let codeBase := max cfg.code_base minCodeBase
    codeBase / 4 * 4
  -- `wordCount` fixes the code-region length, which does not affect the pc.

/-- `RISCVOracle::execute_with_config`: zero registers, early return on the
empty program, at most 1000 steps, `regs[0]` forced to 0 on return. -/
def executeWithConfig (step : OracleStep) (words : List Nat)
    (cfg : OracleConfig) : List Nat :=
  if words.isEmpty then List.replicate 32 0
  else
    let h0 : Hart := ⟨oracleInitialPc cfg words.length, List.replicate 32 0⟩
    let hf := runSteps step oracleMaxInstructions h0
    hf.regs.set 0 0

/-! ### OpenVM backend seed gate (`projects/openvm-336f1a…/src/lib/backend.rs`) -/

/-- `is_openvm_supported_rv32_word`: fence-family opcodes (0x0f) are
filtered in this harness. -/
def isOpenVMSupportedWord (w : Nat) : Bool := w % 2 ^ 7 ≠ 0x0f

/-- `OpenVmBackend::is_usable_seed`. -/
def isUsableSeed (maxInstructions : Nat) (words : List Nat) : Bool :=
  if words.isEmpty then false
  else if words.length > maxInstructions then false
  else words.all (fun w => isOpenVMSupportedWord w ∧ (Beak.fromWord w).isSome)

end Core

namespace OpenVM

open Core (JVal)

/-- `Rs2Source` from the OpenVM chip-row model. -/
inductive Rs2Source
  | reg (ptr : Nat)
  | imm (value : Int)
deriving DecidableEq, Repr

/-- `rs2_reg_ptr` from `bucket.rs`. -/
def rs2RegPtr : Rs2Source → Option Nat
  | .reg p => some p
  | .imm _ => none

/-- `rs2_imm_value` from `bucket.rs`. -/
def rs2ImmValue : Rs2Source → Option Int
  | .imm v => some v
  | .reg _ => none

/-- `OpenVMChipRowKind`.  The 336f1a snapshot ships only `bucket.rs`,
`bucket_id.rs`, `interaction.rs` and `backend.rs`; the chip-row type is
reconstructed from its uses there and from the sibling snapshot's
`chip_row.rs`. -/
inductive ChipRowKind
  | baseAlu | shift | lessThan | mul | mulH | divRem
  | branchEqual | branchLessThan | jalLui | jalr | auipc
  | loadStore | loadSignExtend | phantom | program | connector | padding
deriving DecidableEq, Repr

/-- `kind_snake`: the serde snake_case rendering of `OpenVMChipRowKind`. -/
def kindSnake : ChipRowKind → String
  | .baseAlu => "base_alu"
  | .shift => "shift"
  | .lessThan => "less_than"
  | .mul => "mul"
  | .mulH => "mul_h"
  | .divRem => "div_rem"
  | .branchEqual => "branch_equal"
  | .branchLessThan => "branch_less_than"
  | .jalLui => "jal_lui"
  | .jalr => "jalr"
  | .auipc => "auipc"
  | .loadStore => "load_store"
  | .loadSignExtend => "load_sign_extend"
  | .phantom => "phantom"
  | .program => "program"
  | .connector => "connector"
  | .padding => "padding"

/-- `OpenVMChipRowBase`. -/
structure ChipRowBase where
  seq : Nat
  step_idx : Nat
  op_idx : Nat
  is_valid : Bool
  timestamp : Option Nat
  chip_name : String
deriving DecidableEq, Repr

/-- `OpenVMChipRowPayload` (fields as used by `match_bucket_hits`; limb
vectors are byte lists). -/
inductive ChipRowPayload
  | baseAlu (op rd_ptr rs1_ptr : Nat) (rs2 : Rs2Source) (a b c : List Nat)
  | shift (op rd_ptr rs1_ptr : Nat) (rs2 : Rs2Source) (a b c : List Nat)
  | lessThan (op rd_ptr rs1_ptr : Nat) (rs2 : Rs2Source) (a b c : List Nat)
  | mul (op rd_ptr rs1_ptr rs2_ptr : Nat) (a b c : List Nat)
  | mulH (op rd_ptr rs1_ptr rs2_ptr : Nat) (a b c : List Nat)
  | divRem (op rd_ptr rs1_ptr rs2_ptr : Nat) (a b c : List Nat)
  | branchEqual (op rs1_ptr rs2_ptr : Nat) (imm : Int) (is_taken : Bool)
      (from_pc to_pc : Nat) (a b : List Nat) (cmp_result : Bool)
  | branchLessThan (op rs1_ptr rs2_ptr : Nat) (imm : Int) (is_taken : Bool)
      (from_pc to_pc : Nat) (a b : List Nat) (cmp_result : Bool)
  | jalLui (op rd_ptr : Nat) (imm : Nat) (needs_write : Bool)
      (from_pc to_pc : Nat) (rd_data : List Nat) (is_jal : Bool)
  | jalr (op rd_ptr rs1_ptr : Nat) (imm : Int) (imm_sign needs_write : Bool)
      (from_pc to_pc rs1_val : Nat) (rd_data : List Nat)
  | auipc (op rd_ptr : Nat) (imm : Nat) (from_pc : Nat) (rd_data : List Nat)
  | loadStore (op rs1_ptr rd_rs2_ptr : Nat) (imm : Int) (imm_sign : Bool)
      (mem_as effective_ptr : Nat) (is_store needs_write is_load : Bool)
      (flags : List Nat) (read_data prev_data write_data : List Nat)
  | loadSignExtend (op rs1_ptr rd_ptr : Nat) (imm : Int) (imm_sign : Bool)
      (mem_as effective_ptr : Nat) (needs_write : Bool)
      (prev_data shifted_read_data : List Nat)
      (data_most_sig_bit shift_most_sig_bit : Bool)
      (opcode_loadh_flag opcode_loadb_flag1 opcode_loadb_flag0 : Bool)
  | phantom
  | program (opcode : Nat) (operands : List Nat) (execution_frequency : Nat)
  | connector (from_pc to_pc : Nat) (from_timestamp to_timestamp : Option Nat)
      (is_terminate : Bool) (exit_code : Option Nat)
  | padding (data : String)
deriving DecidableEq, Repr

/-- `OpenVMChipRowEnvelope`. -/
structure ChipRow where
  base : ChipRowBase
  kind : ChipRowKind
  payload : ChipRowPayload
deriving DecidableEq, Repr

/-- `InteractionDirection`. -/
inductive InteractionDirection
  | send | receive
deriving DecidableEq, Repr

/-- `OpenVMInteractionKind`. -/
inductive InteractionKind
  | execution | program | memory | rangeCheck | bitwise
deriving DecidableEq, Repr

/-- `OpenVMInteractionBase`. -/
structure InteractionBase where
  seq : Nat
  step_idx : Nat
  op_idx : Nat
  row_id : String
  direction : InteractionDirection
  kind : InteractionKind
  timestamp : Option Nat
deriving DecidableEq, Repr

/-- `OpenVMInteractionPayload`. -/
inductive InteractionPayload
  | execution (pc timestamp : Nat)
  | program (pc opcode : Nat) (operands : List Nat)
  | memory (address_space pointer : Nat) (data : List Nat) (timestamp : Nat)
  | rangeCheck (value max_bits : Nat)
  | bitwise (x y z op : Nat)
deriving DecidableEq, Repr

/-- `OpenVMInteractionEnvelope`. -/
structure Interaction where
  base : InteractionBase
  payload : InteractionPayload
deriving DecidableEq, Repr

/-- The 336f1a `OpenVMInsn` (fields per the matcher's uses: plain
`timestamp`/`next_timestamp` counters on each executed instruction). -/
structure Insn where
  seq : Nat
  step_idx : Nat
  pc : Nat
  next_pc : Nat
  timestamp : Nat
  next_timestamp : Nat
  word : Nat
deriving DecidableEq, Repr

/-- `OpenVMTrace` as the matcher consumes it: the three record lists.
`chip_rows_for_step` / `interaction_indices_for_step` are step-index
filters over these lists (the Rust side materializes the same sets in
index maps at construction time). -/
structure Trace where
  instructions : List Insn
  chip_rows : List ChipRow
  interactions : List Interaction
deriving DecidableEq, Repr

/-- The beak-core `BucketHit` as constructed by this snapshot's matcher
(`BucketHit::new(id, details)`). -/
structure BucketHit where
  bucket_id : String
  details : List (String × JVal)
deriving DecidableEq, Repr

/-- `OpenVMBucketId` from `bucket_id.rs`. -/
inductive BucketId
  | inputHasEcall | inputHasCsr | inputHasFence
  | timeStartNonzero | timeNonMonotonic | timeDeltaNotOne
  | timeRowTimestampMissing
  | rowInvalidInKind | rowInvalidSeen | rowPaddingKindSeen
  | regWriteX0 | regReadRs1X0 | regReadRs2X0
  | regAliasRdEqRs1 | regAliasRdEqRs2 | regAliasRs1EqRs2
  | immRs2IsImm | immValue0 | immValueMinus1 | immValueMin | immValueMax
  | immSignTrue
  | aluBaseAluSeen
  | divRemDivByZero | divRemOverflowCase | divRemRs1EqRs2
  | branchImm0 | branchImmPm2 | branchImmPm2048
  | auipcSeen
  | memAccessSeen | memAddrSpaceIs0 | memAddrSpaceIsReg | memAddrSpaceIsOther
  | memImmSignTrue | memEffectivePtrZero
  | memEffectivePtrUnaligned2 | memEffectivePtrUnaligned4
  | memAliasRs1EqRdRs2Load | memAliasRs1EqRdRs2Store | memAliasRs1EqRdRs2Other
  | systemTerminate | systemProgramRow
  | iaRangeCheckSeen | iaRangeCheckMaxBits0 | iaRangeCheckMaxBitsGt32
  | iaRangeCheckValueOutOfRange
  | iaExecutionSeen | iaExecutionPcZero | iaExecutionTsNonMonotonic
  | iaMemorySeen | iaMemoryAddrSpaceIs0 | iaMemoryAddrSpaceIsReg
  | iaMemoryAddrSpaceIsOther | iaMemoryPointerZero | iaMemoryTsNonMonotonic
  | iaBitwiseSeen | iaBitwiseOpRangeMode | iaBitwiseOpXor
  | iaBitwiseXEqY | iaBitwiseZEq0
  | loop2InactiveRowStepHasInteraction | loop2TargetBaseAluImmLimbs
deriving DecidableEq, Repr, Fintype

/-- The strum serializations of `OpenVMBucketId` (`as_ref` strings). -/
def bucketIdStr : BucketId → String
  | .inputHasEcall => "openvm.input.has_ecall"
  | .inputHasCsr => "openvm.input.has_csr"
  | .inputHasFence => "openvm.input.has_fence"
  | .timeStartNonzero => "openvm.time.start_nonzero"
  | .timeNonMonotonic => "openvm.time.non_monotonic"
  | .timeDeltaNotOne => "openvm.time.delta_not_one"
  | .timeRowTimestampMissing => "openvm.time.row_timestamp_missing"
  | .rowInvalidInKind => "openvm.row.invalid_in_kind"
  | .rowInvalidSeen => "openvm.row.invalid_seen"
  | .rowPaddingKindSeen => "openvm.row.padding_kind_seen"
  | .regWriteX0 => "openvm.reg.write_x0"
  | .regReadRs1X0 => "openvm.reg.read_rs1_x0"
  | .regReadRs2X0 => "openvm.reg.read_rs2_x0"
  | .regAliasRdEqRs1 => "openvm.reg.alias.rd_eq_rs1"
  | .regAliasRdEqRs2 => "openvm.reg.alias.rd_eq_rs2"
  | .regAliasRs1EqRs2 => "openvm.reg.alias.rs1_eq_rs2"
  | .immRs2IsImm => "openvm.imm.rs2_is_imm"
  | .immValue0 => "openvm.imm.value.0"
  | .immValueMinus1 => "openvm.imm.value.minus1"
  | .immValueMin => "openvm.imm.value.min"
  | .immValueMax => "openvm.imm.value.max"
  | .immSignTrue => "openvm.imm.sign_true"
  | .aluBaseAluSeen => "openvm.alu.base_alu_seen"
  | .divRemDivByZero => "openvm.divrem.div_by_zero"
  | .divRemOverflowCase => "openvm.divrem.overflow_case"
  | .divRemRs1EqRs2 => "openvm.divrem.rs1_eq_rs2"
  | .branchImm0 => "openvm.branch.imm.0"
  | .branchImmPm2 => "openvm.branch.imm.pm2"
  | .branchImmPm2048 => "openvm.branch.imm.pm2048"
  | .auipcSeen => "openvm.auipc.seen"
  | .memAccessSeen => "openvm.mem.access_seen"
  | .memAddrSpaceIs0 => "openvm.mem.addr_space.is_0"
  | .memAddrSpaceIsReg => "openvm.mem.addr_space.is_reg"
  | .memAddrSpaceIsOther => "openvm.mem.addr_space.is_other"
  | .memImmSignTrue => "openvm.mem.imm_sign_true"
  | .memEffectivePtrZero => "openvm.mem.effective_ptr_zero"
  | .memEffectivePtrUnaligned2 => "openvm.mem.effective_ptr_unaligned2"
  | .memEffectivePtrUnaligned4 => "openvm.mem.effective_ptr_unaligned4"
  | .memAliasRs1EqRdRs2Load => "openvm.mem.alias.rs1_eq_rd_rs2.load"
  | .memAliasRs1EqRdRs2Store => "openvm.mem.alias.rs1_eq_rd_rs2.store"
  | .memAliasRs1EqRdRs2Other => "openvm.mem.alias.rs1_eq_rd_rs2.other"
  | .systemTerminate => "openvm.system.terminate"
  | .systemProgramRow => "openvm.system.program_row"
  | .iaRangeCheckSeen => "openvm.interaction.range_check.seen"
  | .iaRangeCheckMaxBits0 => "openvm.interaction.range_check.max_bits_0"
  | .iaRangeCheckMaxBitsGt32 => "openvm.interaction.range_check.max_bits_gt_32"
  | .iaRangeCheckValueOutOfRange =>
      "openvm.interaction.range_check.value_out_of_range"
  | .iaExecutionSeen => "openvm.interaction.execution.seen"
  | .iaExecutionPcZero => "openvm.interaction.execution.pc_zero"
  | .iaExecutionTsNonMonotonic =>
      "openvm.interaction.execution.timestamp_non_monotonic"
  | .iaMemorySeen => "openvm.interaction.memory.seen"
  | .iaMemoryAddrSpaceIs0 => "openvm.interaction.memory.addr_space.is_0"
  | .iaMemoryAddrSpaceIsReg => "openvm.interaction.memory.addr_space.is_reg"
  | .iaMemoryAddrSpaceIsOther => "openvm.interaction.memory.addr_space.is_other"
  | .iaMemoryPointerZero => "openvm.interaction.memory.pointer_zero"
  | .iaMemoryTsNonMonotonic =>
      "openvm.interaction.memory.timestamp_non_monotonic"
  | .iaBitwiseSeen => "openvm.interaction.bitwise.seen"
  | .iaBitwiseOpRangeMode => "openvm.interaction.bitwise.op_range_mode"
  | .iaBitwiseOpXor => "openvm.interaction.bitwise.op_xor"
  | .iaBitwiseXEqY => "openvm.interaction.bitwise.x_eq_y"
  | .iaBitwiseZEq0 => "openvm.interaction.bitwise.z_eq_0"
  | .loop2InactiveRowStepHasInteraction =>
      "openvm.loop2.inactive_row.step_has_interaction"
  | .loop2TargetBaseAluImmLimbs => "openvm.loop2.target.base_alu_imm_limbs"

/-- `RV32_REGISTER_AS` from openvm_instructions (the register address
space is 1). -/
def rv32RegisterAS : Nat := 1

/-- `le_u32_from_bytes` from `bucket.rs`. -/
def leU32FromBytes (bytes : List Nat) : Option Nat :=
  if bytes.length < 4 then none
  else some (bytes.getD 0 0 + bytes.getD 1 0 * 2 ^ 8 +
    bytes.getD 2 0 * 2 ^ 16 + bytes.getD 3 0 * 2 ^ 24)

/-- `classify_imm_value` from `bucket.rs` (the tag is resolved to the
bucket id directly, as both call sites do). -/
def classifyImmValue (v : Int) : Option BucketId :=
  if v = 0 then some .immValue0
  else if v = -1 then some .immValueMinus1
  else if v = -(2 ^ 31) then some .immValueMin
  else if v = 2 ^ 31 - 1 then some .immValueMax
  else none

/-- The `(hits, seen)` accumulator threaded through `match_bucket_hits`. -/
structure HState where
  hits : List BucketHit
  seen : List String
deriving Repr

/-- `push_hit` from `bucket.rs`: per-trace dedup on the bucket-id string. -/
def pushHit (st : HState) (b : BucketId) (details : List (String × JVal)) :
    HState :=
  let id := bucketIdStr b
  if id ∈ st.seen then st
  else { hits := st.hits ++ [⟨id, details⟩], seen := id :: st.seen }

/-- `pushHit` guarded by a condition (renders `if cond { push_hit(…) }`). -/
def pushIf (cond : Bool) (st : HState) (b : BucketId)
    (details : List (String × JVal)) : HState :=
  if cond then pushHit st b details else st

/-- `access_alignment_buckets` from `bucket.rs`. -/
def accessAlignmentBuckets (st : HState) (effectivePtr : Nat) : HState :=
  let st := pushIf (effectivePtr % 2 ≠ 0) st .memEffectivePtrUnaligned2
    [("effective_ptr", .num effectivePtr)]
  pushIf (effectivePtr % 4 ≠ 0) st .memEffectivePtrUnaligned4
    [("effective_ptr", .num effectivePtr)]

end OpenVM

namespace OpenVM

/-- The interaction pass of `match_bucket_hits`: hits/seen plus the
`last_exec_ts` / `last_mem_ts` trackers. -/
structure IaState where
  hs : HState
  lastExecTs : Option Nat
  lastMemTs : Option Nat
deriving Repr

/-- One step of the interaction loop in `match_bucket_hits`. -/
def stepInteraction (st : IaState) (ia : Interaction) : IaState :=
  match ia.payload with
  | .execution pc timestamp =>
    let hs := pushHit st.hs .iaExecutionSeen []
    let hs := pushIf (pc = 0) hs .iaExecutionPcZero
      [("timestamp", .num timestamp)]
    let hs :=
      match st.lastExecTs with
      | some prev =>
        pushIf (timestamp ≤ prev) hs .iaExecutionTsNonMonotonic
          [("prev", .num prev), ("cur", .num timestamp)]
      | none => hs
    { st with hs := hs, lastExecTs := some timestamp }
  | .rangeCheck value maxBits =>
    let hs := pushHit st.hs .iaRangeCheckSeen []
    let hs := pushIf (maxBits = 0) hs .iaRangeCheckMaxBits0
      [("value", .num value)]
    let hs := pushIf (maxBits > 32) hs .iaRangeCheckMaxBitsGt32
      [("value", .num value), ("max_bits", .num maxBits)]
    let hs := pushIf (maxBits < 32 ∧ maxBits > 0 ∧ value ≥ 2 ^ maxBits) hs
      .iaRangeCheckValueOutOfRange
      [("value", .num value), ("max_bits", .num maxBits)]
    { st with hs := hs }
  | .memory addressSpace pointer _data timestamp =>
    let hs := pushHit st.hs .iaMemorySeen []
    let asBucket :=
      if addressSpace = 0 then BucketId.iaMemoryAddrSpaceIs0
      else if addressSpace = rv32RegisterAS then BucketId.iaMemoryAddrSpaceIsReg
      else BucketId.iaMemoryAddrSpaceIsOther
    let hs := pushHit hs asBucket [("address_space", .num addressSpace)]
    let hs := pushIf (pointer = 0) hs .iaMemoryPointerZero
      [("address_space", .num addressSpace), ("timestamp", .num timestamp)]
    let hs :=
      match st.lastMemTs with
      | some prev =>
        pushIf (timestamp ≤ prev) hs .iaMemoryTsNonMonotonic
          [("prev", .num prev), ("cur", .num timestamp)]
      | none => hs
    { st with hs := hs, lastMemTs := some timestamp }
  | .bitwise x y z op =>
    let hs := pushHit st.hs .iaBitwiseSeen []
    let hs :=
      if op = 0 then pushHit hs .iaBitwiseOpRangeMode []
      else pushHit hs .iaBitwiseOpXor []
    let hs := pushIf (x = y) hs .iaBitwiseXEqY
      [("x", .num x), ("op", .num op)]
    let hs := pushIf (z = 0) hs .iaBitwiseZEq0
      [("x", .num x), ("y", .num y), ("op", .num op)]
    { st with hs := hs }
  | .program _ _ _ => st

/-- The instruction-level time-bucket pass of `match_bucket_hits`. -/
def stepInsnTime (hs : HState) (insn : Insn) : HState :=
  if insn.next_timestamp ≤ insn.timestamp then
    pushHit hs .timeNonMonotonic
      [("step_idx", .num insn.step_idx), ("timestamp", .num insn.timestamp),
       ("next_timestamp", .num insn.next_timestamp)]
  else
    let dt := insn.next_timestamp - insn.timestamp
    pushIf (dt ≠ 1) hs .timeDeltaNotOne
      [("step_idx", .num insn.step_idx), ("delta", .num dt)]

/-- Chip-row pass state: hits/seen plus the three aggregate flags. -/
structure RowState where
  hs : HState
  sawInvalidRow : Bool
  sawPaddingKind : Bool
  sawMissingRowTimestamp : Bool
deriving Repr

/-- The register/alias/immediate bucket block shared verbatim by the
`BaseAlu` and the `Shift | LessThan` arms of `match_bucket_hits`
(x0 boundary, aliasing, then the rs2-immediate buckets). -/
def regAliasImmBuckets (hs : HState) (kind : String) (chipName : String)
    (rdPtr rs1Ptr : Nat) (rs2 : Rs2Source) : HState :=
  let hs := pushIf (rdPtr = 0) hs .regWriteX0
    [("kind", .str kind), ("chip_name", .str chipName)]
  let hs := pushIf (rs1Ptr = 0) hs .regReadRs1X0
    [("kind", .str kind), ("chip_name", .str chipName)]
  let hs :=
    match rs2RegPtr rs2 with
    | some p =>
      let hs := pushIf (p = 0) hs .regReadRs2X0
        [("kind", .str kind), ("chip_name", .str chipName)]
      let hs := pushIf (p = rs1Ptr) hs .regAliasRs1EqRs2
        [("kind", .str kind), ("rs1_ptr", .num rs1Ptr), ("rs2_ptr", .num p)]
      pushIf (p = rdPtr) hs .regAliasRdEqRs2
        [("kind", .str kind), ("rd_ptr", .num rdPtr), ("rs2_ptr", .num p)]
    | none => hs
  pushIf (rdPtr = rs1Ptr) hs .regAliasRdEqRs1
    [("kind", .str kind), ("rd_ptr", .num rdPtr), ("rs1_ptr", .num rs1Ptr)]

/-- The rs2-immediate bucket block (`imm.rs2_is_imm` and the extreme-value
buckets); `withLoop2Target` is true in the `BaseAlu` arm, which also pushes
the Loop2 target bucket. -/
def immProxyBuckets (hs : HState) (kind : String) (rs2 : Rs2Source)
    (withLoop2Target : Bool) : HState :=
  match rs2ImmValue rs2 with
  | some v =>
    let hs := pushHit hs .immRs2IsImm [("kind", .str kind), ("imm", .num v)]
    let hs :=
      match classifyImmValue v with
      | some b => pushHit hs b [("imm", .num v)]
      | none => hs
    pushIf withLoop2Target hs .loop2TargetBaseAluImmLimbs
      [("kind", .str kind), ("imm", .num v)]
  | none => hs

/-- The shared x0/alias block of the `Mul | MulH | DivRem` arm. -/
def mulFamilyRegBuckets (hs : HState) (kind : String) (chipName : String)
    (rdPtr rs1Ptr rs2Ptr : Nat) : HState :=
  let hs := pushIf (rdPtr = 0) hs .regWriteX0
    [("kind", .str kind), ("chip_name", .str chipName)]
  let hs := pushIf (rs1Ptr = 0) hs .regReadRs1X0
    [("kind", .str kind), ("chip_name", .str chipName)]
  let hs := pushIf (rs2Ptr = 0) hs .regReadRs2X0
    [("kind", .str kind), ("chip_name", .str chipName)]
  let hs := pushIf (rs1Ptr = rs2Ptr) hs .regAliasRs1EqRs2
    [("kind", .str kind), ("rs_ptr", .num rs1Ptr)]
  let hs := pushIf (rdPtr = rs1Ptr) hs .regAliasRdEqRs1
    [("kind", .str kind), ("rd_ptr", .num rdPtr), ("rs1_ptr", .num rs1Ptr)]
  pushIf (rdPtr = rs2Ptr) hs .regAliasRdEqRs2
    [("kind", .str kind), ("rd_ptr", .num rdPtr), ("rs2_ptr", .num rs2Ptr)]

/-- The DivRem special-case block (div-by-zero, signed overflow, rs1=rs2
pointer aliasing) — entered only for `DivRem` payloads. -/
def divRemSpecialBuckets (hs : HState) (b c : List Nat)
    (rs1Ptr rs2Ptr : Nat) : HState :=
  let hs :=
    match leU32FromBytes b, leU32FromBytes c with
    | some rs1, some rs2 =>
      let hs := pushIf (rs2 = 0) hs .divRemDivByZero
        [("rs1", .num rs1), ("rs2", .num rs2),
         ("rs1_ptr", .num rs1Ptr), ("rs2_ptr", .num rs2Ptr)]
      pushIf (rs1 = 0x80000000 ∧ rs2 = 0xFFFFFFFF) hs .divRemOverflowCase
        [("rs1", .num rs1), ("rs2", .num rs2)]
    | _, _ => hs
  pushIf (rs1Ptr = rs2Ptr) hs .divRemRs1EqRs2 [("rs_ptr", .num rs1Ptr)]

/-- The branch-family block of `match_bucket_hits`. -/
def branchBuckets (hs : HState) (kind : String) (rs1Ptr rs2Ptr : Nat)
    (imm : Int) (isTaken : Bool) : HState :=
  let hs := pushIf (rs1Ptr = 0) hs .regReadRs1X0 [("kind", .str kind)]
  let hs := pushIf (rs2Ptr = 0) hs .regReadRs2X0 [("kind", .str kind)]
  let hs := pushIf (rs1Ptr = rs2Ptr) hs .regAliasRs1EqRs2
    [("rs_ptr", .num rs1Ptr)]
  if imm = 0 then
    pushHit hs .branchImm0 [("is_taken", .boolean isTaken)]
  else if imm = 2 ∨ imm = -2 then
    pushHit hs .branchImmPm2
      [("imm", .num imm), ("is_taken", .boolean isTaken)]
  else if imm = 2048 ∨ imm = -2048 then
    pushHit hs .branchImmPm2048
      [("imm", .num imm), ("is_taken", .boolean isTaken)]
  else hs

/-- The `LoadStore` arm of `match_bucket_hits`. -/
def loadStoreBuckets (hs : HState) (rs1Ptr rdRs2Ptr : Nat) (immSign : Bool)
    (memAs effectivePtr : Nat) (isStore needsWrite isLoad : Bool) : HState :=
  let hs := pushHit hs .memAccessSeen []
  let memAsBucket :=
    if memAs = 0 then BucketId.memAddrSpaceIs0
    else if memAs = rv32RegisterAS then BucketId.memAddrSpaceIsReg
    else BucketId.memAddrSpaceIsOther
  let hs := pushHit hs memAsBucket [("mem_as", .num memAs)]
  let hs := pushIf immSign hs .memImmSignTrue []
  let hs := pushIf (effectivePtr = 0) hs .memEffectivePtrZero []
  let hs := accessAlignmentBuckets hs effectivePtr
  let hs := pushIf (rs1Ptr = 0) hs .regReadRs1X0 []
  let hs := pushIf (isStore ∧ rdRs2Ptr = 0) hs .regReadRs2X0 []
  let hs := pushIf (isLoad ∧ needsWrite ∧ rdRs2Ptr = 0) hs .regWriteX0 []
  if rs1Ptr = rdRs2Ptr then
    let aliasId :=
      if isStore then BucketId.memAliasRs1EqRdRs2Store
      else if isLoad then BucketId.memAliasRs1EqRdRs2Load
      else BucketId.memAliasRs1EqRdRs2Other
    pushHit hs aliasId
      [("rs1_ptr", .num rs1Ptr), ("rd_rs2_ptr", .num rdRs2Ptr)]
  else hs

/-- The `LoadSignExtend` arm of `match_bucket_hits`. -/
def loadSignExtendBuckets (hs : HState) (rs1Ptr rdPtr : Nat)
    (immSign : Bool) (memAs effectivePtr : Nat) (needsWrite : Bool) :
    HState :=
  let hs := pushHit hs .memAccessSeen []
  let hs := pushIf immSign hs .memImmSignTrue []
  let memAsBucket :=
    if memAs = 0 then BucketId.memAddrSpaceIs0
    else if memAs = rv32RegisterAS then BucketId.memAddrSpaceIsReg
    else BucketId.memAddrSpaceIsOther
  let hs := pushHit hs memAsBucket [("mem_as", .num memAs)]
  let hs := pushIf (effectivePtr = 0) hs .memEffectivePtrZero []
  let hs := accessAlignmentBuckets hs effectivePtr
  let hs := pushIf (rs1Ptr = 0) hs .regReadRs1X0 []
  pushIf (needsWrite ∧ rdPtr = 0) hs .regWriteX0 []

/-- One step of the chip-row loop in `match_bucket_hits`. -/
def stepChipRow (st : RowState) (row : ChipRow) : RowState :=
  let base := row.base
  let kind := kindSnake row.kind
  let hs := pushIf (¬base.is_valid) st.hs .rowInvalidInKind
    [("chip_name", .str base.chip_name), ("step_idx", .num base.step_idx),
     ("op_idx", .num base.op_idx), ("kind", .str kind)]
  let sawInvalid := st.sawInvalidRow ∨ ¬base.is_valid
  let sawMissingTs := st.sawMissingRowTimestamp ∨ base.timestamp.isNone
  let sawPadding := st.sawPaddingKind ∨ row.kind = ChipRowKind.padding
  let hs :=
    match row.payload with
    | .baseAlu _op rdPtr rs1Ptr rs2 _a _b _c =>
      let hs := regAliasImmBuckets hs kind base.chip_name rdPtr rs1Ptr rs2
      let hs := immProxyBuckets hs kind rs2 true
      pushHit hs .aluBaseAluSeen []
    | .shift _op rdPtr rs1Ptr rs2 _a _b _c =>
      let hs := regAliasImmBuckets hs kind base.chip_name rdPtr rs1Ptr rs2
      immProxyBuckets hs kind rs2 false
    | .lessThan _op rdPtr rs1Ptr rs2 _a _b _c =>
      let hs := regAliasImmBuckets hs kind base.chip_name rdPtr rs1Ptr rs2
      immProxyBuckets hs kind rs2 false
    | .mul _op rdPtr rs1Ptr rs2Ptr _a _b _c =>
      mulFamilyRegBuckets hs kind base.chip_name rdPtr rs1Ptr rs2Ptr
    | .mulH _op rdPtr rs1Ptr rs2Ptr _a _b _c =>
      mulFamilyRegBuckets hs kind base.chip_name rdPtr rs1Ptr rs2Ptr
    | .divRem _op rdPtr rs1Ptr rs2Ptr _a b c =>
      let hs := mulFamilyRegBuckets hs kind base.chip_name rdPtr rs1Ptr rs2Ptr
      divRemSpecialBuckets hs b c rs1Ptr rs2Ptr
    | .branchEqual _op rs1Ptr rs2Ptr imm isTaken _f _t _a _b _cr =>
      branchBuckets hs kind rs1Ptr rs2Ptr imm isTaken
    | .branchLessThan _op rs1Ptr rs2Ptr imm isTaken _f _t _a _b _cr =>
      branchBuckets hs kind rs1Ptr rs2Ptr imm isTaken
    | .jalLui _op rdPtr _imm needsWrite _f _t _rd isJal =>
      pushIf (needsWrite ∧ rdPtr = 0) hs .regWriteX0
        [("is_jal", .boolean isJal)]
    | .jalr _op rdPtr rs1Ptr imm immSign needsWrite _f _t _rv _rd =>
      let hs := pushIf (rs1Ptr = 0) hs .regReadRs1X0 []
      let hs := pushIf (needsWrite ∧ rdPtr = 0) hs .regWriteX0 []
      pushIf immSign hs .immSignTrue [("imm", .num imm)]
    | .auipc _op rdPtr _imm _f _rd =>
      let hs := pushHit hs .auipcSeen []
      pushIf (rdPtr = 0) hs .regWriteX0 []
    | .loadStore _op rs1Ptr rdRs2Ptr _imm immSign memAs effectivePtr
        isStore needsWrite isLoad _fl _rdta _pd _wd =>
      loadStoreBuckets hs rs1Ptr rdRs2Ptr immSign memAs effectivePtr
        isStore needsWrite isLoad
    | .loadSignExtend _op rs1Ptr rdPtr _imm immSign memAs effectivePtr
        needsWrite _pd _srd _dmsb _smsb _lh _lb1 _lb0 =>
      loadSignExtendBuckets hs rs1Ptr rdPtr immSign memAs effectivePtr
        needsWrite
    | .connector _f _t _ft _tt isTerminate exitCode =>
      pushIf isTerminate hs .systemTerminate
        [("exit_code", match exitCode with
          | some n => .num n
          | none => .null)]
    | .program _ _ _ => pushHit hs .systemProgramRow []
    | .phantom => hs
    | .padding _ => hs
  { hs := hs, sawInvalidRow := sawInvalid, sawPaddingKind := sawPadding,
    sawMissingRowTimestamp := sawMissingTs }

/-- `chip_rows_for_step` as a filter over the row list. -/
def chipRowsForStep (trace : Trace) (step : Nat) : List ChipRow :=
  trace.chip_rows.filter (fun r => r.base.step_idx = step)

/-- `interaction_indices_for_step` cardinality as a filter count. -/
def interactionCountForStep (trace : Trace) (step : Nat) : Nat :=
  (trace.interactions.filter (fun ia => ia.base.step_idx = step)).length

/-- The coarse Loop2 candidate scan at the end of `match_bucket_hits`. -/
def stepLoop2Scan (trace : Trace) (hs : HState) (step : Nat) : HState :=
  let hasInvalid := (chipRowsForStep trace step).any
    (fun r => ¬r.base.is_valid)
  if ¬hasInvalid then hs
  else
    let iaCount := interactionCountForStep trace step
    if iaCount = 0 then hs
    else
      pushHit hs .loop2InactiveRowStepHasInteraction
        [("step_idx", .num step), ("interaction_count", .num iaCount)]

/-- The final `(hits, seen)` accumulator of `match_bucket_hits`
(`projects/openvm-336f1a…/src/lib/bucket.rs`): single pass over
interactions, instruction timing, chip rows, the aggregate flags, and the
Loop2 inactive-row scan. -/
def matchFinalState (trace : Trace) : HState :=
  let ia := trace.interactions.foldl stepInteraction ⟨⟨[], []⟩, none, none⟩
  let hs := ia.hs
  let hs :=
    match trace.instructions.head? with
    | some first =>
      pushIf (first.timestamp ≠ 0) hs .timeStartNonzero
        [("timestamp", .num first.timestamp)]
    | none => hs
  let hs := trace.instructions.foldl stepInsnTime hs
  let rowState := trace.chip_rows.foldl stepChipRow ⟨hs, false, false, false⟩
  let hs := rowState.hs
  let hs := pushIf rowState.sawInvalidRow hs .rowInvalidSeen []
  let hs := pushIf rowState.sawPaddingKind hs .rowPaddingKindSeen []
  let hs := pushIf rowState.sawMissingRowTimestamp hs
    .timeRowTimestampMissing []
  let hs := (List.range trace.instructions.length).foldl
    (stepLoop2Scan trace) hs
  hs

/-- `match_bucket_hits`: the accumulated hit vector. -/
def matchBucketHits (trace : Trace) : List BucketHit :=
  (matchFinalState trace).hits

end OpenVM

end Beak


namespace Beak.OpenVM

/-- Observer: the effective pointer of a load/store or load-sign-extend
chip row (`none` for every other row kind). -/
def memEffectivePtr (r : ChipRow) : Option Nat :=
  match r.payload with
  | .loadStore _ _ _ _ _ _ ptr _ _ _ _ _ _ _ => some ptr
  | .loadSignExtend _ _ _ _ _ _ ptr _ _ _ _ _ _ _ _ => some ptr
  | _ => none

/-- Observer: the `(value, max_bits)` payload of a range-check
interaction. -/
def rangeCheckArgs (ia : Interaction) : Option (Nat × Nat) :=
  match ia.payload with
  | .rangeCheck value maxBits => some (value, maxBits)
  | _ => none

/-- The set of bucket ids emitted by the matcher for one trace. -/
def emittedIds (trace : Trace) : List String :=
  (matchBucketHits trace).map BucketHit.bucket_id

/-- Observer: the row is a memory row whose effective pointer is not
2-aligned. -/
def rowUnaligned2 (r : ChipRow) : Bool :=
  match memEffectivePtr r with
  | some p => p % 2 ≠ 0
  | none => false

/-- Observer: the row is a memory row whose effective pointer is not
4-aligned. -/
def rowUnaligned4 (r : ChipRow) : Bool :=
  match memEffectivePtr r with
  | some p => p % 4 ≠ 0
  | none => false

/-- Observer: the interaction is a range check that violates its bound the
way the matcher tests it (`0 < max_bits < 32` and `value ≥ 2^max_bits`). -/
def iaRangeViolation (ia : Interaction) : Bool :=
  match ia.payload with
  | .rangeCheck value maxBits => maxBits < 32 ∧ maxBits > 0 ∧ value ≥ 2 ^ maxBits
  | _ => false

/-- Over-approximation of the non-alignment bucket ids one chip row can
push (used to localise the alignment buckets). -/
def rowOtherIds (p : ChipRowPayload) : List String :=
  match p with
  | .baseAlu _ _ _ _ _ _ _ =>
    [bucketIdStr .regWriteX0, bucketIdStr .regReadRs1X0,
     bucketIdStr .regReadRs2X0, bucketIdStr .regAliasRs1EqRs2,
     bucketIdStr .regAliasRdEqRs2, bucketIdStr .regAliasRdEqRs1,
     bucketIdStr .immRs2IsImm, bucketIdStr .immValue0,
     bucketIdStr .immValueMinus1, bucketIdStr .immValueMin,
     bucketIdStr .immValueMax, bucketIdStr .loop2TargetBaseAluImmLimbs,
     bucketIdStr .aluBaseAluSeen]
  | .shift _ _ _ _ _ _ _ =>
    [bucketIdStr .regWriteX0, bucketIdStr .regReadRs1X0,
     bucketIdStr .regReadRs2X0, bucketIdStr .regAliasRs1EqRs2,
     bucketIdStr .regAliasRdEqRs2, bucketIdStr .regAliasRdEqRs1,
     bucketIdStr .immRs2IsImm, bucketIdStr .immValue0,
     bucketIdStr .immValueMinus1, bucketIdStr .immValueMin,
     bucketIdStr .immValueMax, bucketIdStr .loop2TargetBaseAluImmLimbs]
  | .lessThan _ _ _ _ _ _ _ =>
    [bucketIdStr .regWriteX0, bucketIdStr .regReadRs1X0,
     bucketIdStr .regReadRs2X0, bucketIdStr .regAliasRs1EqRs2,
     bucketIdStr .regAliasRdEqRs2, bucketIdStr .regAliasRdEqRs1,
     bucketIdStr .immRs2IsImm, bucketIdStr .immValue0,
     bucketIdStr .immValueMinus1, bucketIdStr .immValueMin,
     bucketIdStr .immValueMax, bucketIdStr .loop2TargetBaseAluImmLimbs]
  | .mul _ _ _ _ _ _ _ =>
    [bucketIdStr .regWriteX0, bucketIdStr .regReadRs1X0,
     bucketIdStr .regReadRs2X0, bucketIdStr .regAliasRs1EqRs2,
     bucketIdStr .regAliasRdEqRs1, bucketIdStr .regAliasRdEqRs2]
  | .mulH _ _ _ _ _ _ _ =>
    [bucketIdStr .regWriteX0, bucketIdStr .regReadRs1X0,
     bucketIdStr .regReadRs2X0, bucketIdStr .regAliasRs1EqRs2,
     bucketIdStr .regAliasRdEqRs1, bucketIdStr .regAliasRdEqRs2]
  | .divRem _ _ _ _ _ _ _ =>
    [bucketIdStr .regWriteX0, bucketIdStr .regReadRs1X0,
     bucketIdStr .regReadRs2X0, bucketIdStr .regAliasRs1EqRs2,
     bucketIdStr .regAliasRdEqRs1, bucketIdStr .regAliasRdEqRs2,
     bucketIdStr .divRemDivByZero, bucketIdStr .divRemOverflowCase,
     bucketIdStr .divRemRs1EqRs2]
  | .branchEqual _ _ _ _ _ _ _ _ _ _ =>
    [bucketIdStr .regReadRs1X0, bucketIdStr .regReadRs2X0,
     bucketIdStr .regAliasRs1EqRs2, bucketIdStr .branchImm0,
     bucketIdStr .branchImmPm2, bucketIdStr .branchImmPm2048]
  | .branchLessThan _ _ _ _ _ _ _ _ _ _ =>
    [bucketIdStr .regReadRs1X0, bucketIdStr .regReadRs2X0,
     bucketIdStr .regAliasRs1EqRs2, bucketIdStr .branchImm0,
     bucketIdStr .branchImmPm2, bucketIdStr .branchImmPm2048]
  | .jalLui _ _ _ _ _ _ _ _ => [bucketIdStr .regWriteX0]
  | .jalr _ _ _ _ _ _ _ _ _ _ =>
    [bucketIdStr .regReadRs1X0, bucketIdStr .regWriteX0,
     bucketIdStr .immSignTrue]
  | .auipc _ _ _ _ _ => [bucketIdStr .auipcSeen, bucketIdStr .regWriteX0]
  | .loadStore _ _ _ _ _ _ _ _ _ _ _ _ _ _ =>
    [bucketIdStr .memAccessSeen, bucketIdStr .memAddrSpaceIs0,
     bucketIdStr .memAddrSpaceIsReg, bucketIdStr .memAddrSpaceIsOther,
     bucketIdStr .memImmSignTrue, bucketIdStr .memEffectivePtrZero,
     bucketIdStr .regReadRs1X0, bucketIdStr .regReadRs2X0,
     bucketIdStr .regWriteX0, bucketIdStr .memAliasRs1EqRdRs2Store,
     bucketIdStr .memAliasRs1EqRdRs2Load,
     bucketIdStr .memAliasRs1EqRdRs2Other]
  | .loadSignExtend _ _ _ _ _ _ _ _ _ _ _ _ _ _ _ =>
    [bucketIdStr .memAccessSeen, bucketIdStr .memImmSignTrue,
     bucketIdStr .memAddrSpaceIs0, bucketIdStr .memAddrSpaceIsReg,
     bucketIdStr .memAddrSpaceIsOther, bucketIdStr .memEffectivePtrZero,
     bucketIdStr .regReadRs1X0, bucketIdStr .regWriteX0]
  | .connector _ _ _ _ _ _ => [bucketIdStr .systemTerminate]
  | .program _ _ _ => [bucketIdStr .systemProgramRow]
  | .phantom => []
  | .padding _ => []

/-- Over-approximation of the bucket ids one interaction can push, aside
from the range-check violation bucket. -/
def iaOtherIds (p : InteractionPayload) : List String :=
  match p with
  | .execution _ _ =>
    [bucketIdStr .iaExecutionSeen, bucketIdStr .iaExecutionPcZero,
     bucketIdStr .iaExecutionTsNonMonotonic]
  | .rangeCheck _ _ =>
    [bucketIdStr .iaRangeCheckSeen, bucketIdStr .iaRangeCheckMaxBits0,
     bucketIdStr .iaRangeCheckMaxBitsGt32]
  | .memory _ _ _ _ =>
    [bucketIdStr .iaMemorySeen, bucketIdStr .iaMemoryAddrSpaceIs0,
     bucketIdStr .iaMemoryAddrSpaceIsReg,
     bucketIdStr .iaMemoryAddrSpaceIsOther,
     bucketIdStr .iaMemoryPointerZero,
     bucketIdStr .iaMemoryTsNonMonotonic]
  | .bitwise _ _ _ _ =>
    [bucketIdStr .iaBitwiseSeen, bucketIdStr .iaBitwiseOpRangeMode,
     bucketIdStr .iaBitwiseOpXor, bucketIdStr .iaBitwiseXEqY,
     bucketIdStr .iaBitwiseZEq0]
  | .program _ _ _ => []


/-- A concrete load/store chip row with effective pointer 2 (2-aligned but
not 4-aligned). -/
def c2Row : ChipRow :=
  { base := { seq := 0, step_idx := 0, op_idx := 0, is_valid := true,
              timestamp := some 0, chip_name := "Rv32LoadStoreAdapter" },
    kind := .loadStore,
    payload := .loadStore 0 8 12 0 false 2 2 false true true [] [] [] [] }

/-- A one-row trace whose only memory access has effective pointer 2. -/
def c2Trace : Trace := { instructions := [], chip_rows := [c2Row],
                         interactions := [] }

/-- A concrete load/store chip row with effective pointer 3. -/
def c2wRow : ChipRow :=
  { base := { seq := 0, step_idx := 0, op_idx := 0, is_valid := true,
              timestamp := some 0, chip_name := "Rv32LoadStoreAdapter" },
    kind := .loadStore,
    payload := .loadStore 0 8 12 0 false 2 3 false true true [] [] [] [] }

/-- A one-row trace whose only memory access has effective pointer 3. -/
def c2wTrace : Trace := { instructions := [], chip_rows := [c2wRow],
                          interactions := [] }

/-- A concrete range-check interaction with `value = 1`, `max_bits = 0`
(so `value >= 2 ^ max_bits` holds). -/
def c3Ia : Interaction :=
  { base := { seq := 0, step_idx := 0, op_idx := 0, row_id := "r0",
              direction := .send, kind := .rangeCheck, timestamp := some 0 },
    payload := .rangeCheck 1 0 }

/-- A trace whose only interaction is the `max_bits = 0` range check. -/
def c3Trace : Trace := { instructions := [], chip_rows := [],
                         interactions := [c3Ia] }

/-- A concrete range-check interaction with `value = 9`, `max_bits = 3`. -/
def c3wIa : Interaction :=
  { base := { seq := 0, step_idx := 0, op_idx := 0, row_id := "r0",
              direction := .send, kind := .rangeCheck, timestamp := some 0 },
    payload := .rangeCheck 9 3 }

/-- A trace whose only interaction is the out-of-range range check. -/
def c3wTrace : Trace := { instructions := [], chip_rows := [],
                          interactions := [c3wIa] }

end Beak.OpenVM

/-! ## Theorems -/

namespace Beak

open Core

/-- Helper: the loader only emits seeds whose (truncated) word lists pass
the usability filter and decode fully. -/
theorem loadInitialSeeds_ok_sound (parse : String → Option FuzzingSeed)
    (maxInstructions : Nat) (isUsable : List Nat → Bool)
    (lines : List String) (out : List (List Nat × Metadata))
    (h : loadInitialSeeds parse maxInstructions isUsable lines = .ok out) :
    ∀ p ∈ out, isUsable p.1 = true ∧ ∀ w ∈ p.1, (fromWord w).isSome := by
  induction lines generalizing out with
  | nil =>
    simp only [loadInitialSeeds] at h
    cases h
    simp
  | cons line rest ih =>
    simp only [loadInitialSeeds] at h
    by_cases hemp : rustTrim line = ""
    · simp only [hemp, if_pos rfl] at h
      exact ih out h
    · rw [if_neg hemp] at h
      cases hp : parse (rustTrim line) with
      | none => rw [hp] at h; cases h
      | some seed =>
        rw [hp] at h
        dsimp only at h
        by_cases hu : isUsable (seed.instructions.take maxInstructions) = true
        · rw [if_neg (by simp [hu])] at h
          by_cases hdec : (seed.instructions.take maxInstructions).any
              (fun w => (fromWord w).isNone) = true
          · rw [if_pos hdec] at h
            exact ih out h
          · rw [if_neg hdec] at h
            cases hrest : loadInitialSeeds parse maxInstructions isUsable rest with
            | error e => rw [hrest] at h; cases h
            | ok tailOut =>
              rw [hrest] at h
              cases h
              intro p hp'
              rcases List.mem_cons.mp hp' with hhead | htail
              · subst hhead
                refine ⟨hu, ?_⟩
                intro w hw
                by_contra hno
                exact hdec (List.any_eq_true.mpr ⟨w, hw, by
                  simp [Option.isNone_iff_eq_none]
                  cases hfw : fromWord w with
                  | none => rfl
                  | some i => simp [hfw, Option.isSome] at hno⟩)
              · exact ih tailOut hrest p htail
        · rw [if_pos (by simp [hu])] at h
          exact ih out h

/-- Helper: if every nonempty (trimmed) line parses, the loader succeeds. -/
theorem loadInitialSeeds_ok_of_parses (parse : String → Option FuzzingSeed)
    (maxInstructions : Nat) (isUsable : List Nat → Bool)
    (lines : List String)
    (h : ∀ l ∈ lines, rustTrim l ≠ "" → (parse (rustTrim l)).isSome) :
    ∃ out, loadInitialSeeds parse maxInstructions isUsable lines = .ok out := by
  induction lines with
  | nil => exact ⟨[], rfl⟩
  | cons line rest ih =>
    have hrest : ∀ l ∈ rest, rustTrim l ≠ "" → (parse (rustTrim l)).isSome :=
      fun l hl => h l (List.mem_cons_of_mem _ hl)
    obtain ⟨out, hout⟩ := ih hrest
    simp only [loadInitialSeeds]
    by_cases hemp : rustTrim line = ""
    · rw [if_pos hemp]
      exact ⟨out, hout⟩
    · rw [if_neg hemp]
      have := h line (List.mem_cons_self _ _) hemp
      cases hp : parse (rustTrim line) with
      | none => rw [hp] at this; cases this
      | some seed =>
        dsimp only
        by_cases hu : isUsable (seed.instructions.take maxInstructions) = true
        · rw [if_neg (by simp [hu])]
          by_cases hdec : (seed.instructions.take maxInstructions).any
              (fun w => (fromWord w).isNone) = true
          · rw [if_pos hdec]
            exact ⟨out, hout⟩
          · rw [if_neg hdec, hout]
            exact ⟨_, rfl⟩
        · rw [if_pos (by simp [hu])]
          exact ⟨out, hout⟩

end Beak

namespace Beak

/-- Helper: `regs.set 0 0` has register 0 equal to 0 (with `getD` default
0 on the impossible empty case). -/
theorem getD_set_zero (l : List Nat) : (l.set 0 0).getD 0 0 = 0 := by
  cases l <;> simp

/-- Helper: `runSteps` preserves the register-file length. -/
theorem runSteps_regs_length (step : Core.OracleStep)
    (hstep : ∀ h h', step h = some h' → h'.regs.length = h.regs.length)
    (fuel : Nat) (h : Core.Hart) :
    (Core.runSteps step fuel h).regs.length = h.regs.length := by
  induction fuel generalizing h with
  | zero => rfl
  | succ n ih =>
    simp only [Core.runSteps]
    cases hc : step h with
    | none => rfl
    | some h' => rw [ih h', hstep h h' hc]

/-- Helper: a `runSteps` execution is some successful `applySteps`
iteration of at most `fuel` steps. -/
theorem runSteps_eq_applySteps (step : Core.OracleStep) (fuel : Nat)
    (h : Core.Hart) :
    ∃ n ≤ fuel, ∃ hf, Core.applySteps step n h = some hf ∧
      Core.runSteps step fuel h = hf := by
  induction fuel generalizing h with
  | zero => exact ⟨0, Nat.le_refl 0, h, rfl, rfl⟩
  | succ n ih =>
    simp only [Core.runSteps]
    cases hc : step h with
    | none => exact ⟨0, Nat.zero_le _, h, rfl, rfl⟩
    | some h' =>
      obtain ⟨m, hm, hf, happ, hrun⟩ := ih h'
      exact ⟨m + 1, Nat.succ_le_succ hm, hf,
        by simp only [Core.applySteps, hc]; exact happ, hrun⟩

end Beak

/-- C9: the oracle always returns a 32-register state with register 0
forced to 0; the empty program yields the all-zero register file; and
execution is bounded by the 1000-instruction budget — the result is the
register file after some successful prefix of at most 1000 steps (with
`regs[0]` zeroed), never an error.  `step` abstracts one rrs_lib executor
step (which preserves the 32-entry register file). -/
theorem c9_oracle_regzero_empty_budget (step : Beak.Core.OracleStep)
    (words : List Nat) (cfg : Beak.Core.OracleConfig)
    (hstep : ∀ h h', step h = some h' → h'.regs.length = h.regs.length) :
    (Beak.Core.executeWithConfig step words cfg).getD 0 0 = 0 ∧
    (Beak.Core.executeWithConfig step words cfg).length = 32 ∧
    (words = [] →
      Beak.Core.executeWithConfig step words cfg = List.replicate 32 0) ∧
    (words ≠ [] → ∃ n ≤ Beak.Core.oracleMaxInstructions, ∃ hf,
      Beak.Core.applySteps step n
        ⟨Beak.Core.oracleInitialPc cfg words.length, List.replicate 32 0⟩ =
          some hf ∧
      Beak.Core.executeWithConfig step words cfg = hf.regs.set 0 0) := by
  refine ⟨?_, ?_, ?_, ?_⟩
  · unfold Beak.Core.executeWithConfig
    split
    · rfl
    · exact Beak.getD_set_zero _
  · unfold Beak.Core.executeWithConfig
    split
    · simp
    · rw [List.length_set]
      rw [Beak.runSteps_regs_length step hstep]
      simp
  · intro hw
    unfold Beak.Core.executeWithConfig
    simp [hw]
  · intro hw
    unfold Beak.Core.executeWithConfig
    rw [if_neg (by simp [hw])]
    obtain ⟨n, hn, hf, happ, hrun⟩ := Beak.runSteps_eq_applySteps step
      Beak.Core.oracleMaxInstructions
      ⟨Beak.Core.oracleInitialPc cfg words.length, List.replicate 32 0⟩
    refine ⟨n, hn, hf, happ, ?_⟩
    show (Beak.Core.runSteps step Beak.Core.oracleMaxInstructions
      ⟨Beak.Core.oracleInitialPc cfg words.length,
        List.replicate 32 0⟩).regs.set 0 0 = hf.regs.set 0 0
    rw [hrun]

/-- C9 witness: the faulting step function on the one-instruction program
`[0x13]` (`addi x0, x0, 0`). -/
theorem c9_oracle_regzero_empty_budget_witness :
    (Beak.Core.executeWithConfig (fun _ => none) [0x13]
      ⟨.sharedCodeData, 0, 0⟩).getD 0 0 = 0 ∧
    (Beak.Core.executeWithConfig (fun _ => none) [0x13]
      ⟨.sharedCodeData, 0, 0⟩).length = 32 ∧
    ([0x13] = ([] : List Nat) →
      Beak.Core.executeWithConfig (fun _ => none) [0x13]
        ⟨.sharedCodeData, 0, 0⟩ = List.replicate 32 0) ∧
    (([0x13] : List Nat) ≠ [] → ∃ n ≤ Beak.Core.oracleMaxInstructions, ∃ hf,
      Beak.Core.applySteps (fun _ => none) n
        ⟨Beak.Core.oracleInitialPc ⟨.sharedCodeData, 0, 0⟩ 1,
          List.replicate 32 0⟩ = some hf ∧
      Beak.Core.executeWithConfig (fun _ => none) [0x13]
        ⟨.sharedCodeData, 0, 0⟩ = hf.regs.set 0 0) :=
  c9_oracle_regzero_empty_budget (fun _ => none) [0x13]
    ⟨.sharedCodeData, 0, 0⟩ (fun _ _ hc => Option.noConfusion hc)

/-- C10: `OpenVmBackend::is_usable_seed` rejects the empty program,
over-long programs, and any program containing a word with the
fence-family opcode 0x0f — although such a word (e.g. `0x0000000f`,
`fence`) decodes under the codec — and consequently the seed loader run
with this gate never emits a program containing a fence word. -/
theorem c10_backend_seed_gate (maxInstructions : Nat) (words : List Nat) :
    (words = [] →
      Beak.Core.isUsableSeed maxInstructions words = false) ∧
    (words.length > maxInstructions →
      Beak.Core.isUsableSeed maxInstructions words = false) ∧
    ((∃ w ∈ words, w % 2 ^ 7 = 0x0f) →
      Beak.Core.isUsableSeed maxInstructions words = false) ∧
    (Beak.fromWord 0x0000000f).isSome = true ∧
    (∀ parse lines out,
      Beak.Core.loadInitialSeeds parse maxInstructions
        (Beak.Core.isUsableSeed maxInstructions) lines = .ok out →
      ∀ p ∈ out, ∀ w ∈ p.1, w % 2 ^ 7 ≠ 0x0f) := by
  refine ⟨?_, ?_, ?_, by decide, ?_⟩
  · intro h
    simp [Beak.Core.isUsableSeed, h]
  · intro h
    simp [Beak.Core.isUsableSeed, h]
  · rintro ⟨w, hw, hmod⟩
    unfold Beak.Core.isUsableSeed
    rw [if_neg (by simp only [List.isEmpty_iff]; rintro rfl; cases hw)]
    split
    · rfl
    · apply List.all_eq_false.mpr
      refine ⟨w, hw, ?_⟩
      have hsup : Beak.Core.isOpenVMSupportedWord w = false := by
        simp only [Beak.Core.isOpenVMSupportedWord]
        simp only [ne_eq, decide_not, Bool.not_eq_false', decide_eq_true_eq]
        omega
      simp [hsup]
  · intro parse lines out hload p hp w hw
    have := (Beak.loadInitialSeeds_ok_sound parse maxInstructions
      (Beak.Core.isUsableSeed maxInstructions) lines out hload p hp).1
    unfold Beak.Core.isUsableSeed at this
    rw [if_neg (by
      simp only [List.isEmpty_iff]
      intro h
      rw [h] at hw
      exact absurd hw (List.not_mem_nil w))] at this
    split at this
    · cases this
    · have hall := List.all_eq_true.mp this w hw
      simp only [decide_eq_true_eq] at hall
      have h1 : w % 2 ^ 7 ≠ 0x0f := by
        simpa [Beak.Core.isOpenVMSupportedWord] using hall.1
      exact h1

/-- C10 witness: a concrete program containing the canonical `fence` word
is rejected by the gate. -/
theorem c10_backend_seed_gate_witness :
    Beak.Core.isUsableSeed 256 [0x13, 0x0000000f] = false :=
  (c10_backend_seed_gate 256 [0x13, 0x0000000f]).2.2.1
    ⟨0x0000000f, by decide, by decide⟩

/-- C8 counterexample: a single unparsable line aborts seed loading with
the `expect("parse seed jsonl")` panic instead of being skipped — even
though a later line is perfectly loadable. -/
theorem c8_counterexample_parse_aborts :
    Beak.Core.loadInitialSeeds
      (fun s => if s = "good" then some ⟨[0x13], []⟩ else none)
      256 (fun _ => true) ["bad line", "good"] =
      Except.error "parse seed jsonl" := by
  rfl


/-- C8 (amended): seeds whose (truncated) word list fails the usability
gate or contains an undecodable word are skipped and loading continues —
if every nonempty line parses, loading succeeds, and every loaded seed is
usable and fully decodable; an unparsable line, however, aborts loading
(the `expect` panic) rather than being skipped. -/
theorem c8_seed_loading_skips_bad_seeds :
    (∀ (parse : String → Option Beak.Core.FuzzingSeed) (maxInstructions : Nat)
      (isUsable : List Nat → Bool) (lines : List String),
      (∀ l ∈ lines, Beak.rustTrim l ≠ "" →
        (parse (Beak.rustTrim l)).isSome) →
      ∃ out, Beak.Core.loadInitialSeeds parse maxInstructions isUsable
        lines = .ok out) ∧
    (∀ (parse : String → Option Beak.Core.FuzzingSeed) (maxInstructions : Nat)
      (isUsable : List Nat → Bool) (lines : List String) out,
      Beak.Core.loadInitialSeeds parse maxInstructions isUsable lines =
        .ok out →
      ∀ p ∈ out, isUsable p.1 = true ∧ ∀ w ∈ p.1,
        (Beak.fromWord w).isSome) :=
  ⟨fun parse maxI isUsable lines h =>
    Beak.loadInitialSeeds_ok_of_parses parse maxI isUsable lines h,
   fun parse maxI isUsable lines out h =>
    Beak.loadInitialSeeds_ok_sound parse maxI isUsable lines out h⟩

/-- C8 witness: a loadable single-line file. -/
theorem c8_seed_loading_skips_bad_seeds_witness :
    ∃ out, Beak.Core.loadInitialSeeds (fun _ => some ⟨[0x13], []⟩) 256
      (fun _ => true) ["good"] = .ok out :=
  c8_seed_loading_skips_bad_seeds.1 (fun _ => some ⟨[0x13], []⟩) 256
    (fun _ => true) ["good"] (fun _ _ _ => rfl)

namespace Beak

/-- Helper: `find?` commutes with a filter that keeps everything the
search predicate accepts. -/
theorem find_filter_of_imp {α : Type} (l : List α) (p q : α → Bool)
    (h : ∀ x, p x = true → q x = true) :
    (l.filter q).find? p = l.find? p := by
  induction l with
  | nil => rfl
  | cons a t ih =>
    by_cases hq : q a = true
    · rw [List.filter_cons_of_pos hq]
      by_cases hp : p a = true
      · rw [List.find?_cons_of_pos _ hp, List.find?_cons_of_pos _ hp]
      · rw [List.find?_cons_of_neg _ (by simp [hp]),
          List.find?_cons_of_neg _ (by simp [hp])]
        exact ih
    · rw [List.filter_cons_of_neg (by simp [hq])]
      have hp : ¬p a = true := fun hpa => hq (h a hpa)
      rw [List.find?_cons_of_neg _ (by simp [hp])]
      exact ih

/-- Helper: looking a key up after a metadata insert. -/
theorem mdGet_mdInsert (m : Core.Metadata) (k k' : String) (v : Core.JVal) :
    Core.mdGet (Core.mdInsert m k' v) k =
      if k = k' then some v else Core.mdGet m k := by
  by_cases h : k = k'
  · subst h
    simp [Core.mdGet, Core.mdInsert]
  · rw [if_neg h]
    unfold Core.mdGet Core.mdInsert
    rw [List.find?_cons_of_neg _ (by simp; exact fun hk => absurd hk.symm h)]
    rw [find_filter_of_imp]
    intro x hx
    simp only [decide_eq_true_eq] at hx
    simp only [ne_eq, decide_not, Bool.not_eq_false', decide_eq_true_eq,
      Bool.not_eq_true']
    simp only [hx]
    exact decide_eq_false (fun hh => h (hh ▸ rfl))

/-- Helper: the `phase` entry of the Loop2 per-phase metadata. -/
theorem loop2PhaseMetadata_phase (seedMeta : Core.Metadata)
    (phaseName : String) (seedIdx : Nat) (isInjectedPhase hasTarget : Bool) :
    Core.mdGet (Core.loop2PhaseMetadata seedMeta phaseName seedIdx
      isInjectedPhase hasTarget) "phase" = some (.str phaseName) := by
  unfold Core.loop2PhaseMetadata
  rw [mdGet_mdInsert, if_neg (by decide), mdGet_mdInsert, if_neg (by decide),
    mdGet_mdInsert, if_neg (by decide), mdGet_mdInsert, if_pos rfl]

end Beak


namespace Beak

/-- Helper: the corpus record of a Loop2 phase carries the phase name. -/
theorem loop2Phase_corpus_phase (cfg : Core.LoopCfg) (seedMeta : Core.Metadata)
    (seedIdx : Nat) (words : List Nat) (hasTarget : Bool) (phaseName : String)
    (isInjectedPhase : Bool) (stats : Core.DirectRunStats) :
    Core.mdGet (Core.loop2Phase cfg seedMeta seedIdx words hasTarget
      phaseName isInjectedPhase stats).1.metadata "phase" =
      some (.str phaseName) := by
  unfold Core.loop2Phase
  exact loop2PhaseMetadata_phase _ _ _ _ _

/-- Helper: a clean injected phase (no mismatch, no errors) emits the
under-constrained-candidate bug record. -/
theorem loop2Phase_injected_clean (cfg : Core.LoopCfg)
    (seedMeta : Core.Metadata) (seedIdx : Nat) (words : List Nat)
    (stats : Core.DirectRunStats) (hmr : stats.mismatch_regs = [])
    (hbe : stats.backend_error = none) (hoe : stats.oracle_error = none) :
    ∃ bug, (Core.loop2Phase cfg seedMeta seedIdx words true "injected" true
        stats).2 = some bug ∧
      Core.mdGet bug.metadata "kind" =
        some (.str "underconstrained_candidate") ∧
      Core.mdGet bug.metadata "phase" = some (.str "injected") := by
  unfold Core.loop2Phase
  rw [hmr, hbe, hoe]
  simp only [ne_eq, not_true_eq_false, Option.isSome_none,
    Bool.false_eq_true, false_or, or_false, false_and, true_and,
    if_false, if_true, and_self, eq_self_iff_true]
  refine ⟨_, rfl, ?_, ?_⟩
  · rw [mdGet_mdInsert, if_neg (by decide), mdGet_mdInsert, if_pos rfl]
  · rw [mdGet_mdInsert, if_neg (by decide), mdGet_mdInsert,
      if_neg (by decide)]
    exact loop2PhaseMetadata_phase _ _ _ _ _

end Beak

/-- C7: in the Loop2 direct driver, every processed phase appends a corpus
record whose `metadata.phase` is `baseline` or `injected` (exactly one per
phase, in order); and when the injected phase runs and yields no register
mismatch, no backend error and no oracle error, a bug record with
`metadata.kind = "underconstrained_candidate"` is appended for it. -/
theorem c7_loop2_underconstrained_candidate (cfg : Beak.Core.LoopCfg)
    (seedMeta : Beak.Core.Metadata) (seedIdx : Nat) (words : List Nat)
    (baseline injected : Beak.Core.DirectRunStats) :
    (∀ c ∈ (Beak.Core.loop2Seed cfg seedMeta seedIdx words baseline
        injected).1,
      Beak.Core.mdGet c.metadata "phase" = some (.str "baseline") ∨
      Beak.Core.mdGet c.metadata "phase" = some (.str "injected")) ∧
    ((Beak.Core.loop2Seed cfg seedMeta seedIdx words baseline
        injected).1.map (fun c => Beak.Core.mdGet c.metadata "phase") =
      some (Beak.Core.JVal.str "baseline") ::
        (if baseline.bucket_hits.any
            (fun h => Beak.Core.bucketHasDirectInjection h.bucket_id) then
          [some (Beak.Core.JVal.str "injected")]
        else [])) ∧
    (baseline.bucket_hits.any
        (fun h => Beak.Core.bucketHasDirectInjection h.bucket_id) = true →
      injected.mismatch_regs = [] → injected.backend_error = none →
      injected.oracle_error = none →
      ∃ bug ∈ (Beak.Core.loop2Seed cfg seedMeta seedIdx words baseline
          injected).2,
        Beak.Core.mdGet bug.metadata "kind" =
          some (.str "underconstrained_candidate") ∧
        Beak.Core.mdGet bug.metadata "phase" = some (.str "injected")) := by
  by_cases hT : baseline.bucket_hits.any
      (fun h => Beak.Core.bucketHasDirectInjection h.bucket_id) = true
  · refine ⟨?_, ?_, ?_⟩
    · intro c hc
      simp only [Beak.Core.loop2Seed, hT, if_pos, List.foldl_cons,
        List.foldl_nil, List.singleton_append, List.nil_append] at hc
      simp only [List.mem_append, List.mem_singleton, List.not_mem_nil,
        or_false, false_or, List.mem_cons] at hc
      rcases hc with rfl | rfl
      · exact Or.inl (Beak.loop2Phase_corpus_phase _ _ _ _ _ _ _ _)
      · exact Or.inr (Beak.loop2Phase_corpus_phase _ _ _ _ _ _ _ _)
    · simp only [Beak.Core.loop2Seed, hT, if_pos, List.foldl_cons,
        List.foldl_nil, List.singleton_append, List.nil_append,
        List.map_append, List.map_cons, List.map_nil]
      rw [Beak.loop2Phase_corpus_phase, Beak.loop2Phase_corpus_phase]
    · intro _ hmr hbe hoe
      obtain ⟨bug, hbug, hkind, hphase⟩ := Beak.loop2Phase_injected_clean
        cfg seedMeta seedIdx words injected hmr hbe hoe
      refine ⟨bug, ?_, hkind, hphase⟩
      simp only [Beak.Core.loop2Seed, hT, if_pos, List.foldl_cons,
        List.foldl_nil, List.singleton_append, List.nil_append]
      apply List.mem_append.mpr
      right
      rw [hbug]
      simp
  · rw [Bool.not_eq_true] at hT
    refine ⟨?_, ?_, ?_⟩
    · intro c hc
      simp only [Beak.Core.loop2Seed, hT, Bool.false_eq_true, if_false,
        List.append_nil, List.foldl_cons, List.foldl_nil,
        List.nil_append] at hc
      simp only [List.mem_append, List.mem_singleton, List.not_mem_nil,
        or_false, false_or, List.mem_cons] at hc
      rcases hc with rfl
      exact Or.inl (Beak.loop2Phase_corpus_phase _ _ _ _ _ _ _ _)
    · simp only [Beak.Core.loop2Seed, hT, Bool.false_eq_true, if_false,
        List.append_nil, List.foldl_cons, List.foldl_nil, List.nil_append,
        List.map_cons, List.map_nil]
      rw [Beak.loop2Phase_corpus_phase]
    · intro h
      rw [hT] at h
      cases h

/-- C7 witness: a seed whose baseline hits the
`loop2.target.base_alu_imm_limbs` anchor and whose injected run is clean. -/
theorem c7_loop2_underconstrained_candidate_witness :
    ∃ bug ∈ (Beak.Core.loop2Seed ⟨"c", 1, 50⟩ [] 0 [0x13]
        ⟨"s", 0, [⟨"openvm.loop2.target.base_alu_imm_limbs",
          Beak.Core.BucketType.unknown, []⟩], [], none, none, false⟩
        ⟨"s", 0, [], [], none, none, false⟩).2,
      Beak.Core.mdGet bug.metadata "kind" =
        some (.str "underconstrained_candidate") ∧
      Beak.Core.mdGet bug.metadata "phase" = some (.str "injected") :=
  (c7_loop2_underconstrained_candidate ⟨"c", 1, 50⟩ [] 0 [0x13]
      ⟨"s", 0, [⟨"openvm.loop2.target.base_alu_imm_limbs",
        Beak.Core.BucketType.unknown, []⟩], [], none, none, false⟩
      ⟨"s", 0, [], [], none, none, false⟩).2.2
    (by rfl) rfl rfl rfl

namespace Beak

/-- Helper: summed pulls after a point update grow by exactly one. -/
theorem sum_pulls_set (l : List Core.ArmStats) (i : Nat) (a : Core.ArmStats)
    (tr : ℚ) (ha : l.get? i = some a) :
    ((l.set i ⟨a.pulls + 1, tr⟩).map Core.ArmStats.pulls).sum =
      (l.map Core.ArmStats.pulls).sum + 1 := by
  induction l generalizing i with
  | nil => cases ha
  | cons b t ih =>
    cases i with
    | zero =>
      cases ha
      simp [List.set]
      omega
    | succ n =>
      simp only [List.set, List.map_cons, List.sum_cons]
      rw [ih n ha]
      omega

/-- Helper: the fresh-id fold of `is_interesting` computes the cardinality
of the set difference between the run's bucket ids and the session's
seen-id set (and accumulates the union into the seen set). -/
theorem absorbBucketIds_spec (hits : List Core.BucketHit)
    (seen : List String) (c : Nat) :
    (hits.foldl
      (fun acc h =>
        if h.bucket_id ∈ acc.1 then acc else (h.bucket_id :: acc.1, acc.2 + 1))
      (seen, c)).2 =
      c + ((hits.map Core.BucketHit.bucket_id).toFinset \ seen.toFinset).card := by
  induction hits generalizing seen c with
  | nil => simp
  | cons h t ih =>
    simp only [List.foldl_cons, List.map_cons, List.toFinset_cons]
    by_cases hmem : h.bucket_id ∈ seen
    · rw [if_pos (by simpa using hmem)]
      rw [ih seen c]
      congr 1
      congr 1
      rw [Finset.insert_sdiff_of_mem]
      simpa using hmem
    · rw [if_neg (by simpa using hmem)]
      rw [ih (h.bucket_id :: seen) (c + 1)]
      have hrw : (t.map Core.BucketHit.bucket_id).toFinset \
          (h.bucket_id :: seen).toFinset =
          ((t.map Core.BucketHit.bucket_id).toFinset \ seen.toFinset).erase
            h.bucket_id := by
        rw [List.toFinset_cons]
        ext x
        simp only [Finset.mem_sdiff, Finset.mem_insert, Finset.mem_erase,
          not_or]
        tauto
      rw [hrw]
      have hx : insert h.bucket_id (t.map Core.BucketHit.bucket_id).toFinset
          \ seen.toFinset =
          insert h.bucket_id
            ((t.map Core.BucketHit.bucket_id).toFinset \ seen.toFinset) := by
        rw [Finset.insert_sdiff_of_not_mem]
        simpa using hmem
      rw [hx]
      set A := (t.map Core.BucketHit.bucket_id).toFinset \ seen.toFinset with hA
      by_cases hxa : h.bucket_id ∈ A
      · rw [Finset.insert_eq_self.mpr hxa]
        have := Finset.card_erase_add_one hxa
        omega
      · rw [Finset.card_insert_of_not_mem hxa,
          Finset.erase_eq_of_not_mem hxa]
        omega

/-- Helper: `absorbBucketIds` count, specialised to the initial count 0. -/
theorem absorbBucketIds_count (seenIds : List String)
    (hits : List Core.BucketHit) :
    (Core.absorbBucketIds seenIds hits).2 =
      ((hits.map Core.BucketHit.bucket_id).toFinset \ seenIds.toFinset).card := by
  unfold Core.absorbBucketIds
  rw [absorbBucketIds_spec hits seenIds 0]
  omega

end Beak

/-- C5: when the previous mutation recorded arm `i`, one feedback call
performs exactly one bandit update: arm `i`'s pulls grow by 1 (total pulls
grow by exactly 1, all other arms unchanged) and its total reward grows by
`(1 if the canonical signature is non-empty and new to the session else 0)
+ 0.25 × (number of distinct bucket ids in the run's hits not previously
seen)`; the last-arm slot is consumed. -/
theorem c5_bandit_reward_accounting (cfg : Beak.Core.LoopCfg)
    (st : Beak.Core.FeedbackState) (stats : Beak.Core.RunStats)
    (words : List Nat) (i : Nat) (a : Beak.Core.ArmStats)
    (hArm : st.lastArm = some i) (hi : i < st.arms.length)
    (ha : st.arms.get? i = some a) :
    (Beak.Core.isInterestingStep cfg st stats words).reward =
      (if stats.bucket_hits_sig ≠ "" ∧ stats.bucket_hits_sig ∉ st.seen
        then 1 else 0) +
      (((stats.bucket_hits.map Beak.Core.BucketHit.bucket_id).toFinset \
        st.seenBucketIds.toFinset).card : ℚ) * (1 / 4) ∧
    (Beak.Core.isInterestingStep cfg st stats words).state.arms.get? i =
      some ⟨a.pulls + 1, a.total_reward +
        (Beak.Core.isInterestingStep cfg st stats words).reward⟩ ∧
    (∀ j, j ≠ i →
      (Beak.Core.isInterestingStep cfg st stats words).state.arms.get? j =
        st.arms.get? j) ∧
    ((Beak.Core.isInterestingStep cfg st stats words).state.arms.map
        Beak.Core.ArmStats.pulls).sum =
      (st.arms.map Beak.Core.ArmStats.pulls).sum + 1 ∧
    (Beak.Core.isInterestingStep cfg st stats words).state.lastArm = none := by
  have hne : ¬st.arms.isEmpty = true := by
    cases harms : st.arms with
    | nil => rw [harms] at hi; cases hi
    | cons b t => simp [harms]
  have hmin : min i (st.arms.length - 1) = i := by omega
  have hreward : (Beak.Core.isInterestingStep cfg st stats words).reward =
      (if stats.bucket_hits_sig ≠ "" ∧ stats.bucket_hits_sig ∉ st.seen
        then 1 else 0) +
      (((stats.bucket_hits.map Beak.Core.BucketHit.bucket_id).toFinset \
        st.seenBucketIds.toFinset).card : ℚ) * (1 / 4) := by
    unfold Beak.Core.isInterestingStep
    dsimp only
    rw [Beak.absorbBucketIds_count]
    by_cases h1 : stats.bucket_hits_sig = "" <;>
      by_cases h2 : stats.bucket_hits_sig ∈ st.seen <;>
      simp [h1, h2]
  have hupd : ∀ r : ℚ, Beak.Core.banditUpdate st.arms i r =
      st.arms.set i ⟨a.pulls + 1, a.total_reward + r⟩ := by
    intro r
    unfold Beak.Core.banditUpdate
    rw [if_neg hne]
    dsimp only
    rw [hmin, ha]
  have harms : (Beak.Core.isInterestingStep cfg st stats words).state.arms =
      st.arms.set i ⟨a.pulls + 1, a.total_reward +
        (Beak.Core.isInterestingStep cfg st stats words).reward⟩ := by
    rw [← hupd]
    conv_lhs => unfold Beak.Core.isInterestingStep
    conv_rhs => rw [Beak.Core.isInterestingStep]
    dsimp only
    rw [hArm]
  refine ⟨hreward, ?_, ?_, ?_, ?_⟩
  · rw [harms]
    exact List.get?_set_eq_of_lt _ hi
  · intro j hj
    rw [harms]
    exact List.get?_set_ne _ _ (fun hh => hj hh.symm)
  · rw [harms]
    exact Beak.sum_pulls_set st.arms i a _ ha
  · unfold Beak.Core.isInterestingStep
    rfl

/-- C5 witness: a brand-new signature plus two brand-new bucket ids yields
reward 1.5 on the recorded arm. -/
theorem c5_bandit_reward_accounting_witness :
    (Beak.Core.isInterestingStep ⟨"c", 1, 50⟩
      ⟨[], [], [], [⟨0, 0⟩, ⟨0, 0⟩], some 1⟩
      ⟨"newsig", 2, 0, [⟨"a", .unknown, []⟩, ⟨"b", .unknown, []⟩], [],
        none, false⟩ [0x13]).reward = 3 / 2 := by
  have h := c5_bandit_reward_accounting ⟨"c", 1, 50⟩
      ⟨[], [], [], [⟨0, 0⟩, ⟨0, 0⟩], some 1⟩
      ⟨"newsig", 2, 0, [⟨"a", .unknown, []⟩, ⟨"b", .unknown, []⟩], [],
        none, false⟩ [0x13] 1 ⟨0, 0⟩ rfl (by decide) rfl
  rw [h.1, if_pos (by simp)]
  have hc : ((([⟨"a", .unknown, []⟩, ⟨"b", .unknown, []⟩] :
      List Beak.Core.BucketHit).map Beak.Core.BucketHit.bucket_id).toFinset
      \ ([] : List String).toFinset).card = 2 := by decide
  rw [hc]
  norm_num

namespace Beak.OpenVM

/-- Helper: membership in `seen` after a `push_hit`. -/
theorem seen_pushHit (s : HState) (b : BucketId) (d : List (String × Core.JVal))
    (x : String) :
    x ∈ (pushHit s b d).seen ↔ x = bucketIdStr b ∨ x ∈ s.seen := by
  unfold pushHit
  dsimp only
  split
  · constructor
    · exact Or.inr
    · rintro (rfl | hx)
      · assumption
      · exact hx
  · simp [List.mem_cons]

/-- Helper: membership in `seen` after a conditional `push_hit`. -/
theorem seen_pushIf (c : Bool) (s : HState) (b : BucketId)
    (d : List (String × Core.JVal)) (x : String) :
    x ∈ (pushIf c s b d).seen ↔
      (c = true ∧ x = bucketIdStr b) ∨ x ∈ s.seen := by
  unfold pushIf
  cases c with
  | false => simp
  | true => simp [seen_pushHit]

/-- Helper: the hit-vector ids and the `seen` set coincide, and
`push_hit` preserves that. -/
theorem inv_pushHit (s : HState) (b : BucketId) (d : List (String × Core.JVal))
    (h : ∀ y, y ∈ s.hits.map BucketHit.bucket_id ↔ y ∈ s.seen) :
    ∀ y, y ∈ (pushHit s b d).hits.map BucketHit.bucket_id ↔
      y ∈ (pushHit s b d).seen := by
  intro y
  unfold pushHit
  dsimp only
  split
  · exact h y
  · simp only [List.map_append, List.map_cons, List.map_nil,
      List.mem_append, List.mem_singleton, List.mem_cons]
    rw [h y]
    tauto

/-- Helper: `pushIf` preserves the hits/seen coincidence. -/
theorem inv_pushIf (c : Bool) (s : HState) (b : BucketId)
    (d : List (String × Core.JVal))
    (h : ∀ y, y ∈ s.hits.map BucketHit.bucket_id ↔ y ∈ s.seen) :
    ∀ y, y ∈ (pushIf c s b d).hits.map BucketHit.bucket_id ↔
      y ∈ (pushIf c s b d).seen := by
  unfold pushIf
  cases c with
  | false => exact h
  | true => exact inv_pushHit s b d h

/-- Helper: `seen` only grows under `pushHit`. -/
theorem seen_sub_pushHit (s : HState) (b : BucketId)
    (d : List (String × Core.JVal)) (x : String) (h : x ∈ s.seen) :
    x ∈ (pushHit s b d).seen :=
  (seen_pushHit s b d x).mpr (Or.inr h)

/-- Helper: `seen` only grows under `pushIf`. -/
theorem seen_sub_pushIf (c : Bool) (s : HState) (b : BucketId)
    (d : List (String × Core.JVal)) (x : String) (h : x ∈ s.seen) :
    x ∈ (pushIf c s b d).seen :=
  (seen_pushIf c s b d x).mpr (Or.inr h)

/-- Helper: monotonicity of a fold whose step only grows the projected
seen set. -/
theorem foldl_seen_mono {σ α : Type} (f : σ → α → σ) (sn : σ → List String)
    (mono : ∀ s a y, y ∈ sn s → y ∈ sn (f s a)) (l : List α) (s₀ : σ)
    (y : String) (h : y ∈ sn s₀) : y ∈ sn (l.foldl f s₀) := by
  induction l generalizing s₀ with
  | nil => exact h
  | cons a t ih => exact ih (f s₀ a) (mono s₀ a y h)

/-- Helper: a fold emits `x` if some element satisfies the hit
condition. -/
theorem foldl_seen_of_exists {σ α : Type} (f : σ → α → σ)
    (sn : σ → List String) (x : String) (P : α → Prop)
    (mono : ∀ s a y, y ∈ sn s → y ∈ sn (f s a))
    (hit : ∀ s a, P a → x ∈ sn (f s a)) (l : List α) (s₀ : σ)
    (h : ∃ a ∈ l, P a) : x ∈ sn (l.foldl f s₀) := by
  induction l generalizing s₀ with
  | nil => exact absurd h (by simp)
  | cons a t ih =>
    rcases h with ⟨a', ha', hP⟩
    rcases List.mem_cons.mp ha' with rfl | hmem
    · exact foldl_seen_mono f sn mono t (f s₀ a') x (hit s₀ a' hP)
    · exact ih (f s₀ a) ⟨a', hmem, hP⟩

/-- Helper: anything a fold emits was in the start state or is accounted
for by some element. -/
theorem foldl_seen_cases {σ α : Type} (f : σ → α → σ)
    (sn : σ → List String) (x : String) (Q : α → Prop)
    (step : ∀ s a, x ∈ sn (f s a) → x ∈ sn s ∨ Q a) (l : List α) (s₀ : σ)
    (h : x ∈ sn (l.foldl f s₀)) : x ∈ sn s₀ ∨ ∃ a ∈ l, Q a := by
  induction l generalizing s₀ with
  | nil => exact Or.inl h
  | cons a t ih =>
    rcases ih (f s₀ a) h with hs | ⟨a', ha', hQ⟩
    · rcases step s₀ a hs with hs' | hQ
      · exact Or.inl hs'
      · exact Or.inr ⟨a, List.mem_cons_self a t, hQ⟩
    · exact Or.inr ⟨a', List.mem_cons_of_mem a ha', hQ⟩

end Beak.OpenVM

namespace Beak.OpenVM

/-- Helper: a fold preserves any state invariant its step preserves. -/
theorem foldl_inv {σ α : Type} (f : σ → α → σ) (I : σ → Prop)
    (pres : ∀ s a, I s → I (f s a)) (l : List α) (s₀ : σ) (h : I s₀) :
    I (l.foldl f s₀) := by
  induction l generalizing s₀ with
  | nil => exact h
  | cons a t ih => exact ih (f s₀ a) (pres s₀ a h)

/-- Helper: hits/seen coincidence through `access_alignment_buckets`. -/
theorem inv_accessAlignmentBuckets (s : HState) (p : Nat)
    (h : ∀ y, y ∈ s.hits.map BucketHit.bucket_id ↔ y ∈ s.seen) :
    ∀ y, y ∈ (accessAlignmentBuckets s p).hits.map BucketHit.bucket_id ↔
      y ∈ (accessAlignmentBuckets s p).seen := by
  unfold accessAlignmentBuckets
  exact inv_pushIf _ _ _ _ (inv_pushIf _ _ _ _ h)

/-- Helper: hits/seen coincidence through the register/alias block. -/
theorem inv_regAliasImmBuckets (hs : HState) (kind chipName : String)
    (rdPtr rs1Ptr : Nat) (rs2 : Rs2Source)
    (h : ∀ y, y ∈ hs.hits.map BucketHit.bucket_id ↔ y ∈ hs.seen) :
    ∀ y, y ∈ (regAliasImmBuckets hs kind chipName rdPtr rs1Ptr
        rs2).hits.map BucketHit.bucket_id ↔
      y ∈ (regAliasImmBuckets hs kind chipName rdPtr rs1Ptr rs2).seen := by
  unfold regAliasImmBuckets
  cases rs2 <;> dsimp only [rs2RegPtr] <;>
    repeat (first | exact h | apply inv_pushIf | apply inv_pushHit)

/-- Helper: hits/seen coincidence through the rs2-immediate block. -/
theorem inv_immProxyBuckets (hs : HState) (kind : String) (rs2 : Rs2Source)
    (w : Bool)
    (h : ∀ y, y ∈ hs.hits.map BucketHit.bucket_id ↔ y ∈ hs.seen) :
    ∀ y, y ∈ (immProxyBuckets hs kind rs2 w).hits.map
        BucketHit.bucket_id ↔ y ∈ (immProxyBuckets hs kind rs2 w).seen := by
  unfold immProxyBuckets
  cases rs2 with
  | reg p => exact h
  | imm v =>
    dsimp only [rs2ImmValue]
    cases classifyImmValue v <;> dsimp only <;>
      repeat (first | exact h | apply inv_pushIf | apply inv_pushHit)

/-- Helper: hits/seen coincidence through the mul-family block. -/
theorem inv_mulFamilyRegBuckets (hs : HState) (kind chipName : String)
    (rdPtr rs1Ptr rs2Ptr : Nat)
    (h : ∀ y, y ∈ hs.hits.map BucketHit.bucket_id ↔ y ∈ hs.seen) :
    ∀ y, y ∈ (mulFamilyRegBuckets hs kind chipName rdPtr rs1Ptr
        rs2Ptr).hits.map BucketHit.bucket_id ↔
      y ∈ (mulFamilyRegBuckets hs kind chipName rdPtr rs1Ptr rs2Ptr).seen := by
  unfold mulFamilyRegBuckets
  repeat (first | exact h | apply inv_pushIf | apply inv_pushHit)

/-- Helper: hits/seen coincidence through the div/rem special block. -/
theorem inv_divRemSpecialBuckets (hs : HState) (b c : List Nat)
    (rs1Ptr rs2Ptr : Nat)
    (h : ∀ y, y ∈ hs.hits.map BucketHit.bucket_id ↔ y ∈ hs.seen) :
    ∀ y, y ∈ (divRemSpecialBuckets hs b c rs1Ptr rs2Ptr).hits.map
        BucketHit.bucket_id ↔
      y ∈ (divRemSpecialBuckets hs b c rs1Ptr rs2Ptr).seen := by
  unfold divRemSpecialBuckets
  cases leU32FromBytes b <;> cases leU32FromBytes c <;> dsimp only <;>
    repeat (first | exact h | apply inv_pushIf | apply inv_pushHit)

/-- Helper: hits/seen coincidence through the branch block. -/
theorem inv_branchBuckets (hs : HState) (kind : String)
    (rs1Ptr rs2Ptr : Nat) (imm : Int) (isTaken : Bool)
    (h : ∀ y, y ∈ hs.hits.map BucketHit.bucket_id ↔ y ∈ hs.seen) :
    ∀ y, y ∈ (branchBuckets hs kind rs1Ptr rs2Ptr imm isTaken).hits.map
        BucketHit.bucket_id ↔
      y ∈ (branchBuckets hs kind rs1Ptr rs2Ptr imm isTaken).seen := by
  unfold branchBuckets
  repeat (first | exact h | apply inv_pushIf | apply inv_pushHit | split)

/-- Helper: hits/seen coincidence through the `LoadStore` block. -/
theorem inv_loadStoreBuckets (hs : HState) (rs1Ptr rdRs2Ptr : Nat)
    (immSign : Bool) (memAs effectivePtr : Nat)
    (isStore needsWrite isLoad : Bool)
    (h : ∀ y, y ∈ hs.hits.map BucketHit.bucket_id ↔ y ∈ hs.seen) :
    ∀ y, y ∈ (loadStoreBuckets hs rs1Ptr rdRs2Ptr immSign memAs
        effectivePtr isStore needsWrite isLoad).hits.map
        BucketHit.bucket_id ↔
      y ∈ (loadStoreBuckets hs rs1Ptr rdRs2Ptr immSign memAs effectivePtr
        isStore needsWrite isLoad).seen := by
  unfold loadStoreBuckets
  repeat (first
    | exact h
    | apply inv_pushIf
    | apply inv_pushHit
    | apply inv_accessAlignmentBuckets
    | split)

/-- Helper: hits/seen coincidence through the `LoadSignExtend` block. -/
theorem inv_loadSignExtendBuckets (hs : HState) (rs1Ptr rdPtr : Nat)
    (immSign : Bool) (memAs effectivePtr : Nat) (needsWrite : Bool)
    (h : ∀ y, y ∈ hs.hits.map BucketHit.bucket_id ↔ y ∈ hs.seen) :
    ∀ y, y ∈ (loadSignExtendBuckets hs rs1Ptr rdPtr immSign memAs
        effectivePtr needsWrite).hits.map BucketHit.bucket_id ↔
      y ∈ (loadSignExtendBuckets hs rs1Ptr rdPtr immSign memAs
        effectivePtr needsWrite).seen := by
  unfold loadSignExtendBuckets
  repeat (first
    | exact h
    | apply inv_pushIf
    | apply inv_pushHit
    | apply inv_accessAlignmentBuckets)

/-- Helper: hits/seen coincidence through one interaction step. -/
theorem inv_stepInteraction (st : IaState) (ia : Interaction)
    (h : ∀ y, y ∈ st.hs.hits.map BucketHit.bucket_id ↔ y ∈ st.hs.seen) :
    ∀ y, y ∈ (stepInteraction st ia).hs.hits.map BucketHit.bucket_id ↔
      y ∈ (stepInteraction st ia).hs.seen := by
  unfold stepInteraction
  rcases ia with ⟨base, payload⟩
  cases payload with
  | execution pc ts =>
    dsimp only
    cases st.lastExecTs <;> dsimp only <;>
      repeat (first | exact h | apply inv_pushIf | apply inv_pushHit)
  | program p o ops => exact h
  | memory a p d ts =>
    dsimp only
    cases st.lastMemTs <;> dsimp only <;>
      repeat (first | exact h | apply inv_pushIf | apply inv_pushHit)
  | rangeCheck v mb =>
    dsimp only
    repeat (first | exact h | apply inv_pushIf | apply inv_pushHit)
  | bitwise x y z op =>
    dsimp only
    apply inv_pushIf
    apply inv_pushIf
    split
    · apply inv_pushHit
      apply inv_pushHit
      exact h
    · apply inv_pushHit
      apply inv_pushHit
      exact h

/-- Helper: hits/seen coincidence through one instruction-time step. -/
theorem inv_stepInsnTime (hs : HState) (insn : Insn)
    (h : ∀ y, y ∈ hs.hits.map BucketHit.bucket_id ↔ y ∈ hs.seen) :
    ∀ y, y ∈ (stepInsnTime hs insn).hits.map BucketHit.bucket_id ↔
      y ∈ (stepInsnTime hs insn).seen := by
  unfold stepInsnTime
  repeat (first | exact h | apply inv_pushIf | apply inv_pushHit | split)

/-- Helper: hits/seen coincidence through one chip-row step. -/
theorem inv_stepChipRow (st : RowState) (row : ChipRow)
    (h : ∀ y, y ∈ st.hs.hits.map BucketHit.bucket_id ↔ y ∈ st.hs.seen) :
    ∀ y, y ∈ (stepChipRow st row).hs.hits.map BucketHit.bucket_id ↔
      y ∈ (stepChipRow st row).hs.seen := by
  unfold stepChipRow
  rcases row with ⟨base, kind, payload⟩
  cases payload <;> dsimp only <;>
    repeat (first
      | (exact inv_pushIf _ _ _ _ h)
      | exact h
      | apply inv_pushIf
      | apply inv_pushHit
      | apply inv_regAliasImmBuckets
      | apply inv_immProxyBuckets
      | apply inv_mulFamilyRegBuckets
      | apply inv_divRemSpecialBuckets
      | apply inv_branchBuckets
      | apply inv_loadStoreBuckets
      | apply inv_loadSignExtendBuckets
      | split)

/-- Helper: hits/seen coincidence through one Loop2-scan step. -/
theorem inv_stepLoop2Scan (trace : Trace) (hs : HState) (step : Nat)
    (h : ∀ y, y ∈ hs.hits.map BucketHit.bucket_id ↔ y ∈ hs.seen) :
    ∀ y, y ∈ (stepLoop2Scan trace hs step).hits.map BucketHit.bucket_id ↔
      y ∈ (stepLoop2Scan trace hs step).seen := by
  unfold stepLoop2Scan
  dsimp only
  split
  · exact h
  · split
    · exact h
    · apply inv_pushHit
      exact h

/-- Helper: the matcher's final hit ids and its final seen set coincide. -/
theorem emitted_iff_seen (trace : Trace) (x : String) :
    x ∈ emittedIds trace ↔ x ∈ (matchFinalState trace).seen := by
  have h0 : ∀ y, y ∈ (⟨⟨[], []⟩, none, none⟩ : IaState).hs.hits.map
      BucketHit.bucket_id ↔ y ∈ (⟨⟨[], []⟩, none, none⟩ : IaState).hs.seen := by
    intro y
    simp
  have h1 := foldl_inv stepInteraction
    (fun st => ∀ y, y ∈ st.hs.hits.map BucketHit.bucket_id ↔ y ∈ st.hs.seen)
    inv_stepInteraction trace.interactions ⟨⟨[], []⟩, none, none⟩ h0
  have h2 : ∀ y, y ∈ (match trace.instructions.head? with
      | some first =>
        pushIf (first.timestamp ≠ 0)
          (trace.interactions.foldl stepInteraction
            ⟨⟨[], []⟩, none, none⟩).hs .timeStartNonzero
          [("timestamp", .num first.timestamp)]
      | none =>
        (trace.interactions.foldl stepInteraction
          ⟨⟨[], []⟩, none, none⟩).hs).hits.map BucketHit.bucket_id ↔
      y ∈ (match trace.instructions.head? with
      | some first =>
        pushIf (first.timestamp ≠ 0)
          (trace.interactions.foldl stepInteraction
            ⟨⟨[], []⟩, none, none⟩).hs .timeStartNonzero
          [("timestamp", .num first.timestamp)]
      | none =>
        (trace.interactions.foldl stepInteraction
          ⟨⟨[], []⟩, none, none⟩).hs).seen := by
    cases trace.instructions.head? with
    | some first => exact inv_pushIf _ _ _ _ h1
    | none => exact h1
  have h3 := foldl_inv stepInsnTime
    (fun hs => ∀ y, y ∈ hs.hits.map BucketHit.bucket_id ↔ y ∈ hs.seen)
    inv_stepInsnTime trace.instructions _ h2
  have h4 := foldl_inv stepChipRow
    (fun st => ∀ y, y ∈ st.hs.hits.map BucketHit.bucket_id ↔ y ∈ st.hs.seen)
    inv_stepChipRow trace.chip_rows ⟨_, false, false, false⟩ h3
  unfold emittedIds matchBucketHits matchFinalState
  dsimp only
  exact foldl_inv (stepLoop2Scan trace)
    (fun hs => ∀ y, y ∈ hs.hits.map BucketHit.bucket_id ↔ y ∈ hs.seen)
    (inv_stepLoop2Scan trace) (List.range trace.instructions.length) _
    (inv_pushIf _ _ _ _ (inv_pushIf _ _ _ _ (inv_pushIf _ _ _ _ h4))) x

end Beak.OpenVM

namespace Beak.OpenVM

/-- Helper: `seen` only grows through `access_alignment_buckets`. -/
theorem mono_accessAlignmentBuckets (s : HState) (p : Nat) (y : String)
    (h : y ∈ s.seen) : y ∈ (accessAlignmentBuckets s p).seen := by
  unfold accessAlignmentBuckets
  apply seen_sub_pushIf
  apply seen_sub_pushIf
  exact h

/-- Helper: `seen` only grows through the register/alias block. -/
theorem mono_regAliasImmBuckets (hs : HState) (kind chipName : String)
    (rdPtr rs1Ptr : Nat) (rs2 : Rs2Source) (y : String) (h : y ∈ hs.seen) :
    y ∈ (regAliasImmBuckets hs kind chipName rdPtr rs1Ptr rs2).seen := by
  unfold regAliasImmBuckets
  cases rs2 <;> dsimp only [rs2RegPtr] <;>
    repeat (first | exact h | apply seen_sub_pushIf | apply seen_sub_pushHit)

/-- Helper: `seen` only grows through the rs2-immediate block. -/
theorem mono_immProxyBuckets (hs : HState) (kind : String) (rs2 : Rs2Source)
    (w : Bool) (y : String) (h : y ∈ hs.seen) :
    y ∈ (immProxyBuckets hs kind rs2 w).seen := by
  unfold immProxyBuckets
  cases rs2 with
  | reg p => exact h
  | imm v =>
    dsimp only [rs2ImmValue]
    cases classifyImmValue v <;> dsimp only <;>
      repeat (first | exact h | apply seen_sub_pushIf | apply seen_sub_pushHit)

/-- Helper: `seen` only grows through the mul-family block. -/
theorem mono_mulFamilyRegBuckets (hs : HState) (kind chipName : String)
    (rdPtr rs1Ptr rs2Ptr : Nat) (y : String) (h : y ∈ hs.seen) :
    y ∈ (mulFamilyRegBuckets hs kind chipName rdPtr rs1Ptr rs2Ptr).seen := by
  unfold mulFamilyRegBuckets
  repeat (first | exact h | apply seen_sub_pushIf | apply seen_sub_pushHit)

/-- Helper: `seen` only grows through the div/rem special block. -/
theorem mono_divRemSpecialBuckets (hs : HState) (b c : List Nat)
    (rs1Ptr rs2Ptr : Nat) (y : String) (h : y ∈ hs.seen) :
    y ∈ (divRemSpecialBuckets hs b c rs1Ptr rs2Ptr).seen := by
  unfold divRemSpecialBuckets
  cases leU32FromBytes b <;> cases leU32FromBytes c <;> dsimp only <;>
    repeat (first | exact h | apply seen_sub_pushIf | apply seen_sub_pushHit)

/-- Helper: `seen` only grows through the branch block. -/
theorem mono_branchBuckets (hs : HState) (kind : String)
    (rs1Ptr rs2Ptr : Nat) (imm : Int) (isTaken : Bool) (y : String)
    (h : y ∈ hs.seen) :
    y ∈ (branchBuckets hs kind rs1Ptr rs2Ptr imm isTaken).seen := by
  unfold branchBuckets
  repeat (first | exact h | apply seen_sub_pushIf | apply seen_sub_pushHit | split)

/-- Helper: `seen` only grows through the `LoadStore` block. -/
theorem mono_loadStoreBuckets (hs : HState) (rs1Ptr rdRs2Ptr : Nat)
    (immSign : Bool) (memAs effectivePtr : Nat)
    (isStore needsWrite isLoad : Bool) (y : String) (h : y ∈ hs.seen) :
    y ∈ (loadStoreBuckets hs rs1Ptr rdRs2Ptr immSign memAs effectivePtr
      isStore needsWrite isLoad).seen := by
  unfold loadStoreBuckets
  repeat (first | exact h | apply seen_sub_pushIf | apply seen_sub_pushHit | apply mono_accessAlignmentBuckets | split)

/-- Helper: `seen` only grows through the `LoadSignExtend` block. -/
theorem mono_loadSignExtendBuckets (hs : HState) (rs1Ptr rdPtr : Nat)
    (immSign : Bool) (memAs effectivePtr : Nat) (needsWrite : Bool)
    (y : String) (h : y ∈ hs.seen) :
    y ∈ (loadSignExtendBuckets hs rs1Ptr rdPtr immSign memAs effectivePtr
      needsWrite).seen := by
  unfold loadSignExtendBuckets
  repeat (first | exact h | apply seen_sub_pushIf | apply seen_sub_pushHit | apply mono_accessAlignmentBuckets)

/-- Helper: `seen` only grows through one interaction step. -/
theorem mono_stepInteraction (st : IaState) (ia : Interaction) (y : String)
    (h : y ∈ st.hs.seen) : y ∈ (stepInteraction st ia).hs.seen := by
  unfold stepInteraction
  rcases ia with ⟨base, payload⟩
  cases payload with
  | execution pc ts =>
    dsimp only
    cases st.lastExecTs <;> dsimp only <;>
      repeat (first | exact h | apply seen_sub_pushIf | apply seen_sub_pushHit)
  | program p o ops => exact h
  | memory a p d ts =>
    dsimp only
    cases st.lastMemTs <;> dsimp only <;>
      repeat (first | exact h | apply seen_sub_pushIf | apply seen_sub_pushHit)
  | rangeCheck v mb =>
    dsimp only
    repeat (first | exact h | apply seen_sub_pushIf | apply seen_sub_pushHit)
  | bitwise xx yy zz op =>
    dsimp only
    apply seen_sub_pushIf
    apply seen_sub_pushIf
    split <;> (apply seen_sub_pushHit; apply seen_sub_pushHit; exact h)

/-- Helper: `seen` only grows through one instruction-time step. -/
theorem mono_stepInsnTime (hs : HState) (insn : Insn) (y : String)
    (h : y ∈ hs.seen) : y ∈ (stepInsnTime hs insn).seen := by
  unfold stepInsnTime
  repeat (first | exact h | apply seen_sub_pushIf | apply seen_sub_pushHit | split)

/-- Helper: `seen` only grows through one chip-row step. -/
theorem mono_stepChipRow (st : RowState) (row : ChipRow) (y : String)
    (h : y ∈ st.hs.seen) : y ∈ (stepChipRow st row).hs.seen := by
  unfold stepChipRow
  rcases row with ⟨base, kind, payload⟩
  cases payload <;> dsimp only <;>
    repeat (first
      | exact h
      | apply seen_sub_pushIf
      | apply seen_sub_pushHit
      | apply mono_regAliasImmBuckets
      | apply mono_immProxyBuckets
      | apply mono_mulFamilyRegBuckets
      | apply mono_divRemSpecialBuckets
      | apply mono_branchBuckets
      | apply mono_loadStoreBuckets
      | apply mono_loadSignExtendBuckets
      | split)

/-- Helper: `seen` only grows through one Loop2-scan step. -/
theorem mono_stepLoop2Scan (trace : Trace) (hs : HState) (step : Nat)
    (y : String) (h : y ∈ hs.seen) :
    y ∈ (stepLoop2Scan trace hs step).seen := by
  unfold stepLoop2Scan
  dsimp only
  split
  · exact h
  · split
    · exact h
    · exact seen_sub_pushHit _ _ _ _ h

end Beak.OpenVM

namespace Beak.OpenVM

/-- Helper: membership in `seen` through `access_alignment_buckets`. -/
theorem seen_accessAlignmentBuckets (s : HState) (p : Nat) (x : String) :
    x ∈ (accessAlignmentBuckets s p).seen ↔
    (p % 2 ≠ 0 ∧ x = bucketIdStr .memEffectivePtrUnaligned2) ∨
    (p % 4 ≠ 0 ∧ x = bucketIdStr .memEffectivePtrUnaligned4) ∨
    x ∈ s.seen := by
  unfold accessAlignmentBuckets
  simp only [seen_pushIf, decide_eq_true_eq]
  tauto

/-- Helper: what `access_alignment_buckets` can add to `seen`. -/
theorem cases_accessAlignmentBuckets (s : HState) (p : Nat) (x : String)
    (h : x ∈ (accessAlignmentBuckets s p).seen) :
    x ∈ s.seen ∨
    (x = bucketIdStr .memEffectivePtrUnaligned2 ∧ p % 2 ≠ 0) ∨
    (x = bucketIdStr .memEffectivePtrUnaligned4 ∧ p % 4 ≠ 0) := by
  unfold accessAlignmentBuckets at h
  simp only [seen_pushIf, decide_eq_true_eq] at h
  tauto

/-- Helper: what the register/alias block can add to `seen`. -/
theorem cases_regAliasImmBuckets (hs : HState) (kind chipName : String)
    (rdPtr rs1Ptr : Nat) (rs2 : Rs2Source) (x : String)
    (h : x ∈ (regAliasImmBuckets hs kind chipName rdPtr rs1Ptr rs2).seen) :
    x ∈ hs.seen ∨ x = bucketIdStr .regWriteX0 ∨
    x = bucketIdStr .regReadRs1X0 ∨ x = bucketIdStr .regReadRs2X0 ∨
    x = bucketIdStr .regAliasRs1EqRs2 ∨ x = bucketIdStr .regAliasRdEqRs2 ∨
    x = bucketIdStr .regAliasRdEqRs1 := by
  unfold regAliasImmBuckets at h
  cases rs2 <;> dsimp only [rs2RegPtr] at h <;>
    simp only [seen_pushIf, decide_eq_true_eq] at h <;> tauto

/-- Helper: what the rs2-immediate block can add to `seen`. -/
theorem cases_immProxyBuckets (hs : HState) (kind : String)
    (rs2 : Rs2Source) (w : Bool) (x : String)
    (h : x ∈ (immProxyBuckets hs kind rs2 w).seen) :
    x ∈ hs.seen ∨ x = bucketIdStr .immRs2IsImm ∨
    x = bucketIdStr .immValue0 ∨ x = bucketIdStr .immValueMinus1 ∨
    x = bucketIdStr .immValueMin ∨ x = bucketIdStr .immValueMax ∨
    x = bucketIdStr .loop2TargetBaseAluImmLimbs := by
  unfold immProxyBuckets at h
  cases rs2 with
  | reg p => exact Or.inl h
  | imm v =>
    dsimp only [rs2ImmValue] at h
    rcases hcv : classifyImmValue v with _ | b
    · rw [hcv] at h
      dsimp only at h
      simp only [seen_pushIf, seen_pushHit, decide_eq_true_eq] at h
      tauto
    · rw [hcv] at h
      dsimp only at h
      have hb : b = .immValue0 ∨ b = .immValueMinus1 ∨ b = .immValueMin ∨
          b = .immValueMax := by
        unfold classifyImmValue at hcv
        split_ifs at hcv <;> (cases hcv; tauto)
      simp only [seen_pushIf, seen_pushHit, decide_eq_true_eq] at h
      rcases hb with rfl | rfl | rfl | rfl <;> tauto

/-- Helper: what the mul-family block can add to `seen`. -/
theorem cases_mulFamilyRegBuckets (hs : HState) (kind chipName : String)
    (rdPtr rs1Ptr rs2Ptr : Nat) (x : String)
    (h : x ∈ (mulFamilyRegBuckets hs kind chipName rdPtr rs1Ptr
      rs2Ptr).seen) :
    x ∈ hs.seen ∨ x = bucketIdStr .regWriteX0 ∨
    x = bucketIdStr .regReadRs1X0 ∨ x = bucketIdStr .regReadRs2X0 ∨
    x = bucketIdStr .regAliasRs1EqRs2 ∨ x = bucketIdStr .regAliasRdEqRs1 ∨
    x = bucketIdStr .regAliasRdEqRs2 := by
  unfold mulFamilyRegBuckets at h
  simp only [seen_pushIf, decide_eq_true_eq] at h
  tauto

/-- Helper: what the div/rem special block can add to `seen`. -/
theorem cases_divRemSpecialBuckets (hs : HState) (b c : List Nat)
    (rs1Ptr rs2Ptr : Nat) (x : String)
    (h : x ∈ (divRemSpecialBuckets hs b c rs1Ptr rs2Ptr).seen) :
    x ∈ hs.seen ∨ x = bucketIdStr .divRemDivByZero ∨
    x = bucketIdStr .divRemOverflowCase ∨
    x = bucketIdStr .divRemRs1EqRs2 := by
  unfold divRemSpecialBuckets at h
  rcases hb : leU32FromBytes b with _ | rs1 <;>
    rcases hc : leU32FromBytes c with _ | rs2 <;>
    rw [hb, hc] at h <;> dsimp only at h <;>
    simp only [seen_pushIf, decide_eq_true_eq] at h <;> tauto

/-- Helper: what the branch block can add to `seen`. -/
theorem cases_branchBuckets (hs : HState) (kind : String)
    (rs1Ptr rs2Ptr : Nat) (imm : Int) (isTaken : Bool) (x : String)
    (h : x ∈ (branchBuckets hs kind rs1Ptr rs2Ptr imm isTaken).seen) :
    x ∈ hs.seen ∨ x = bucketIdStr .regReadRs1X0 ∨
    x = bucketIdStr .regReadRs2X0 ∨ x = bucketIdStr .regAliasRs1EqRs2 ∨
    x = bucketIdStr .branchImm0 ∨ x = bucketIdStr .branchImmPm2 ∨
    x = bucketIdStr .branchImmPm2048 := by
  unfold branchBuckets at h
  split_ifs at h <;>
    simp only [seen_pushIf, seen_pushHit, decide_eq_true_eq] at h <;> tauto

set_option maxHeartbeats 2000000 in
/-- Helper: what the `LoadStore` block can add to `seen`. -/
theorem cases_loadStoreBuckets (hs : HState) (rs1Ptr rdRs2Ptr : Nat)
    (immSign : Bool) (memAs effectivePtr : Nat)
    (isStore needsWrite isLoad : Bool) (x : String)
    (h : x ∈ (loadStoreBuckets hs rs1Ptr rdRs2Ptr immSign memAs
      effectivePtr isStore needsWrite isLoad).seen) :
    x ∈ hs.seen ∨
    (x = bucketIdStr .memEffectivePtrUnaligned2 ∧ effectivePtr % 2 ≠ 0) ∨
    (x = bucketIdStr .memEffectivePtrUnaligned4 ∧ effectivePtr % 4 ≠ 0) ∨
    x = bucketIdStr .memAccessSeen ∨ x = bucketIdStr .memAddrSpaceIs0 ∨
    x = bucketIdStr .memAddrSpaceIsReg ∨
    x = bucketIdStr .memAddrSpaceIsOther ∨
    x = bucketIdStr .memImmSignTrue ∨
    x = bucketIdStr .memEffectivePtrZero ∨
    x = bucketIdStr .regReadRs1X0 ∨ x = bucketIdStr .regReadRs2X0 ∨
    x = bucketIdStr .regWriteX0 ∨
    x = bucketIdStr .memAliasRs1EqRdRs2Store ∨
    x = bucketIdStr .memAliasRs1EqRdRs2Load ∨
    x = bucketIdStr .memAliasRs1EqRdRs2Other := by
  unfold loadStoreBuckets at h
  split_ifs at h <;>
    simp only [seen_pushIf, seen_pushHit, seen_accessAlignmentBuckets,
      decide_eq_true_eq] at h <;>
    tauto

set_option maxHeartbeats 2000000 in
/-- Helper: what the `LoadSignExtend` block can add to `seen`. -/
theorem cases_loadSignExtendBuckets (hs : HState) (rs1Ptr rdPtr : Nat)
    (immSign : Bool) (memAs effectivePtr : Nat) (needsWrite : Bool)
    (x : String)
    (h : x ∈ (loadSignExtendBuckets hs rs1Ptr rdPtr immSign memAs
      effectivePtr needsWrite).seen) :
    x ∈ hs.seen ∨
    (x = bucketIdStr .memEffectivePtrUnaligned2 ∧ effectivePtr % 2 ≠ 0) ∨
    (x = bucketIdStr .memEffectivePtrUnaligned4 ∧ effectivePtr % 4 ≠ 0) ∨
    x = bucketIdStr .memAccessSeen ∨ x = bucketIdStr .memImmSignTrue ∨
    x = bucketIdStr .memAddrSpaceIs0 ∨ x = bucketIdStr .memAddrSpaceIsReg ∨
    x = bucketIdStr .memAddrSpaceIsOther ∨
    x = bucketIdStr .memEffectivePtrZero ∨
    x = bucketIdStr .regReadRs1X0 ∨ x = bucketIdStr .regWriteX0 := by
  unfold loadSignExtendBuckets at h
  split_ifs at h <;>
    simp only [seen_pushIf, seen_pushHit, seen_accessAlignmentBuckets,
      decide_eq_true_eq] at h <;>
    tauto

end Beak.OpenVM

namespace Beak.OpenVM

/-- Helper: what one interaction step can add to `seen`: interaction-family
buckets, with the range-check violation bucket only under its guard. -/
theorem cases_stepInteraction (st : IaState) (ia : Interaction) (x : String)
    (h : x ∈ (stepInteraction st ia).hs.seen) :
    x ∈ st.hs.seen ∨
    (x = bucketIdStr .iaRangeCheckValueOutOfRange ∧
      iaRangeViolation ia = true) ∨
    x ∈ iaOtherIds ia.payload := by
  unfold stepInteraction at h
  rcases ia with ⟨base, payload⟩
  cases payload with
  | execution pc ts =>
    dsimp only at h ⊢
    rcases hp : st.lastExecTs with _ | prev <;> rw [hp] at h <;>
      simp only [seen_pushIf, seen_pushHit, decide_eq_true_eq] at h <;>
      simp only [iaOtherIds, List.mem_cons, List.not_mem_nil, or_false] <;>
      tauto
  | program p o ops =>
    exact Or.inl h
  | memory a p d ts =>
    dsimp only at h ⊢
    rcases hp : st.lastMemTs with _ | prev <;> rw [hp] at h <;> split_ifs at h <;>
      simp only [seen_pushIf, seen_pushHit, decide_eq_true_eq] at h <;>
      simp only [iaOtherIds, List.mem_cons, List.not_mem_nil, or_false] <;>
      tauto
  | rangeCheck v mb =>
    dsimp only at h ⊢
    simp only [seen_pushIf, seen_pushHit, decide_eq_true_eq] at h
    simp only [iaOtherIds, iaRangeViolation, List.mem_cons,
      List.not_mem_nil, or_false, decide_eq_true_eq]
    tauto
  | bitwise xx yy zz op =>
    dsimp only at h ⊢
    split_ifs at h <;>
      simp only [seen_pushIf, seen_pushHit, decide_eq_true_eq] at h <;>
      simp only [iaOtherIds, List.mem_cons, List.not_mem_nil, or_false] <;>
      tauto

/-- Helper: what one instruction-time step can add to `seen`. -/
theorem cases_stepInsnTime (hs : HState) (insn : Insn) (x : String)
    (h : x ∈ (stepInsnTime hs insn).seen) :
    x ∈ hs.seen ∨ x = bucketIdStr .timeNonMonotonic ∨
    x = bucketIdStr .timeDeltaNotOne := by
  unfold stepInsnTime at h
  split_ifs at h <;>
    simp only [seen_pushIf, seen_pushHit, decide_eq_true_eq] at h <;> tauto

set_option maxHeartbeats 3000000 in
/-- Helper: what one chip-row step can add to `seen`: the invalid-row
bucket, the alignment buckets under their pointer guards, and the row's
other family buckets. -/
theorem cases_stepChipRow (st : RowState) (row : ChipRow) (x : String)
    (h : x ∈ (stepChipRow st row).hs.seen) :
    x ∈ st.hs.seen ∨ x = bucketIdStr .rowInvalidInKind ∨
    (x = bucketIdStr .memEffectivePtrUnaligned2 ∧ rowUnaligned2 row = true) ∨
    (x = bucketIdStr .memEffectivePtrUnaligned4 ∧ rowUnaligned4 row = true) ∨
    x ∈ rowOtherIds row.payload := by
  unfold stepChipRow at h
  rcases row with ⟨base, kind, payload⟩
  cases payload with
  | baseAlu op rdPtr rs1Ptr rs2 a b c =>
    dsimp only at h ⊢
    rcases (seen_pushHit _ _ _ _).mp h with heq | h
    · simp only [rowOtherIds, List.mem_cons, List.not_mem_nil, or_false]
      tauto
    · rcases cases_immProxyBuckets _ _ _ _ _ h with h | heq | heq | heq | heq | heq | heq
      · rcases cases_regAliasImmBuckets _ _ _ _ _ _ _ h with h | heq | heq | heq | heq | heq | heq
        · rcases (seen_pushIf _ _ _ _ _).mp h with ⟨_, heq⟩ | h <;> tauto
        all_goals
          simp only [rowOtherIds, List.mem_cons, List.not_mem_nil, or_false] <;> tauto
      all_goals
        simp only [rowOtherIds, List.mem_cons, List.not_mem_nil, or_false] <;> tauto
  | shift op rdPtr rs1Ptr rs2 a b c =>
    dsimp only at h ⊢
    rcases cases_immProxyBuckets _ _ _ _ _ h with h | heq | heq | heq | heq | heq | heq
    · rcases cases_regAliasImmBuckets _ _ _ _ _ _ _ h with h | heq | heq | heq | heq | heq | heq
      · rcases (seen_pushIf _ _ _ _ _).mp h with ⟨_, heq⟩ | h <;> tauto
      all_goals
        simp only [rowOtherIds, List.mem_cons, List.not_mem_nil, or_false] <;> tauto
    all_goals
      simp only [rowOtherIds, List.mem_cons, List.not_mem_nil, or_false] <;> tauto
  | lessThan op rdPtr rs1Ptr rs2 a b c =>
    dsimp only at h ⊢
    rcases cases_immProxyBuckets _ _ _ _ _ h with h | heq | heq | heq | heq | heq | heq
    · rcases cases_regAliasImmBuckets _ _ _ _ _ _ _ h with h | heq | heq | heq | heq | heq | heq
      · rcases (seen_pushIf _ _ _ _ _).mp h with ⟨_, heq⟩ | h <;> tauto
      all_goals
        simp only [rowOtherIds, List.mem_cons, List.not_mem_nil, or_false] <;> tauto
    all_goals
      simp only [rowOtherIds, List.mem_cons, List.not_mem_nil, or_false] <;> tauto
  | mul op rdPtr rs1Ptr rs2Ptr a b c =>
    dsimp only at h ⊢
    rcases cases_mulFamilyRegBuckets _ _ _ _ _ _ _ h with h | heq | heq | heq | heq | heq | heq
    · rcases (seen_pushIf _ _ _ _ _).mp h with ⟨_, heq⟩ | h <;> tauto
    all_goals
      simp only [rowOtherIds, List.mem_cons, List.not_mem_nil, or_false] <;> tauto
  | mulH op rdPtr rs1Ptr rs2Ptr a b c =>
    dsimp only at h ⊢
    rcases cases_mulFamilyRegBuckets _ _ _ _ _ _ _ h with h | heq | heq | heq | heq | heq | heq
    · rcases (seen_pushIf _ _ _ _ _).mp h with ⟨_, heq⟩ | h <;> tauto
    all_goals
      simp only [rowOtherIds, List.mem_cons, List.not_mem_nil, or_false] <;> tauto
  | divRem op rdPtr rs1Ptr rs2Ptr a b c =>
    dsimp only at h ⊢
    rcases cases_divRemSpecialBuckets _ _ _ _ _ _ h with h | heq | heq | heq
    · rcases cases_mulFamilyRegBuckets _ _ _ _ _ _ _ h with h | heq | heq | heq | heq | heq | heq
      · rcases (seen_pushIf _ _ _ _ _).mp h with ⟨_, heq⟩ | h <;> tauto
      all_goals
        simp only [rowOtherIds, List.mem_cons, List.not_mem_nil, or_false] <;> tauto
    all_goals
      simp only [rowOtherIds, List.mem_cons, List.not_mem_nil, or_false] <;> tauto
  | branchEqual op rs1Ptr rs2Ptr imm isTaken fp tp a b cr =>
    dsimp only at h ⊢
    rcases cases_branchBuckets _ _ _ _ _ _ _ h with h | heq | heq | heq | heq | heq | heq
    · rcases (seen_pushIf _ _ _ _ _).mp h with ⟨_, heq⟩ | h <;> tauto
    all_goals
      simp only [rowOtherIds, List.mem_cons, List.not_mem_nil, or_false] <;> tauto
  | branchLessThan op rs1Ptr rs2Ptr imm isTaken fp tp a b cr =>
    dsimp only at h ⊢
    rcases cases_branchBuckets _ _ _ _ _ _ _ h with h | heq | heq | heq | heq | heq | heq
    · rcases (seen_pushIf _ _ _ _ _).mp h with ⟨_, heq⟩ | h <;> tauto
    all_goals
      simp only [rowOtherIds, List.mem_cons, List.not_mem_nil, or_false] <;> tauto
  | jalLui op rdPtr imm needsWrite fp tp rdData isJal =>
    dsimp only at h ⊢
    rcases (seen_pushIf _ _ _ _ _).mp h with ⟨_, heq⟩ | h
    · simp only [rowOtherIds, List.mem_cons, List.not_mem_nil, or_false]
      tauto
    · rcases (seen_pushIf _ _ _ _ _).mp h with ⟨_, heq⟩ | h <;> tauto
  | jalr op rdPtr rs1Ptr imm immSign needsWrite fp tp rv rdData =>
    dsimp only at h ⊢
    rcases (seen_pushIf _ _ _ _ _).mp h with ⟨_, heq⟩ | h
    · simp only [rowOtherIds, List.mem_cons, List.not_mem_nil, or_false]
      tauto
    · rcases (seen_pushIf _ _ _ _ _).mp h with ⟨_, heq⟩ | h
      · simp only [rowOtherIds, List.mem_cons, List.not_mem_nil, or_false]
        tauto
      · rcases (seen_pushIf _ _ _ _ _).mp h with ⟨_, heq⟩ | h
        · simp only [rowOtherIds, List.mem_cons, List.not_mem_nil, or_false]
          tauto
        · rcases (seen_pushIf _ _ _ _ _).mp h with ⟨_, heq⟩ | h <;> tauto
  | auipc op rdPtr imm fp rdData =>
    dsimp only at h ⊢
    rcases (seen_pushIf _ _ _ _ _).mp h with ⟨_, heq⟩ | h
    · simp only [rowOtherIds, List.mem_cons, List.not_mem_nil, or_false]
      tauto
    · rcases (seen_pushHit _ _ _ _).mp h with heq | h
      · simp only [rowOtherIds, List.mem_cons, List.not_mem_nil, or_false]
        tauto
      · rcases (seen_pushIf _ _ _ _ _).mp h with ⟨_, heq⟩ | h <;> tauto
  | loadStore op rs1Ptr rdRs2Ptr imm immSign memAs effectivePtr isStore needsWrite isLoad fl rdta pd wd =>
    dsimp only at h ⊢
    simp only [rowUnaligned2, rowUnaligned4, memEffectivePtr,
      decide_eq_true_eq]
    rcases cases_loadStoreBuckets _ _ _ _ _ _ _ _ _ _ h with
      h | ⟨heq, hp⟩ | ⟨heq, hp⟩ | heq | heq | heq | heq | heq | heq | heq | heq | heq | heq | heq | heq
    · rcases (seen_pushIf _ _ _ _ _).mp h with ⟨_, heq⟩ | h <;> tauto
    · tauto
    · tauto
    all_goals
      simp only [rowOtherIds, List.mem_cons, List.not_mem_nil, or_false] <;> tauto
  | loadSignExtend op rs1Ptr rdPtr imm immSign memAs effectivePtr needsWrite pd srd dmsb smsb lh lb1 lb0 =>
    dsimp only at h ⊢
    simp only [rowUnaligned2, rowUnaligned4, memEffectivePtr,
      decide_eq_true_eq]
    rcases cases_loadSignExtendBuckets _ _ _ _ _ _ _ _ h with
      h | ⟨heq, hp⟩ | ⟨heq, hp⟩ | heq | heq | heq | heq | heq | heq | heq | heq
    · rcases (seen_pushIf _ _ _ _ _).mp h with ⟨_, heq⟩ | h <;> tauto
    · tauto
    · tauto
    all_goals
      simp only [rowOtherIds, List.mem_cons, List.not_mem_nil, or_false] <;> tauto
  | phantom =>
    dsimp only at h ⊢
    rcases (seen_pushIf _ _ _ _ _).mp h with ⟨_, heq⟩ | h <;> tauto
  | program opcode operands ef =>
    dsimp only at h ⊢
    rcases (seen_pushHit _ _ _ _).mp h with heq | h
    · simp only [rowOtherIds, List.mem_cons, List.not_mem_nil, or_false]
      tauto
    · rcases (seen_pushIf _ _ _ _ _).mp h with ⟨_, heq⟩ | h <;> tauto
  | connector fp tp ft tt isTerminate exitCode =>
    dsimp only at h ⊢
    rcases (seen_pushIf _ _ _ _ _).mp h with ⟨_, heq⟩ | h
    · simp only [rowOtherIds, List.mem_cons, List.not_mem_nil, or_false]
      tauto
    · rcases (seen_pushIf _ _ _ _ _).mp h with ⟨_, heq⟩ | h <;> tauto
  | padding data =>
    dsimp only at h ⊢
    rcases (seen_pushIf _ _ _ _ _).mp h with ⟨_, heq⟩ | h <;> tauto

/-- Helper: what one Loop2-scan step can add to `seen`. -/
theorem cases_stepLoop2Scan (trace : Trace) (hs : HState) (step : Nat)
    (x : String) (h : x ∈ (stepLoop2Scan trace hs step).seen) :
    x ∈ hs.seen ∨ x = bucketIdStr .loop2InactiveRowStepHasInteraction := by
  unfold stepLoop2Scan at h
  dsimp only at h
  split at h
  · exact Or.inl h
  · split at h
    · exact Or.inl h
    · rcases (seen_pushHit _ _ _ _).mp h with heq | h <;> tauto

end Beak.OpenVM

namespace Beak.OpenVM

/-- Helper: the unaligned-2 bucket lands in `seen` whenever the pointer is
odd. -/
theorem hit_accessAlignmentBuckets_u2 (s : HState) (p : Nat)
    (h : p % 2 ≠ 0) :
    bucketIdStr .memEffectivePtrUnaligned2 ∈ (accessAlignmentBuckets s p).seen :=
  (seen_accessAlignmentBuckets s p _).mpr (Or.inl ⟨h, rfl⟩)

/-- Helper: the unaligned-4 bucket lands in `seen` whenever the pointer is
not 4-aligned. -/
theorem hit_accessAlignmentBuckets_u4 (s : HState) (p : Nat)
    (h : p % 4 ≠ 0) :
    bucketIdStr .memEffectivePtrUnaligned4 ∈ (accessAlignmentBuckets s p).seen :=
  (seen_accessAlignmentBuckets s p _).mpr (Or.inr (Or.inl ⟨h, rfl⟩))

/-- Helper: the `LoadStore` arm keeps anything the alignment block puts
into `seen`. -/
theorem hit_loadStoreBuckets (hs : HState) (rs1Ptr rdRs2Ptr : Nat)
    (immSign : Bool) (memAs effectivePtr : Nat)
    (isStore needsWrite isLoad : Bool) (y : String)
    (h : ∀ s : HState, y ∈ (accessAlignmentBuckets s effectivePtr).seen) :
    y ∈ (loadStoreBuckets hs rs1Ptr rdRs2Ptr immSign memAs effectivePtr
      isStore needsWrite isLoad).seen := by
  unfold loadStoreBuckets
  dsimp only
  repeat (first
    | exact h _
    | apply seen_sub_pushIf
    | apply seen_sub_pushHit
    | split)

/-- Helper: the `LoadSignExtend` arm keeps anything the alignment block
puts into `seen`. -/
theorem hit_loadSignExtendBuckets (hs : HState) (rs1Ptr rdPtr : Nat)
    (immSign : Bool) (memAs effectivePtr : Nat) (needsWrite : Bool)
    (y : String)
    (h : ∀ s : HState, y ∈ (accessAlignmentBuckets s effectivePtr).seen) :
    y ∈ (loadSignExtendBuckets hs rs1Ptr rdPtr immSign memAs effectivePtr
      needsWrite).seen := by
  unfold loadSignExtendBuckets
  dsimp only
  repeat (first
    | exact h _
    | apply seen_sub_pushIf
    | apply seen_sub_pushHit
    | split)

/-- Helper: a chip-row step on a memory row keeps anything the alignment
block puts into `seen` for that row's effective pointer. -/
theorem hit_stepChipRow_align (st : RowState) (row : ChipRow) (p : Nat)
    (y : String) (hp : memEffectivePtr row = some p)
    (hAl : ∀ s : HState, y ∈ (accessAlignmentBuckets s p).seen) :
    y ∈ (stepChipRow st row).hs.seen := by
  unfold stepChipRow
  rcases row with ⟨base, kind, payload⟩
  dsimp only
  cases payload
  all_goals simp only [memEffectivePtr] at hp
  all_goals try exact Option.noConfusion hp
  all_goals try injection hp with hp
  all_goals try subst hp
  all_goals dsimp only
  · apply hit_loadStoreBuckets
    exact hAl
  · apply hit_loadSignExtendBuckets
    exact hAl

/-- Helper: an interaction step on a violating range check puts the
out-of-range bucket into `seen`. -/
theorem hit_stepInteraction_oob (st : IaState) (ia : Interaction)
    (h : iaRangeViolation ia = true) :
    bucketIdStr .iaRangeCheckValueOutOfRange ∈ (stepInteraction st ia).hs.seen := by
  unfold stepInteraction
  rcases ia with ⟨base, payload⟩
  cases payload
  all_goals simp only [iaRangeViolation] at h
  all_goals try exact Bool.noConfusion h
  dsimp only
  refine (seen_pushIf _ _ _ _ _).mpr (Or.inl ⟨?_, rfl⟩)
  simpa using h

/-- Helper: the matcher's final `seen` set contains anything forced by
some chip row. -/
theorem final_seen_of_row (trace : Trace) (x : String) (P : ChipRow → Prop)
    (hit : ∀ st row, P row → x ∈ (stepChipRow st row).hs.seen)
    (hex : ∃ row ∈ trace.chip_rows, P row) :
    x ∈ (matchFinalState trace).seen := by
  unfold matchFinalState
  dsimp only
  apply foldl_seen_mono (stepLoop2Scan trace) (fun s => s.seen)
    (fun s a y hy => mono_stepLoop2Scan trace s a y hy)
  apply seen_sub_pushIf
  apply seen_sub_pushIf
  apply seen_sub_pushIf
  exact foldl_seen_of_exists stepChipRow (fun st => st.hs.seen) x P
    (fun s a y hy => mono_stepChipRow s a y hy) hit trace.chip_rows _ hex

/-- Helper: the matcher's final `seen` set contains anything forced by
some interaction. -/
theorem final_seen_of_ia (trace : Trace) (x : String)
    (P : Interaction → Prop)
    (hit : ∀ st ia, P ia → x ∈ (stepInteraction st ia).hs.seen)
    (hex : ∃ ia ∈ trace.interactions, P ia) :
    x ∈ (matchFinalState trace).seen := by
  unfold matchFinalState
  dsimp only
  apply foldl_seen_mono (stepLoop2Scan trace) (fun s => s.seen)
    (fun s a y hy => mono_stepLoop2Scan trace s a y hy)
  apply seen_sub_pushIf
  apply seen_sub_pushIf
  apply seen_sub_pushIf
  apply foldl_seen_mono stepChipRow (fun st => st.hs.seen)
    (fun s a y hy => mono_stepChipRow s a y hy)
  dsimp only
  apply foldl_seen_mono stepInsnTime (fun s => s.seen)
    (fun s a y hy => mono_stepInsnTime s a y hy)
  cases trace.instructions.head? with
  | none =>
    exact foldl_seen_of_exists stepInteraction (fun st => st.hs.seen) x P
      (fun s a y hy => mono_stepInteraction s a y hy) hit
      trace.interactions _ hex
  | some first =>
    apply seen_sub_pushIf
    exact foldl_seen_of_exists stepInteraction (fun st => st.hs.seen) x P
      (fun s a y hy => mono_stepInteraction s a y hy) hit
      trace.interactions _ hex

/-- Helper: anything the interaction pass puts into `seen` is accounted
for by some interaction. -/
theorem ia_fold_cases (l : List Interaction) (x : String)
    (h : x ∈ (l.foldl stepInteraction ⟨⟨[], []⟩, none, none⟩).hs.seen) :
    ∃ ia ∈ l,
      (x = bucketIdStr .iaRangeCheckValueOutOfRange ∧
        iaRangeViolation ia = true) ∨
      x ∈ iaOtherIds ia.payload := by
  rcases foldl_seen_cases stepInteraction (fun st => st.hs.seen) x
      (fun ia => (x = bucketIdStr .iaRangeCheckValueOutOfRange ∧
          iaRangeViolation ia = true) ∨
        x ∈ iaOtherIds ia.payload)
      (fun s a hx => cases_stepInteraction s a x hx) l _ h with h | hex
  · exact absurd h (by simp)
  · exact hex

/-- Helper: everything in the matcher's final `seen` set is accounted for
by an interaction, a chip row, or one of the trace-global buckets. -/
theorem final_seen_cases (trace : Trace) (x : String)
    (h : x ∈ (matchFinalState trace).seen) :
    (∃ ia ∈ trace.interactions,
      (x = bucketIdStr .iaRangeCheckValueOutOfRange ∧
        iaRangeViolation ia = true) ∨
      x ∈ iaOtherIds ia.payload) ∨
    (∃ row ∈ trace.chip_rows,
      (x = bucketIdStr .memEffectivePtrUnaligned2 ∧
        rowUnaligned2 row = true) ∨
      (x = bucketIdStr .memEffectivePtrUnaligned4 ∧
        rowUnaligned4 row = true) ∨
      x = bucketIdStr .rowInvalidInKind ∨ x ∈ rowOtherIds row.payload) ∨
    x = bucketIdStr .timeStartNonzero ∨
    x = bucketIdStr .timeNonMonotonic ∨
    x = bucketIdStr .timeDeltaNotOne ∨
    x = bucketIdStr .rowInvalidSeen ∨
    x = bucketIdStr .rowPaddingKindSeen ∨
    x = bucketIdStr .timeRowTimestampMissing ∨
    x = bucketIdStr .loop2InactiveRowStepHasInteraction := by
  unfold matchFinalState at h
  dsimp only at h
  rcases foldl_seen_cases (stepLoop2Scan trace) (fun s => s.seen) x
      (fun _ => x = bucketIdStr .loop2InactiveRowStepHasInteraction)
      (fun s a hx => cases_stepLoop2Scan trace s a x hx)
      (List.range trace.instructions.length) _ h with h | ⟨_, _, hq⟩
  · rcases (seen_pushIf _ _ _ _ _).mp h with ⟨_, hx⟩ | h
    · tauto
    rcases (seen_pushIf _ _ _ _ _).mp h with ⟨_, hx⟩ | h
    · tauto
    rcases (seen_pushIf _ _ _ _ _).mp h with ⟨_, hx⟩ | h
    · tauto
    rcases foldl_seen_cases stepChipRow (fun st => st.hs.seen) x
        (fun row => (x = bucketIdStr .memEffectivePtrUnaligned2 ∧
            rowUnaligned2 row = true) ∨
          (x = bucketIdStr .memEffectivePtrUnaligned4 ∧
            rowUnaligned4 row = true) ∨
          x = bucketIdStr .rowInvalidInKind ∨ x ∈ rowOtherIds row.payload)
        (fun s a hx => by
          rcases cases_stepChipRow s a x hx with h | h | h | h | h <;> tauto)
        trace.chip_rows _ h with h | ⟨row, hrow, hq⟩
    · dsimp only at h
      rcases foldl_seen_cases stepInsnTime (fun s => s.seen) x
          (fun _ => x = bucketIdStr .timeNonMonotonic ∨
            x = bucketIdStr .timeDeltaNotOne)
          (fun s a hx => by
            rcases cases_stepInsnTime s a x hx with h | h | h <;> tauto)
          trace.instructions _ h with h | ⟨_, _, hq⟩
      · rcases hh : trace.instructions.head? with _ | first <;> rw [hh] at h
        · exact Or.inl (ia_fold_cases trace.interactions x h)
        · rcases (seen_pushIf _ _ _ _ _).mp h with ⟨_, hx⟩ | h
          · tauto
          · exact Or.inl (ia_fold_cases trace.interactions x h)
      · tauto
    · exact Or.inr (Or.inl ⟨row, hrow, hq⟩)
  · tauto

end Beak.OpenVM

namespace Beak.OpenVM

/-- Helper: the unaligned-2 id is not among a row's other bucket ids. -/
theorem not_mem_rowOtherIds_u2 (p : ChipRowPayload) :
    bucketIdStr .memEffectivePtrUnaligned2 ∉ rowOtherIds p := by
  cases p <;> simp only [rowOtherIds] <;> decide

/-- Helper: the unaligned-4 id is not among a row's other bucket ids. -/
theorem not_mem_rowOtherIds_u4 (p : ChipRowPayload) :
    bucketIdStr .memEffectivePtrUnaligned4 ∉ rowOtherIds p := by
  cases p <;> simp only [rowOtherIds] <;> decide

/-- Helper: the range-check out-of-range id is not among a row's other
bucket ids. -/
theorem not_mem_rowOtherIds_oob (p : ChipRowPayload) :
    bucketIdStr .iaRangeCheckValueOutOfRange ∉ rowOtherIds p := by
  cases p <;> simp only [rowOtherIds] <;> decide

/-- Helper: the unaligned-2 id is not among an interaction's other bucket
ids. -/
theorem not_mem_iaOtherIds_u2 (p : InteractionPayload) :
    bucketIdStr .memEffectivePtrUnaligned2 ∉ iaOtherIds p := by
  cases p <;> simp only [iaOtherIds] <;> decide

/-- Helper: the unaligned-4 id is not among an interaction's other bucket
ids. -/
theorem not_mem_iaOtherIds_u4 (p : InteractionPayload) :
    bucketIdStr .memEffectivePtrUnaligned4 ∉ iaOtherIds p := by
  cases p <;> simp only [iaOtherIds] <;> decide

/-- Helper: the range-check out-of-range id is not among an interaction's
other bucket ids. -/
theorem not_mem_iaOtherIds_oob (p : InteractionPayload) :
    bucketIdStr .iaRangeCheckValueOutOfRange ∉ iaOtherIds p := by
  cases p <;> simp only [iaOtherIds] <;> decide

/-- Helper: a row flagged by `rowUnaligned2` is a memory row with an odd
effective pointer. -/
theorem unaligned2_elim (row : ChipRow) (h : rowUnaligned2 row = true) :
    ∃ p, memEffectivePtr row = some p ∧ p % 2 ≠ 0 := by
  unfold rowUnaligned2 at h
  rcases hm : memEffectivePtr row with _ | p
  · rw [hm] at h
    exact Bool.noConfusion h
  · rw [hm] at h
    exact ⟨p, rfl, by simpa using h⟩

/-- Helper: a row flagged by `rowUnaligned4` is a memory row with a
non-4-aligned effective pointer. -/
theorem unaligned4_elim (row : ChipRow) (h : rowUnaligned4 row = true) :
    ∃ p, memEffectivePtr row = some p ∧ p % 4 ≠ 0 := by
  unfold rowUnaligned4 at h
  rcases hm : memEffectivePtr row with _ | p
  · rw [hm] at h
    exact Bool.noConfusion h
  · rw [hm] at h
    exact ⟨p, rfl, by simpa using h⟩

/-- Helper: a violating range-check interaction yields its arguments with
the matcher's guard satisfied. -/
theorem rangeViolation_elim (ia : Interaction)
    (h : iaRangeViolation ia = true) :
    ∃ v mb, rangeCheckArgs ia = some (v, mb) ∧
      0 < mb ∧ mb < 32 ∧ 2 ^ mb ≤ v := by
  rcases ia with ⟨base, payload⟩
  cases payload
  all_goals simp only [iaRangeViolation] at h
  all_goals try exact Bool.noConfusion h
  rename_i v mb
  simp only [decide_eq_true_eq] at h
  exact ⟨v, mb, rfl, h.2.1, h.1, h.2.2.le⟩

/-- Helper: range-check arguments inside the matcher's window make the
interaction violating. -/
theorem rangeViolation_intro (ia : Interaction) (v mb : Nat)
    (ha : rangeCheckArgs ia = some (v, mb)) (h1 : 0 < mb) (h2 : mb < 32)
    (h3 : 2 ^ mb ≤ v) : iaRangeViolation ia = true := by
  rcases ia with ⟨base, payload⟩
  cases payload
  all_goals simp only [rangeCheckArgs] at ha
  all_goals try exact Option.noConfusion ha
  simp only [Option.some.injEq, Prod.mk.injEq] at ha
  obtain ⟨rfl, rfl⟩ := ha
  simp only [iaRangeViolation, decide_eq_true_eq]
  exact ⟨h2, h1, h3⟩

end Beak.OpenVM

namespace Beak.OpenVM

/-- C2: counterexample. The claim says a load/store row with effective
pointer 0x2 fires only the `mem.effective_ptr_unaligned2` bucket; in the
code `unaligned2` tests `ptr % 2 != 0` (false for 2) while `unaligned4`
tests `ptr % 4 != 0` (true for 2), so pointer 0x2 fires only the `4`
variant. -/
theorem c2_counterexample_ptr2 :
    memEffectivePtr c2Row = some 2 ∧ c2Row ∈ c2Trace.chip_rows ∧
    bucketIdStr .memEffectivePtrUnaligned4 ∈ emittedIds c2Trace ∧
    bucketIdStr .memEffectivePtrUnaligned2 ∉ emittedIds c2Trace := by
  decide

set_option maxHeartbeats 1000000 in
/-- C2 (amended): for every trace, a memory chip row with effective
pointer `p` makes the matcher emit `mem.effective_ptr_unaligned2` when
`p % 2 ≠ 0` and `mem.effective_ptr_unaligned4` when `p % 4 ≠ 0`; and
conversely each alignment bucket is emitted only if some memory row's
effective pointer violates that alignment. In particular pointer 0x3
fires both buckets and pointer 0x2 fires only the `4` variant. -/
theorem c2_mem_alignment_buckets (trace : Trace) :
    (∀ row ∈ trace.chip_rows, ∀ p, memEffectivePtr row = some p →
      (p % 2 ≠ 0 →
        bucketIdStr .memEffectivePtrUnaligned2 ∈ emittedIds trace) ∧
      (p % 4 ≠ 0 →
        bucketIdStr .memEffectivePtrUnaligned4 ∈ emittedIds trace)) ∧
    (bucketIdStr .memEffectivePtrUnaligned2 ∈ emittedIds trace →
      ∃ row ∈ trace.chip_rows, ∃ p,
        memEffectivePtr row = some p ∧ p % 2 ≠ 0) ∧
    (bucketIdStr .memEffectivePtrUnaligned4 ∈ emittedIds trace →
      ∃ row ∈ trace.chip_rows, ∃ p,
        memEffectivePtr row = some p ∧ p % 4 ≠ 0) := by
  refine ⟨?_, ?_, ?_⟩
  · intro row hrow p hp
    constructor
    · intro hodd
      rw [emitted_iff_seen]
      exact final_seen_of_row trace _ (fun r => r = row)
        (fun st r hr => by
          subst hr
          exact hit_stepChipRow_align st r p _ hp
            (fun s => hit_accessAlignmentBuckets_u2 s p hodd))
        ⟨row, hrow, rfl⟩
    · intro hodd
      rw [emitted_iff_seen]
      exact final_seen_of_row trace _ (fun r => r = row)
        (fun st r hr => by
          subst hr
          exact hit_stepChipRow_align st r p _ hp
            (fun s => hit_accessAlignmentBuckets_u4 s p hodd))
        ⟨row, hrow, rfl⟩
  · intro hmem
    rw [emitted_iff_seen] at hmem
    rcases final_seen_cases trace _ hmem with
      ⟨ia, _, ⟨hx, _⟩ | hx⟩ | ⟨row, hrow, hq⟩ | hx | hx | hx | hx | hx | hx | hx
    · exact absurd hx (by decide)
    · exact absurd hx (not_mem_iaOtherIds_u2 ia.payload)
    · rcases hq with ⟨_, hu⟩ | ⟨hx, _⟩ | hx | hx
      · rcases unaligned2_elim row hu with ⟨p, hp, hodd⟩
        exact ⟨row, hrow, p, hp, hodd⟩
      · exact absurd hx (by decide)
      · exact absurd hx (by decide)
      · exact absurd hx (not_mem_rowOtherIds_u2 row.payload)
    all_goals exact absurd hx (by decide)
  · intro hmem
    rw [emitted_iff_seen] at hmem
    rcases final_seen_cases trace _ hmem with
      ⟨ia, _, ⟨hx, _⟩ | hx⟩ | ⟨row, hrow, hq⟩ | hx | hx | hx | hx | hx | hx | hx
    · exact absurd hx (by decide)
    · exact absurd hx (not_mem_iaOtherIds_u4 ia.payload)
    · rcases hq with ⟨hx, _⟩ | ⟨_, hu⟩ | hx | hx
      · exact absurd hx (by decide)
      · rcases unaligned4_elim row hu with ⟨p, hp, hodd⟩
        exact ⟨row, hrow, p, hp, hodd⟩
      · exact absurd hx (by decide)
      · exact absurd hx (not_mem_rowOtherIds_u4 row.payload)
    all_goals exact absurd hx (by decide)

/-- C2 witness: on the concrete one-row trace with effective pointer 3,
the amended theorem yields both alignment buckets. -/
theorem c2_mem_alignment_buckets_witness :
    bucketIdStr .memEffectivePtrUnaligned2 ∈ emittedIds c2wTrace ∧
    bucketIdStr .memEffectivePtrUnaligned4 ∈ emittedIds c2wTrace :=
  ⟨((c2_mem_alignment_buckets c2wTrace).1 c2wRow (List.mem_cons_self _ _)
      3 rfl).1 (by decide),
   ((c2_mem_alignment_buckets c2wTrace).1 c2wRow (List.mem_cons_self _ _)
      3 rfl).2 (by decide)⟩

/-- C3: counterexample. The claim says `value_out_of_range` is emitted
whenever some range check has `value ≥ 2^max_bits`, including
`max_bits = 0`; the code additionally requires `0 < max_bits < 32`, so a
range check with `value = 1`, `max_bits = 0` violates the bound yet emits
nothing. -/
theorem c3_counterexample_maxbits0 :
    rangeCheckArgs c3Ia = some (1, 0) ∧ c3Ia ∈ c3Trace.interactions ∧
    2 ^ 0 ≤ 1 ∧
    bucketIdStr .iaRangeCheckValueOutOfRange ∉ emittedIds c3Trace := by
  decide

set_option maxHeartbeats 1000000 in
/-- C3 (amended): for every trace, the matcher emits
`interaction.range_check.value_out_of_range` iff some range-check
interaction has `0 < max_bits < 32` and `value ≥ 2^max_bits`; range
checks with `max_bits = 0` or `max_bits ≥ 32` never produce this
bucket. -/
theorem c3_range_check_out_of_range (trace : Trace) :
    bucketIdStr .iaRangeCheckValueOutOfRange ∈ emittedIds trace ↔
    ∃ ia ∈ trace.interactions, ∃ v mb,
      rangeCheckArgs ia = some (v, mb) ∧ 0 < mb ∧ mb < 32 ∧ 2 ^ mb ≤ v := by
  constructor
  · intro hmem
    rw [emitted_iff_seen] at hmem
    rcases final_seen_cases trace _ hmem with
      ⟨ia, hia, ⟨_, hv⟩ | hx⟩ | ⟨row, _, hq⟩ | hx | hx | hx | hx | hx | hx | hx
    · rcases rangeViolation_elim ia hv with ⟨v, mb, ha, h1, h2, h3⟩
      exact ⟨ia, hia, v, mb, ha, h1, h2, h3⟩
    · exact absurd hx (not_mem_iaOtherIds_oob ia.payload)
    · rcases hq with ⟨hx, _⟩ | ⟨hx, _⟩ | hx | hx
      · exact absurd hx (by decide)
      · exact absurd hx (by decide)
      · exact absurd hx (by decide)
      · exact absurd hx (not_mem_rowOtherIds_oob row.payload)
    all_goals exact absurd hx (by decide)
  · rintro ⟨ia, hia, v, mb, ha, h1, h2, h3⟩
    rw [emitted_iff_seen]
    exact final_seen_of_ia trace _ (fun i => i = ia)
      (fun st i hi => by
        subst hi
        exact hit_stepInteraction_oob st i
          (rangeViolation_intro i v mb ha h1 h2 h3))
      ⟨ia, hia, rfl⟩

/-- C3 witness: the concrete trace whose single range check has
`value = 9`, `max_bits = 3` emits the out-of-range bucket. -/
theorem c3_range_check_out_of_range_witness :
    bucketIdStr .iaRangeCheckValueOutOfRange ∈ emittedIds c3wTrace :=
  (c3_range_check_out_of_range c3wTrace).mpr
    ⟨c3wIa, List.mem_cons_self _ _, 9, 3, rfl, by decide, by decide,
     by decide⟩

end Beak.OpenVM

namespace Beak

open Core

/-- Helper: membership through `insertLe`. -/
theorem mem_insertLe {α : Type} (le : α → α → Bool) (a x : α) (l : List α) :
    x ∈ insertLe le a l ↔ x = a ∨ x ∈ l := by
  induction l with
  | nil => simp [insertLe]
  | cons b t ih =>
    have hstep : insertLe le a (b :: t) =
        if le a b then a :: b :: t else b :: insertLe le a t := rfl
    rw [hstep]
    by_cases h : le a b = true
    · rw [if_pos h]
      simp [List.mem_cons]
    · rw [if_neg h]
      simp only [List.mem_cons, ih]
      tauto

/-- Helper: `insertLe` permutes a cons. -/
theorem perm_insertLe {α : Type} (le : α → α → Bool) (a : α) (l : List α) :
    List.Perm (insertLe le a l) (a :: l) := by
  induction l with
  | nil => exact List.Perm.refl _
  | cons b t ih =>
    have hstep : insertLe le a (b :: t) =
        if le a b then a :: b :: t else b :: insertLe le a t := rfl
    rw [hstep]
    by_cases h : le a b = true
    · rw [if_pos h]
    · rw [if_neg h]
      exact (ih.cons b).trans (List.Perm.swap a b t)

/-- Helper: `sortLe` permutes its input. -/
theorem perm_sortLe {α : Type} (le : α → α → Bool) (l : List α) :
    List.Perm (sortLe le l) l := by
  induction l with
  | nil => exact List.Perm.refl _
  | cons a t ih => exact (perm_insertLe le a (sortLe le t)).trans (ih.cons a)

/-- Helper: `insertLe` keeps the list pairwise-ordered for a total,
transitive comparator. -/
theorem pairwise_insertLe {α : Type} (le : α → α → Bool)
    (htot : ∀ a b, le a b = true ∨ le b a = true)
    (htrans : ∀ a b c, le a b = true → le b c = true → le a c = true)
    (a : α) (l : List α) (h : l.Pairwise (fun x y => le x y = true)) :
    (insertLe le a l).Pairwise (fun x y => le x y = true) := by
  induction l with
  | nil => simp [insertLe]
  | cons b t ih =>
    rw [List.pairwise_cons] at h
    have hstep : insertLe le a (b :: t) =
        if le a b then a :: b :: t else b :: insertLe le a t := rfl
    rw [hstep]
    by_cases hab : le a b = true
    · rw [if_pos hab, List.pairwise_cons]
      refine ⟨?_, List.pairwise_cons.mpr h⟩
      intro x hx
      rcases List.mem_cons.mp hx with rfl | hx
      · exact hab
      · exact htrans a b x hab (h.1 x hx)
    · rw [if_neg hab, List.pairwise_cons]
      refine ⟨?_, ih h.2⟩
      intro x hx
      rcases (mem_insertLe le a x t).mp hx with rfl | hx
      · exact (htot x b).resolve_left hab
      · exact h.1 x hx

/-- Helper: `sortLe` sorts for a total, transitive comparator. -/
theorem pairwise_sortLe {α : Type} (le : α → α → Bool)
    (htot : ∀ a b, le a b = true ∨ le b a = true)
    (htrans : ∀ a b c, le a b = true → le b c = true → le a c = true)
    (l : List α) :
    (sortLe le l).Pairwise (fun x y => le x y = true) := by
  induction l with
  | nil => exact List.Pairwise.nil
  | cons a t ih => exact pairwise_insertLe le htot htrans a (sortLe le t) ih

/-- Helper: the hit comparator is total. -/
theorem hitLe_total (a b : Core.BucketHit) :
    Core.hitLe a b = true ∨ Core.hitLe b a = true := by
  unfold Core.hitLe
  cases a.bucket_type
  cases b.bucket_type
  simp only [Core.BucketType.cmp, decide_eq_true_eq]
  exact le_total _ _

/-- Helper: the hit comparator is transitive. -/
theorem hitLe_trans (a b c : Core.BucketHit) (h1 : Core.hitLe a b = true)
    (h2 : Core.hitLe b c = true) : Core.hitLe a c = true := by
  unfold Core.hitLe at h1 h2 ⊢
  cases a.bucket_type
  cases b.bucket_type
  cases c.bucket_type
  simp only [Core.BucketType.cmp, decide_eq_true_eq] at h1 h2 ⊢
  exact le_trans h1 h2

/-- Helper: the hit comparator orders the signature strings. -/
theorem hitLe_imp_le (a b : Core.BucketHit) (h : Core.hitLe a b = true) :
    a.signature ≤ b.signature := by
  unfold Core.hitLe at h
  cases a.bucket_type
  cases b.bucket_type
  simp only [Core.BucketType.cmp, decide_eq_true_eq] at h
  exact h

/-- Helper: mapping `signature` is mapping `bucket_id`. -/
theorem map_signature_eq (l : List Core.BucketHit) :
    l.map Core.BucketHit.signature = l.map Core.BucketHit.bucket_id := by
  induction l with
  | nil => rfl
  | cons a t ih => simp [Core.BucketHit.signature, ih]

/-- Helper: `sorted_signatures_from_hits` is sorted by string order. -/
theorem sorted_sortedSignatures (hits : List Core.BucketHit) :
    (Core.sortedSignaturesFromHits hits).Sorted (fun a b => a ≤ b) := by
  unfold Core.sortedSignaturesFromHits
  exact List.Pairwise.map Core.BucketHit.signature hitLe_imp_le
    (pairwise_sortLe Core.hitLe hitLe_total hitLe_trans hits)

/-- Helper: `sorted_signatures_from_hits` has the id strings of the input
hits as members. -/
theorem mem_sortedSignatures (hits : List Core.BucketHit) (x : String) :
    x ∈ Core.sortedSignaturesFromHits hits ↔
      x ∈ hits.map Core.BucketHit.bucket_id := by
  unfold Core.sortedSignaturesFromHits
  rw [map_signature_eq]
  exact ((perm_sortLe Core.hitLe hits).map Core.BucketHit.bucket_id).mem_iff

/-- Helper: `destutter` keeps membership. -/
theorem mem_destutter {α : Type} [DecidableEq α] (l : List α) (x : α) :
    x ∈ destutter l ↔ x ∈ l := by
  induction l with
  | nil => exact Iff.rfl
  | cons a t ih =>
    cases t with
    | nil => exact Iff.rfl
    | cons b t2 =>
      have hd : destutter (a :: b :: t2) =
          if a = b then destutter (b :: t2) else a :: destutter (b :: t2) := rfl
      rw [hd]
      by_cases hab : a = b
      · rw [if_pos hab, ih]
        subst hab
        simp only [List.mem_cons]
        tauto
      · rw [if_neg hab]
        simp only [List.mem_cons, ih]

/-- Helper: `destutter` keeps a sorted list sorted. -/
theorem destutter_sorted (l : List String)
    (h : l.Sorted (fun a b => a ≤ b)) :
    (destutter l).Sorted (fun a b => a ≤ b) := by
  induction l with
  | nil => exact h
  | cons a t ih =>
    cases t with
    | nil => exact h
    | cons b t2 =>
      rw [List.sorted_cons] at h
      have hd : destutter (a :: b :: t2) =
          if a = b then destutter (b :: t2) else a :: destutter (b :: t2) := rfl
      rw [hd]
      by_cases hab : a = b
      · rw [if_pos hab]
        exact ih h.2
      · rw [if_neg hab, List.sorted_cons]
        exact ⟨fun x hx => h.1 x ((mem_destutter _ x).mp hx), ih h.2⟩

/-- Helper: `destutter` of a sorted list has no duplicates. -/
theorem destutter_nodup (l : List String)
    (h : l.Sorted (fun a b => a ≤ b)) : (destutter l).Nodup := by
  induction l with
  | nil => exact List.nodup_nil
  | cons a t ih =>
    cases t with
    | nil => exact List.nodup_singleton a
    | cons b t2 =>
      rw [List.sorted_cons] at h
      have hd : destutter (a :: b :: t2) =
          if a = b then destutter (b :: t2) else a :: destutter (b :: t2) := rfl
      rw [hd]
      by_cases hab : a = b
      · rw [if_pos hab]
        exact ih h.2
      · rw [if_neg hab, List.nodup_cons]
        refine ⟨fun hmem => ?_, ih h.2⟩
        rcases List.mem_cons.mp ((mem_destutter _ a).mp hmem) with rfl | hat
        · exact hab rfl
        · exact hab (le_antisymm (h.1 b (List.mem_cons_self b t2))
            ((List.sorted_cons.mp h.2).1 a hat))

/-- Helper: sorted string lists with the same members destutter to the
same list. -/
theorem destutter_eq_of_sorted_mem (l1 l2 : List String)
    (h1 : l1.Sorted (fun a b => a ≤ b)) (h2 : l2.Sorted (fun a b => a ≤ b))
    (hm : ∀ x, x ∈ l1 ↔ x ∈ l2) : destutter l1 = destutter l2 := by
  refine List.eq_of_perm_of_sorted ?_ (destutter_sorted l1 h1)
    (destutter_sorted l2 h2)
  refine (List.perm_ext_iff_of_nodup (destutter_nodup l1 h1)
    (destutter_nodup l2 h2)).mpr ?_
  intro x
  rw [mem_destutter, mem_destutter]
  exact hm x

/-- Helper: `dropWhile` is idempotent. -/
theorem dropWhile_self_idem (p : Char → Bool) (l : List Char) :
    (l.dropWhile p).dropWhile p = l.dropWhile p := by
  induction l with
  | nil => rfl
  | cons a t ih =>
    by_cases h : p a = true
    · rw [List.dropWhile_cons_of_pos h]
      exact ih
    · rw [List.dropWhile_cons_of_neg h, List.dropWhile_cons_of_neg h]

/-- Helper: `dropEndWhile` is idempotent. -/
theorem dropEndWhile_idem (p : Char → Bool) (l : List Char) :
    dropEndWhile p (dropEndWhile p l) = dropEndWhile p l := by
  induction l with
  | nil => rfl
  | cons a t ih =>
    have hstep : dropEndWhile p (a :: t) =
        if (dropEndWhile p t).isEmpty && p a then []
        else a :: dropEndWhile p t := rfl
    rw [hstep]
    by_cases hc : ((dropEndWhile p t).isEmpty && p a) = true
    · rw [if_pos hc]
      rfl
    · rw [if_neg hc]
      have hstep2 : dropEndWhile p (a :: dropEndWhile p t) =
          if (dropEndWhile p (dropEndWhile p t)).isEmpty && p a then []
          else a :: dropEndWhile p (dropEndWhile p t) := rfl
      rw [hstep2, ih, if_neg hc]

/-- Helper: a list with no leading match keeps that property through
`dropEndWhile`. -/
theorem dropWhile_dropEndWhile (p : Char → Bool) (m : List Char)
    (h : m.dropWhile p = m) :
    (dropEndWhile p m).dropWhile p = dropEndWhile p m := by
  cases m with
  | nil => rfl
  | cons a t =>
    have hna : ¬ p a = true := by
      intro hp
      rw [List.dropWhile_cons_of_pos hp] at h
      have hlen := congrArg List.length h
      have hle := (List.dropWhile_sublist (l := t) p).length_le
      simp only [List.length_cons] at hlen
      omega
    have hstep : dropEndWhile p (a :: t) =
        if (dropEndWhile p t).isEmpty && p a then []
        else a :: dropEndWhile p t := rfl
    rw [hstep]
    rw [if_neg (by simp [hna])]
    rw [List.dropWhile_cons_of_neg hna]

/-- Helper: `trim` on character lists is idempotent. -/
theorem trimChars_idem (l : List Char) :
    trimChars (trimChars l) = trimChars l := by
  unfold trimChars
  rw [dropWhile_dropEndWhile isWsChar (l.dropWhile isWsChar)
    (dropWhile_self_idem isWsChar l)]
  rw [dropEndWhile_idem]

/-- Helper: Rust `str::trim` is idempotent. -/
theorem rustTrim_idem (s : String) : rustTrim (rustTrim s) = rustTrim s := by
  unfold rustTrim
  dsimp only
  rw [trimChars_idem]

end Beak

namespace Beak

open Core

/-- Helper: a token trimming to empty is skipped. -/
theorem canonTokens_cons_empty (seen : List String) (s : String)
    (rest : List String) (h : rustTrim s = "") :
    Core.canonTokens seen (s :: rest) = Core.canonTokens seen rest := by
  simp [Core.canonTokens, h]

/-- Helper: an already-seen token is skipped. -/
theorem canonTokens_cons_seen (seen : List String) (s : String)
    (rest : List String) (h : rustTrim s ∈ seen) :
    Core.canonTokens seen (s :: rest) = Core.canonTokens seen rest := by
  by_cases h0 : rustTrim s = ""
  · simp [Core.canonTokens, h0]
  · simp [Core.canonTokens, h0, h]

/-- Helper: a fresh nonempty token is kept and recorded. -/
theorem canonTokens_cons_new (seen : List String) (s : String)
    (rest : List String) (h0 : rustTrim s ≠ "") (h1 : rustTrim s ∉ seen) :
    Core.canonTokens seen (s :: rest) =
      rustTrim s :: Core.canonTokens (rustTrim s :: seen) rest := by
  simp [Core.canonTokens, h0, h1]

/-- Helper: `canonTokens` ignores adjacent duplicate signatures. -/
theorem canonTokens_destutter (l : List String) :
    ∀ seen, Core.canonTokens seen (destutter l) = Core.canonTokens seen l := by
  induction l with
  | nil => intro seen; rfl
  | cons a t ih =>
    cases t with
    | nil => intro seen; rfl
    | cons b t2 =>
      intro seen
      have hd : destutter (a :: b :: t2) =
          if a = b then destutter (b :: t2) else a :: destutter (b :: t2) := rfl
      by_cases hab : a = b
      · rw [hd, if_pos hab, ih seen]
        subst hab
        by_cases h0 : rustTrim a = ""
        · rw [canonTokens_cons_empty seen a (a :: t2) h0]
        · by_cases h1 : rustTrim a ∈ seen
          · rw [canonTokens_cons_seen seen a (a :: t2) h1]
          · rw [canonTokens_cons_new seen a (a :: t2) h0 h1,
              canonTokens_cons_new seen a t2 h0 h1,
              canonTokens_cons_seen (rustTrim a :: seen) a t2
                (List.mem_cons_self _ _)]
      · rw [hd, if_neg hab]
        by_cases h0 : rustTrim a = ""
        · rw [canonTokens_cons_empty seen a (destutter (b :: t2)) h0,
            canonTokens_cons_empty seen a (b :: t2) h0, ih seen]
        · by_cases h1 : rustTrim a ∈ seen
          · rw [canonTokens_cons_seen seen a (destutter (b :: t2)) h1,
              canonTokens_cons_seen seen a (b :: t2) h1, ih seen]
          · rw [canonTokens_cons_new seen a (destutter (b :: t2)) h0 h1,
              canonTokens_cons_new seen a (b :: t2) h0 h1,
              ih (rustTrim a :: seen)]

/-- Helper: every emitted token is trimmed, nonempty and new. -/
theorem canonTokens_mem_clean (l : List String) :
    ∀ (seen : List String) (t : String), t ∈ Core.canonTokens seen l →
      rustTrim t = t ∧ t ≠ "" ∧ t ∉ seen := by
  induction l with
  | nil =>
    intro seen t h
    exact absurd h (List.not_mem_nil t)
  | cons s rest ih =>
    intro seen t h
    by_cases h0 : rustTrim s = ""
    · rw [canonTokens_cons_empty seen s rest h0] at h
      exact ih seen t h
    by_cases h1 : rustTrim s ∈ seen
    · rw [canonTokens_cons_seen seen s rest h1] at h
      exact ih seen t h
    · rw [canonTokens_cons_new seen s rest h0 h1] at h
      rcases List.mem_cons.mp h with rfl | h
      · exact ⟨rustTrim_idem s, h0, h1⟩
      · have hr := ih (rustTrim s :: seen) t h
        exact ⟨hr.1, hr.2.1, fun hs => hr.2.2 (List.mem_cons_of_mem _ hs)⟩

/-- Helper: the emitted token list has no duplicates. -/
theorem canonTokens_nodup (l : List String) :
    ∀ seen, (Core.canonTokens seen l).Nodup := by
  induction l with
  | nil => intro seen; exact List.nodup_nil
  | cons s rest ih =>
    intro seen
    by_cases h0 : rustTrim s = ""
    · rw [canonTokens_cons_empty seen s rest h0]
      exact ih seen
    by_cases h1 : rustTrim s ∈ seen
    · rw [canonTokens_cons_seen seen s rest h1]
      exact ih seen
    · rw [canonTokens_cons_new seen s rest h0 h1, List.nodup_cons]
      refine ⟨fun hmem => ?_, ih (rustTrim s :: seen)⟩
      exact (canonTokens_mem_clean rest (rustTrim s :: seen) _ hmem).2.2
        (List.mem_cons_self _ _)

/-- Helper: `canonTokens` fixes a clean, duplicate-free, unseen list. -/
theorem canonTokens_fix (l : List String)
    (hclean : ∀ t ∈ l, rustTrim t = t ∧ t ≠ "") (hnd : l.Nodup) :
    ∀ seen, (∀ t ∈ l, t ∉ seen) → Core.canonTokens seen l = l := by
  induction l with
  | nil => intro seen _; rfl
  | cons a rest ih =>
    intro seen hseen
    have ha := hclean a (List.mem_cons_self a rest)
    rw [canonTokens_cons_new seen a rest (by rw [ha.1]; exact ha.2)
      (by rw [ha.1]; exact hseen a (List.mem_cons_self a rest)), ha.1]
    congr 1
    refine ih (fun t ht => hclean t (List.mem_cons_of_mem a ht))
      (List.nodup_cons.mp hnd).2 (a :: seen) ?_
    intro t ht
    simp only [List.mem_cons]
    rintro (rfl | hs)
    · exact (List.nodup_cons.mp hnd).1 ht
    · exact hseen t (List.mem_cons_of_mem a ht) hs

set_option maxHeartbeats 1000000 in
/-- C4: the canonical signature depends only on the set of `bucket_id`
strings in the hits (order, multiplicity, bucket types and details are
irrelevant), and `canonical_bucket_sig`'s tokenization is idempotent. -/
theorem c4_canonical_signature_set_function :
    (∀ hits1 hits2 : List Core.BucketHit,
      (∀ x, x ∈ hits1.map Core.BucketHit.bucket_id ↔
        x ∈ hits2.map Core.BucketHit.bucket_id) →
      Core.canonicalBucketSig (Core.sortedSignaturesFromHits hits1) =
        Core.canonicalBucketSig (Core.sortedSignaturesFromHits hits2)) ∧
    (∀ sigs : List String,
      Core.canonTokens [] (Core.canonTokens [] sigs) =
        Core.canonTokens [] sigs) := by
  constructor
  · intro hits1 hits2 hm
    unfold Core.canonicalBucketSig
    congr 1
    rw [← canonTokens_destutter (Core.sortedSignaturesFromHits hits1) [],
      ← canonTokens_destutter (Core.sortedSignaturesFromHits hits2) []]
    congr 1
    refine destutter_eq_of_sorted_mem _ _ (sorted_sortedSignatures hits1)
      (sorted_sortedSignatures hits2) ?_
    intro x
    rw [mem_sortedSignatures, mem_sortedSignatures]
    exact hm x
  · intro sigs
    refine canonTokens_fix (Core.canonTokens [] sigs) ?_
      (canonTokens_nodup sigs []) [] (fun t _ => List.not_mem_nil t)
    intro t ht
    have h := canonTokens_mem_clean sigs [] t ht
    exact ⟨h.1, h.2.1⟩

/-- C4 witness: concrete hit lists with the same id set but different
order, multiplicity and details canonicalize identically, and a concrete
token list is a fixed point of retokenization. -/
theorem c4_canonical_signature_set_function_witness :
    Core.canonicalBucketSig (Core.sortedSignaturesFromHits
      [⟨"openvm.b", .unknown, []⟩, ⟨"openvm.a", .unknown, [("k", .num 1)]⟩,
       ⟨"openvm.a", .unknown, []⟩]) =
      Core.canonicalBucketSig (Core.sortedSignaturesFromHits
        [⟨"openvm.a", .unknown, []⟩, ⟨"openvm.b", .unknown, []⟩]) ∧
    Core.canonTokens [] (Core.canonTokens [] [" a", "", "b", "a"]) =
      Core.canonTokens [] [" a", "", "b", "a"] :=
  ⟨c4_canonical_signature_set_function.1 _ _ (fun x => by
      simp only [List.map_cons, List.map_nil, List.mem_cons,
        List.not_mem_nil, or_false]
      tauto),
   c4_canonical_signature_set_function.2 [" a", "", "b", "a"]⟩

end Beak

namespace Beak

theorem u32_natCast_mod12 (x : Nat) (h : x < 2 ^ 12) :
    u32OfInt (x : Int) % 2 ^ 12 = x := by
  unfold u32OfInt
  omega

theorem u32_natCast_mod5 (x : Nat) (h : x < 2 ^ 5) :
    u32OfInt (x : Int) % 2 ^ 5 = x := by
  unfold u32OfInt
  omega

theorem u32_signExt12_mod12 (x : Nat) (h : x < 2 ^ 12) :
    u32OfInt (signExt 12 x) % 2 ^ 12 = x := by
  unfold u32OfInt signExt
  split_ifs <;> omega

theorem u32_signExt12_mod5 (x : Nat) (h : x < 2 ^ 12) :
    u32OfInt (signExt 12 x) % 2 ^ 5 = x % 2 ^ 5 := by
  unfold u32OfInt signExt
  split_ifs <;> omega

theorem extBits_signExt12_5_7 (x : Nat) (h : x < 2 ^ 12) :
    extBits (signExt 12 x) 5 7 = x / 2 ^ 5 % 2 ^ 7 := by
  unfold extBits signExt
  split_ifs <;> omega

theorem extBits_signExt13_12_1 (x : Nat) (h : x < 2 ^ 13) :
    extBits (signExt 13 x) 12 1 = x / 2 ^ 12 % 2 := by
  unfold extBits signExt
  split_ifs <;> omega

theorem extBits_signExt13_5_6 (x : Nat) (h : x < 2 ^ 13) :
    extBits (signExt 13 x) 5 6 = x / 2 ^ 5 % 2 ^ 6 := by
  unfold extBits signExt
  split_ifs <;> omega

theorem extBits_signExt13_1_4 (x : Nat) (h : x < 2 ^ 13) :
    extBits (signExt 13 x) 1 4 = x / 2 % 2 ^ 4 := by
  unfold extBits signExt
  split_ifs <;> omega

theorem extBits_signExt13_11_1 (x : Nat) (h : x < 2 ^ 13) :
    extBits (signExt 13 x) 11 1 = x / 2 ^ 11 % 2 := by
  unfold extBits signExt
  split_ifs <;> omega

theorem extBits_signExt21_20_1 (x : Nat) (h : x < 2 ^ 21) :
    extBits (signExt 21 x) 20 1 = x / 2 ^ 20 % 2 := by
  unfold extBits signExt
  split_ifs <;> omega

theorem extBits_signExt21_1_10 (x : Nat) (h : x < 2 ^ 21) :
    extBits (signExt 21 x) 1 10 = x / 2 % 2 ^ 10 := by
  unfold extBits signExt
  split_ifs <;> omega

theorem extBits_signExt21_11_1 (x : Nat) (h : x < 2 ^ 21) :
    extBits (signExt 21 x) 11 1 = x / 2 ^ 11 % 2 := by
  unfold extBits signExt
  split_ifs <;> omega

theorem extBits_signExt21_12_8 (x : Nat) (h : x < 2 ^ 21) :
    extBits (signExt 21 x) 12 8 = x / 2 ^ 12 % 2 ^ 8 := by
  unfold extBits signExt
  split_ifs <;> omega

/-- Helper: dividing off an exact power-of-two block. -/
theorem div_pow_add (a r k : Nat) (h : r < 2 ^ k) :
    (a * 2 ^ k + r) / 2 ^ k = a := by
  rw [Nat.mul_comm a (2 ^ k), Nat.mul_add_div (Nat.two_pow_pos k),
    Nat.div_eq_of_lt h, Nat.add_zero]

/-- Helper: halving an even product. -/
theorem div_two_add (a : Nat) : a * 2 / 2 = a := by omega

theorem immS_hi (w : Nat) :
    extBits (signExt 12 (w / 2 ^ 25 % 2 ^ 7 * 2 ^ 5 + w / 2 ^ 7 % 2 ^ 5)) 5 7 =
      w / 2 ^ 25 % 2 ^ 7 := by
  obtain ⟨a, b, ha, hb, h1, h2⟩ :
      ∃ a b, w / 2 ^ 25 % 2 ^ 7 = a ∧ w / 2 ^ 7 % 2 ^ 5 = b ∧
        a < 2 ^ 7 ∧ b < 2 ^ 5 :=
    ⟨_, _, rfl, rfl, by omega, by omega⟩
  rw [ha, hb, extBits_signExt12_5_7 _ (by omega),
    div_pow_add a b 5 (by omega)]
  omega

theorem immS_lo (w : Nat) :
    u32OfInt (signExt 12 (w / 2 ^ 25 % 2 ^ 7 * 2 ^ 5 + w / 2 ^ 7 % 2 ^ 5)) % 2 ^ 5 =
      w / 2 ^ 7 % 2 ^ 5 := by
  obtain ⟨a, b, ha, hb, h1, h2⟩ :
      ∃ a b, w / 2 ^ 25 % 2 ^ 7 = a ∧ w / 2 ^ 7 % 2 ^ 5 = b ∧
        a < 2 ^ 7 ∧ b < 2 ^ 5 :=
    ⟨_, _, rfl, rfl, by omega, by omega⟩
  rw [ha, hb, u32_signExt12_mod5 _ (by omega)]
  omega

theorem immB_bit12 (w : Nat) :
    extBits (signExt 13 (w / 2 ^ 31 % 2 * 2 ^ 12 + w / 2 ^ 7 % 2 * 2 ^ 11 +
      w / 2 ^ 25 % 2 ^ 6 * 2 ^ 5 + w / 2 ^ 8 % 2 ^ 4 * 2)) 12 1 =
      w / 2 ^ 31 % 2 := by
  obtain ⟨a, b, c, d, ha, hb, hc, hd, h1, h2, h3, h4⟩ :
      ∃ a b c d, w / 2 ^ 31 % 2 = a ∧ w / 2 ^ 7 % 2 = b ∧
        w / 2 ^ 25 % 2 ^ 6 = c ∧ w / 2 ^ 8 % 2 ^ 4 = d ∧
        a < 2 ∧ b < 2 ∧ c < 2 ^ 6 ∧ d < 2 ^ 4 :=
    ⟨_, _, _, _, rfl, rfl, rfl, rfl, by omega, by omega, by omega, by omega⟩
  rw [ha, hb, hc, hd, extBits_signExt13_12_1 _ (by omega),
    show a * 2 ^ 12 + b * 2 ^ 11 + c * 2 ^ 5 + d * 2 =
      a * 2 ^ 12 + (b * 2 ^ 11 + c * 2 ^ 5 + d * 2) from by ring,
    div_pow_add a _ 12 (by omega)]
  omega

theorem immB_hi (w : Nat) :
    extBits (signExt 13 (w / 2 ^ 31 % 2 * 2 ^ 12 + w / 2 ^ 7 % 2 * 2 ^ 11 +
      w / 2 ^ 25 % 2 ^ 6 * 2 ^ 5 + w / 2 ^ 8 % 2 ^ 4 * 2)) 5 6 =
      w / 2 ^ 25 % 2 ^ 6 := by
  obtain ⟨a, b, c, d, ha, hb, hc, hd, h1, h2, h3, h4⟩ :
      ∃ a b c d, w / 2 ^ 31 % 2 = a ∧ w / 2 ^ 7 % 2 = b ∧
        w / 2 ^ 25 % 2 ^ 6 = c ∧ w / 2 ^ 8 % 2 ^ 4 = d ∧
        a < 2 ∧ b < 2 ∧ c < 2 ^ 6 ∧ d < 2 ^ 4 :=
    ⟨_, _, _, _, rfl, rfl, rfl, rfl, by omega, by omega, by omega, by omega⟩
  rw [ha, hb, hc, hd, extBits_signExt13_5_6 _ (by omega),
    show a * 2 ^ 12 + b * 2 ^ 11 + c * 2 ^ 5 + d * 2 =
      (a * 2 ^ 7 + b * 2 ^ 6 + c) * 2 ^ 5 + d * 2 from by ring,
    div_pow_add _ _ 5 (by omega)]
  omega

theorem immB_lo (w : Nat) :
    extBits (signExt 13 (w / 2 ^ 31 % 2 * 2 ^ 12 + w / 2 ^ 7 % 2 * 2 ^ 11 +
      w / 2 ^ 25 % 2 ^ 6 * 2 ^ 5 + w / 2 ^ 8 % 2 ^ 4 * 2)) 1 4 =
      w / 2 ^ 8 % 2 ^ 4 := by
  obtain ⟨a, b, c, d, ha, hb, hc, hd, h1, h2, h3, h4⟩ :
      ∃ a b c d, w / 2 ^ 31 % 2 = a ∧ w / 2 ^ 7 % 2 = b ∧
        w / 2 ^ 25 % 2 ^ 6 = c ∧ w / 2 ^ 8 % 2 ^ 4 = d ∧
        a < 2 ∧ b < 2 ∧ c < 2 ^ 6 ∧ d < 2 ^ 4 :=
    ⟨_, _, _, _, rfl, rfl, rfl, rfl, by omega, by omega, by omega, by omega⟩
  rw [ha, hb, hc, hd, extBits_signExt13_1_4 _ (by omega),
    show a * 2 ^ 12 + b * 2 ^ 11 + c * 2 ^ 5 + d * 2 =
      (a * 2 ^ 11 + b * 2 ^ 10 + c * 2 ^ 4 + d) * 2 from by ring,
    div_two_add]
  omega

theorem immB_bit11 (w : Nat) :
    extBits (signExt 13 (w / 2 ^ 31 % 2 * 2 ^ 12 + w / 2 ^ 7 % 2 * 2 ^ 11 +
      w / 2 ^ 25 % 2 ^ 6 * 2 ^ 5 + w / 2 ^ 8 % 2 ^ 4 * 2)) 11 1 =
      w / 2 ^ 7 % 2 := by
  obtain ⟨a, b, c, d, ha, hb, hc, hd, h1, h2, h3, h4⟩ :
      ∃ a b c d, w / 2 ^ 31 % 2 = a ∧ w / 2 ^ 7 % 2 = b ∧
        w / 2 ^ 25 % 2 ^ 6 = c ∧ w / 2 ^ 8 % 2 ^ 4 = d ∧
        a < 2 ∧ b < 2 ∧ c < 2 ^ 6 ∧ d < 2 ^ 4 :=
    ⟨_, _, _, _, rfl, rfl, rfl, rfl, by omega, by omega, by omega, by omega⟩
  rw [ha, hb, hc, hd, extBits_signExt13_11_1 _ (by omega),
    show a * 2 ^ 12 + b * 2 ^ 11 + c * 2 ^ 5 + d * 2 =
      (a * 2 + b) * 2 ^ 11 + (c * 2 ^ 5 + d * 2) from by ring,
    div_pow_add _ _ 11 (by omega)]
  omega

theorem immJ_bit20 (w : Nat) :
    extBits (signExt 21 (w / 2 ^ 31 % 2 * 2 ^ 20 + w / 2 ^ 12 % 2 ^ 8 * 2 ^ 12 +
      w / 2 ^ 20 % 2 * 2 ^ 11 + w / 2 ^ 21 % 2 ^ 10 * 2)) 20 1 =
      w / 2 ^ 31 % 2 := by
  obtain ⟨a, b, c, d, ha, hb, hc, hd, h1, h2, h3, h4⟩ :
      ∃ a b c d, w / 2 ^ 31 % 2 = a ∧ w / 2 ^ 12 % 2 ^ 8 = b ∧
        w / 2 ^ 20 % 2 = c ∧ w / 2 ^ 21 % 2 ^ 10 = d ∧
        a < 2 ∧ b < 2 ^ 8 ∧ c < 2 ∧ d < 2 ^ 10 :=
    ⟨_, _, _, _, rfl, rfl, rfl, rfl, by omega, by omega, by omega, by omega⟩
  rw [ha, hb, hc, hd, extBits_signExt21_20_1 _ (by omega),
    show a * 2 ^ 20 + b * 2 ^ 12 + c * 2 ^ 11 + d * 2 =
      a * 2 ^ 20 + (b * 2 ^ 12 + c * 2 ^ 11 + d * 2) from by ring,
    div_pow_add a _ 20 (by omega)]
  omega

theorem immJ_lo (w : Nat) :
    extBits (signExt 21 (w / 2 ^ 31 % 2 * 2 ^ 20 + w / 2 ^ 12 % 2 ^ 8 * 2 ^ 12 +
      w / 2 ^ 20 % 2 * 2 ^ 11 + w / 2 ^ 21 % 2 ^ 10 * 2)) 1 10 =
      w / 2 ^ 21 % 2 ^ 10 := by
  obtain ⟨a, b, c, d, ha, hb, hc, hd, h1, h2, h3, h4⟩ :
      ∃ a b c d, w / 2 ^ 31 % 2 = a ∧ w / 2 ^ 12 % 2 ^ 8 = b ∧
        w / 2 ^ 20 % 2 = c ∧ w / 2 ^ 21 % 2 ^ 10 = d ∧
        a < 2 ∧ b < 2 ^ 8 ∧ c < 2 ∧ d < 2 ^ 10 :=
    ⟨_, _, _, _, rfl, rfl, rfl, rfl, by omega, by omega, by omega, by omega⟩
  rw [ha, hb, hc, hd, extBits_signExt21_1_10 _ (by omega),
    show a * 2 ^ 20 + b * 2 ^ 12 + c * 2 ^ 11 + d * 2 =
      (a * 2 ^ 19 + b * 2 ^ 11 + c * 2 ^ 10 + d) * 2 from by ring,
    div_two_add]
  omega

theorem immJ_bit11 (w : Nat) :
    extBits (signExt 21 (w / 2 ^ 31 % 2 * 2 ^ 20 + w / 2 ^ 12 % 2 ^ 8 * 2 ^ 12 +
      w / 2 ^ 20 % 2 * 2 ^ 11 + w / 2 ^ 21 % 2 ^ 10 * 2)) 11 1 =
      w / 2 ^ 20 % 2 := by
  obtain ⟨a, b, c, d, ha, hb, hc, hd, h1, h2, h3, h4⟩ :
      ∃ a b c d, w / 2 ^ 31 % 2 = a ∧ w / 2 ^ 12 % 2 ^ 8 = b ∧
        w / 2 ^ 20 % 2 = c ∧ w / 2 ^ 21 % 2 ^ 10 = d ∧
        a < 2 ∧ b < 2 ^ 8 ∧ c < 2 ∧ d < 2 ^ 10 :=
    ⟨_, _, _, _, rfl, rfl, rfl, rfl, by omega, by omega, by omega, by omega⟩
  rw [ha, hb, hc, hd, extBits_signExt21_11_1 _ (by omega),
    show a * 2 ^ 20 + b * 2 ^ 12 + c * 2 ^ 11 + d * 2 =
      (a * 2 ^ 9 + b * 2 + c) * 2 ^ 11 + d * 2 from by ring,
    div_pow_add _ _ 11 (by omega)]
  omega

theorem immJ_hi (w : Nat) :
    extBits (signExt 21 (w / 2 ^ 31 % 2 * 2 ^ 20 + w / 2 ^ 12 % 2 ^ 8 * 2 ^ 12 +
      w / 2 ^ 20 % 2 * 2 ^ 11 + w / 2 ^ 21 % 2 ^ 10 * 2)) 12 8 =
      w / 2 ^ 12 % 2 ^ 8 := by
  obtain ⟨a, b, c, d, ha, hb, hc, hd, h1, h2, h3, h4⟩ :
      ∃ a b c d, w / 2 ^ 31 % 2 = a ∧ w / 2 ^ 12 % 2 ^ 8 = b ∧
        w / 2 ^ 20 % 2 = c ∧ w / 2 ^ 21 % 2 ^ 10 = d ∧
        a < 2 ∧ b < 2 ^ 8 ∧ c < 2 ∧ d < 2 ^ 10 :=
    ⟨_, _, _, _, rfl, rfl, rfl, rfl, by omega, by omega, by omega, by omega⟩
  rw [ha, hb, hc, hd, extBits_signExt21_12_8 _ (by omega),
    show a * 2 ^ 20 + b * 2 ^ 12 + c * 2 ^ 11 + d * 2 =
      (a * 2 ^ 8 + b) * 2 ^ 12 + (c * 2 ^ 11 + d * 2) from by ring,
    div_pow_add _ _ 12 (by omega)]
  omega

theorem encode_R (m : String) (op f3 f7 : Nat)
    (hm : mnemonicSpec m = some ⟨m, .R, op, f3, f7⟩)
    (hno : noOperandImm m = none)
    (rd rs1 rs2 : Nat) (h1 : rd ≤ 31) (h2 : rs1 ≤ 31) (h3 : rs2 ≤ 31)
    (imm : Option Int) :
    encodeFromParts m (some rd) (some rs1) (some rs2) imm =
      .ok (f7 * 2 ^ 25 + rs2 * 2 ^ 20 + rs1 * 2 ^ 15 + f3 * 2 ^ 12 +
        rd * 2 ^ 7 + op) := by
  unfold encodeFromParts
  rw [hm]
  dsimp only
  rw [hno]
  simp only [Option.isSome_none, Bool.false_eq_true, if_false, requireReg,
    if_neg (by omega : ¬ rd > 31), if_neg (by omega : ¬ rs1 > 31),
    if_neg (by omega : ¬ rs2 > 31)]
  rfl

theorem encode_I (m : String) (op f3 : Nat)
    (hm : mnemonicSpec m = some ⟨m, .I, op, f3, 0⟩)
    (hno : noOperandImm m = none) (hsh : isShiftImm m = false)
    (rd rs1 : Nat) (h1 : rd ≤ 31) (h2 : rs1 ≤ 31) (i : Int) :
    encodeFromParts m (some rd) (some rs1) none (some i) =
      .ok ((u32OfInt i % 2 ^ 12) * 2 ^ 20 + rs1 * 2 ^ 15 + f3 * 2 ^ 12 +
        rd * 2 ^ 7 + op) := by
  unfold encodeFromParts
  rw [hm]
  dsimp only
  rw [hno]
  simp only [Option.isSome_none, Bool.false_eq_true, if_false, requireReg,
    if_neg (by omega : ¬ rd > 31), if_neg (by omega : ¬ rs1 > 31), hsh]
  rfl

theorem encode_shift (m : String) (op f3 f7 : Nat)
    (hm : mnemonicSpec m = some ⟨m, .I, op, f3, f7⟩)
    (hno : noOperandImm m = none) (hsh : isShiftImm m = true)
    (rd rs1 : Nat) (h1 : rd ≤ 31) (h2 : rs1 ≤ 31) (i : Int) :
    encodeFromParts m (some rd) (some rs1) none (some i) =
      .ok (f7 * 2 ^ 25 + (u32OfInt i % 2 ^ 5) * 2 ^ 20 + rs1 * 2 ^ 15 +
        f3 * 2 ^ 12 + rd * 2 ^ 7 + op) := by
  unfold encodeFromParts
  rw [hm]
  dsimp only
  rw [hno]
  simp only [Option.isSome_none, Bool.false_eq_true, if_false, requireReg,
    if_neg (by omega : ¬ rd > 31), if_neg (by omega : ¬ rs1 > 31), hsh]
  rfl

theorem encode_S (m : String) (op f3 : Nat)
    (hm : mnemonicSpec m = some ⟨m, .S, op, f3, 0⟩)
    (hno : noOperandImm m = none)
    (rs1 rs2 : Nat) (h1 : rs1 ≤ 31) (h2 : rs2 ≤ 31) (i : Int)
    (rd : Option Nat) :
    encodeFromParts m rd (some rs1) (some rs2) (some i) =
      .ok (extBits i 5 7 * 2 ^ 25 + rs2 * 2 ^ 20 + rs1 * 2 ^ 15 +
        f3 * 2 ^ 12 + (u32OfInt i % 2 ^ 5) * 2 ^ 7 + op) := by
  unfold encodeFromParts
  rw [hm]
  dsimp only
  rw [hno]
  simp only [Option.isSome_none, Bool.false_eq_true, if_false, requireReg,
    if_neg (by omega : ¬ rs1 > 31), if_neg (by omega : ¬ rs2 > 31)]
  rfl

theorem encode_B (m : String) (op f3 : Nat)
    (hm : mnemonicSpec m = some ⟨m, .B, op, f3, 0⟩)
    (hno : noOperandImm m = none)
    (rs1 rs2 : Nat) (h1 : rs1 ≤ 31) (h2 : rs2 ≤ 31) (i : Int)
    (rd : Option Nat) :
    encodeFromParts m rd (some rs1) (some rs2) (some i) =
      .ok (extBits i 12 1 * 2 ^ 31 + extBits i 5 6 * 2 ^ 25 +
        rs2 * 2 ^ 20 + rs1 * 2 ^ 15 + f3 * 2 ^ 12 +
        extBits i 1 4 * 2 ^ 8 + extBits i 11 1 * 2 ^ 7 + op) := by
  unfold encodeFromParts
  rw [hm]
  dsimp only
  rw [hno]
  simp only [Option.isSome_none, Bool.false_eq_true, if_false, requireReg,
    if_neg (by omega : ¬ rs1 > 31), if_neg (by omega : ¬ rs2 > 31)]
  rfl

theorem encode_J (m : String) (op f3 : Nat)
    (hm : mnemonicSpec m = some ⟨m, .J, op, f3, 0⟩)
    (hno : noOperandImm m = none)
    (rd : Nat) (h1 : rd ≤ 31) (i : Int) (rs1 rs2 : Option Nat) :
    encodeFromParts m (some rd) rs1 rs2 (some i) =
      .ok (extBits i 20 1 * 2 ^ 31 + extBits i 1 10 * 2 ^ 21 +
        extBits i 11 1 * 2 ^ 20 + extBits i 12 8 * 2 ^ 12 +
        rd * 2 ^ 7 + op) := by
  unfold encodeFromParts
  rw [hm]
  dsimp only
  rw [hno]
  simp only [Option.isSome_none, Bool.false_eq_true, if_false, requireReg,
    if_neg (by omega : ¬ rd > 31)]
  rfl

theorem encode_CSR (m : String) (op f3 : Nat)
    (hm : mnemonicSpec m = some ⟨m, .CSR, op, f3, 0⟩)
    (hno : noOperandImm m = none)
    (rd rs1 : Nat) (h1 : rd ≤ 31) (h2 : rs1 ≤ 31) (i : Int)
    (rs2 : Option Nat) :
    encodeFromParts m (some rd) (some rs1) rs2 (some i) =
      .ok ((u32OfInt i % 2 ^ 12) * 2 ^ 20 + rs1 * 2 ^ 15 + f3 * 2 ^ 12 +
        rd * 2 ^ 7 + op) := by
  unfold encodeFromParts
  rw [hm]
  dsimp only
  rw [hno]
  simp only [Option.isSome_none, Bool.false_eq_true, if_false, requireReg,
    if_neg (by omega : ¬ rd > 31), if_neg (by omega : ¬ rs1 > 31)]
  rfl



set_option maxHeartbeats 1000000 in
theorem rrsOp0_roundtrip (w : Nat) (hw : w < 2 ^ 32) (i : Instr)
    (h7 : w % 2 ^ 7 = 0x33) (h3 : w / 2 ^ 12 % 2 ^ 3 = 0)
    (hdec : rrsDecodeOp0 w = some i) :
    encodeFromParts i.mnemonic i.rd i.rs1 i.rs2 i.imm = .ok w := by
  unfold rrsDecodeOp0 at hdec
  repeat' (split at hdec)
  · injection hdec with hdec
    subst hdec
    dsimp only [mkRType]
    exact (encode_R "add" 0x33 0 0 rfl rfl _ _ _ (by omega) (by omega)
      (by omega) _).trans (congrArg Except.ok (by omega))
  · injection hdec with hdec
    subst hdec
    dsimp only [mkRType]
    exact (encode_R "sub" 0x33 0 32 rfl rfl _ _ _ (by omega) (by omega)
      (by omega) _).trans (congrArg Except.ok (by omega))
  · injection hdec with hdec
    subst hdec
    dsimp only [mkRType]
    exact (encode_R "mul" 0x33 0 1 rfl rfl _ _ _ (by omega) (by omega)
      (by omega) _).trans (congrArg Except.ok (by omega))
  · exact Option.noConfusion hdec

set_option maxHeartbeats 1000000 in
theorem rrsOp1_roundtrip (w : Nat) (hw : w < 2 ^ 32) (i : Instr)
    (h7 : w % 2 ^ 7 = 0x33) (h3 : w / 2 ^ 12 % 2 ^ 3 = 1)
    (hdec : rrsDecodeOp1 w = some i) :
    encodeFromParts i.mnemonic i.rd i.rs1 i.rs2 i.imm = .ok w := by
  unfold rrsDecodeOp1 at hdec
  repeat' (split at hdec)
  · injection hdec with hdec
    subst hdec
    dsimp only [mkRType]
    exact (encode_R "sll" 0x33 1 0 rfl rfl _ _ _ (by omega) (by omega)
      (by omega) _).trans (congrArg Except.ok (by omega))
  · injection hdec with hdec
    subst hdec
    dsimp only [mkRType]
    exact (encode_R "mulh" 0x33 1 1 rfl rfl _ _ _ (by omega) (by omega)
      (by omega) _).trans (congrArg Except.ok (by omega))
  · exact Option.noConfusion hdec

set_option maxHeartbeats 1000000 in
theorem rrsOp2_roundtrip (w : Nat) (hw : w < 2 ^ 32) (i : Instr)
    (h7 : w % 2 ^ 7 = 0x33) (h3 : w / 2 ^ 12 % 2 ^ 3 = 2)
    (hdec : rrsDecodeOp2 w = some i) :
    encodeFromParts i.mnemonic i.rd i.rs1 i.rs2 i.imm = .ok w := by
  unfold rrsDecodeOp2 at hdec
  repeat' (split at hdec)
  · injection hdec with hdec
    subst hdec
    dsimp only [mkRType]
    exact (encode_R "slt" 0x33 2 0 rfl rfl _ _ _ (by omega) (by omega)
      (by omega) _).trans (congrArg Except.ok (by omega))
  · injection hdec with hdec
    subst hdec
    dsimp only [mkRType]
    exact (encode_R "mulhsu" 0x33 2 1 rfl rfl _ _ _ (by omega) (by omega)
      (by omega) _).trans (congrArg Except.ok (by omega))
  · exact Option.noConfusion hdec

set_option maxHeartbeats 1000000 in
theorem rrsOp3_roundtrip (w : Nat) (hw : w < 2 ^ 32) (i : Instr)
    (h7 : w % 2 ^ 7 = 0x33) (h3 : w / 2 ^ 12 % 2 ^ 3 = 3)
    (hdec : rrsDecodeOp3 w = some i) :
    encodeFromParts i.mnemonic i.rd i.rs1 i.rs2 i.imm = .ok w := by
  unfold rrsDecodeOp3 at hdec
  repeat' (split at hdec)
  · injection hdec with hdec
    subst hdec
    dsimp only [mkRType]
    exact (encode_R "sltu" 0x33 3 0 rfl rfl _ _ _ (by omega) (by omega)
      (by omega) _).trans (congrArg Except.ok (by omega))
  · injection hdec with hdec
    subst hdec
    dsimp only [mkRType]
    exact (encode_R "mulhu" 0x33 3 1 rfl rfl _ _ _ (by omega) (by omega)
      (by omega) _).trans (congrArg Except.ok (by omega))
  · exact Option.noConfusion hdec

set_option maxHeartbeats 1000000 in
theorem rrsOp4_roundtrip (w : Nat) (hw : w < 2 ^ 32) (i : Instr)
    (h7 : w % 2 ^ 7 = 0x33) (h3 : w / 2 ^ 12 % 2 ^ 3 = 4)
    (hdec : rrsDecodeOp4 w = some i) :
    encodeFromParts i.mnemonic i.rd i.rs1 i.rs2 i.imm = .ok w := by
  unfold rrsDecodeOp4 at hdec
  repeat' (split at hdec)
  · injection hdec with hdec
    subst hdec
    dsimp only [mkRType]
    exact (encode_R "xor" 0x33 4 0 rfl rfl _ _ _ (by omega) (by omega)
      (by omega) _).trans (congrArg Except.ok (by omega))
  · injection hdec with hdec
    subst hdec
    dsimp only [mkRType]
    exact (encode_R "div" 0x33 4 1 rfl rfl _ _ _ (by omega) (by omega)
      (by omega) _).trans (congrArg Except.ok (by omega))
  · exact Option.noConfusion hdec

set_option maxHeartbeats 1000000 in
theorem rrsOp5_roundtrip (w : Nat) (hw : w < 2 ^ 32) (i : Instr)
    (h7 : w % 2 ^ 7 = 0x33) (h3 : w / 2 ^ 12 % 2 ^ 3 = 5)
    (hdec : rrsDecodeOp5 w = some i) :
    encodeFromParts i.mnemonic i.rd i.rs1 i.rs2 i.imm = .ok w := by
  unfold rrsDecodeOp5 at hdec
  repeat' (split at hdec)
  · injection hdec with hdec
    subst hdec
    dsimp only [mkRType]
    exact (encode_R "srl" 0x33 5 0 rfl rfl _ _ _ (by omega) (by omega)
      (by omega) _).trans (congrArg Except.ok (by omega))
  · injection hdec with hdec
    subst hdec
    dsimp only [mkRType]
    exact (encode_R "sra" 0x33 5 32 rfl rfl _ _ _ (by omega) (by omega)
      (by omega) _).trans (congrArg Except.ok (by omega))
  · injection hdec with hdec
    subst hdec
    dsimp only [mkRType]
    exact (encode_R "divu" 0x33 5 1 rfl rfl _ _ _ (by omega) (by omega)
      (by omega) _).trans (congrArg Except.ok (by omega))
  · exact Option.noConfusion hdec

set_option maxHeartbeats 1000000 in
theorem rrsOp6_roundtrip (w : Nat) (hw : w < 2 ^ 32) (i : Instr)
    (h7 : w % 2 ^ 7 = 0x33) (h3 : w / 2 ^ 12 % 2 ^ 3 = 6)
    (hdec : rrsDecodeOp6 w = some i) :
    encodeFromParts i.mnemonic i.rd i.rs1 i.rs2 i.imm = .ok w := by
  unfold rrsDecodeOp6 at hdec
  repeat' (split at hdec)
  · injection hdec with hdec
    subst hdec
    dsimp only [mkRType]
    exact (encode_R "or" 0x33 6 0 rfl rfl _ _ _ (by omega) (by omega)
      (by omega) _).trans (congrArg Except.ok (by omega))
  · injection hdec with hdec
    subst hdec
    dsimp only [mkRType]
    exact (encode_R "rem" 0x33 6 1 rfl rfl _ _ _ (by omega) (by omega)
      (by omega) _).trans (congrArg Except.ok (by omega))
  · exact Option.noConfusion hdec

set_option maxHeartbeats 1000000 in
theorem rrsOp7_roundtrip (w : Nat) (hw : w < 2 ^ 32) (i : Instr)
    (h7 : w % 2 ^ 7 = 0x33) (h3 : w / 2 ^ 12 % 2 ^ 3 = 7)
    (hdec : rrsDecodeOp7 w = some i) :
    encodeFromParts i.mnemonic i.rd i.rs1 i.rs2 i.imm = .ok w := by
  unfold rrsDecodeOp7 at hdec
  repeat' (split at hdec)
  · injection hdec with hdec
    subst hdec
    dsimp only [mkRType]
    exact (encode_R "and" 0x33 7 0 rfl rfl _ _ _ (by omega) (by omega)
      (by omega) _).trans (congrArg Except.ok (by omega))
  · injection hdec with hdec
    subst hdec
    dsimp only [mkRType]
    exact (encode_R "remu" 0x33 7 1 rfl rfl _ _ _ (by omega) (by omega)
      (by omega) _).trans (congrArg Except.ok (by omega))
  · exact Option.noConfusion hdec

set_option maxHeartbeats 1000000 in
theorem rrsOp_roundtrip (w : Nat) (hw : w < 2 ^ 32) (i : Instr)
    (h7 : w % 2 ^ 7 = 0x33) (hdec : rrsDecodeOp w = some i) :
    encodeFromParts i.mnemonic i.rd i.rs1 i.rs2 i.imm = .ok w := by
  unfold rrsDecodeOp at hdec
  repeat' (split at hdec)
  · exact rrsOp0_roundtrip w hw i h7 (by omega) hdec
  · exact rrsOp1_roundtrip w hw i h7 (by omega) hdec
  · exact rrsOp2_roundtrip w hw i h7 (by omega) hdec
  · exact rrsOp3_roundtrip w hw i h7 (by omega) hdec
  · exact rrsOp4_roundtrip w hw i h7 (by omega) hdec
  · exact rrsOp5_roundtrip w hw i h7 (by omega) hdec
  · exact rrsOp6_roundtrip w hw i h7 (by omega) hdec
  · exact rrsOp7_roundtrip w hw i h7 (by omega) hdec

set_option maxHeartbeats 1000000 in
theorem rrsOpImm_roundtrip (w : Nat) (hw : w < 2 ^ 32) (i : Instr)
    (h7 : w % 2 ^ 7 = 0x13) (hdec : rrsDecodeOpImm w = some i) :
    encodeFromParts i.mnemonic i.rd i.rs1 i.rs2 i.imm = .ok w := by
  unfold rrsDecodeOpImm at hdec
  repeat' (split at hdec)
  · injection hdec with hdec
    subst hdec
    dsimp only [mkIType]
    exact (encode_I "addi" 0x13 0 rfl rfl rfl _ _ (by omega) (by omega)
      _).trans (congrArg Except.ok
        (by rw [u32_signExt12_mod12 _ (by omega)]; omega))
  · injection hdec with hdec
    subst hdec
    dsimp only [mkITypeShamt]
    exact (encode_shift "slli" 0x13 1 0 rfl rfl rfl _ _ (by omega)
      (by omega) _).trans (congrArg Except.ok
        (by rw [u32_natCast_mod5 _ (by omega)]; omega))
  · exact Option.noConfusion hdec
  · injection hdec with hdec
    subst hdec
    dsimp only [mkIType]
    exact (encode_I "slti" 0x13 2 rfl rfl rfl _ _ (by omega) (by omega)
      _).trans (congrArg Except.ok
        (by rw [u32_signExt12_mod12 _ (by omega)]; omega))
  · injection hdec with hdec
    subst hdec
    dsimp only [mkIType]
    exact (encode_I "sltiu" 0x13 3 rfl rfl rfl _ _ (by omega) (by omega)
      _).trans (congrArg Except.ok
        (by rw [u32_signExt12_mod12 _ (by omega)]; omega))
  · injection hdec with hdec
    subst hdec
    dsimp only [mkIType]
    exact (encode_I "xori" 0x13 4 rfl rfl rfl _ _ (by omega) (by omega)
      _).trans (congrArg Except.ok
        (by rw [u32_signExt12_mod12 _ (by omega)]; omega))
  · injection hdec with hdec
    subst hdec
    dsimp only [mkITypeShamt]
    exact (encode_shift "srli" 0x13 5 0 rfl rfl rfl _ _ (by omega)
      (by omega) _).trans (congrArg Except.ok
        (by rw [u32_natCast_mod5 _ (by omega)]; omega))
  · injection hdec with hdec
    subst hdec
    dsimp only [mkITypeShamt]
    exact (encode_shift "srai" 0x13 5 32 rfl rfl rfl _ _ (by omega)
      (by omega) _).trans (congrArg Except.ok
        (by rw [u32_natCast_mod5 _ (by omega)]; omega))
  · exact Option.noConfusion hdec
  · injection hdec with hdec
    subst hdec
    dsimp only [mkIType]
    exact (encode_I "ori" 0x13 6 rfl rfl rfl _ _ (by omega) (by omega)
      _).trans (congrArg Except.ok
        (by rw [u32_signExt12_mod12 _ (by omega)]; omega))
  · injection hdec with hdec
    subst hdec
    dsimp only [mkIType]
    exact (encode_I "andi" 0x13 7 rfl rfl rfl _ _ (by omega) (by omega)
      _).trans (congrArg Except.ok
        (by rw [u32_signExt12_mod12 _ (by omega)]; omega))

set_option maxHeartbeats 1000000 in
theorem rrsBranch_roundtrip (w : Nat) (hw : w < 2 ^ 32) (i : Instr)
    (h7 : w % 2 ^ 7 = 0x63) (hdec : rrsDecodeBranch w = some i) :
    encodeFromParts i.mnemonic i.rd i.rs1 i.rs2 i.imm = .ok w := by
  unfold rrsDecodeBranch at hdec
  repeat' (split at hdec)
  · injection hdec with hdec
    subst hdec
    dsimp only [mkBType]
    exact (encode_B "beq" 0x63 0 rfl rfl _ _ (by omega) (by omega)
      _ _).trans (congrArg Except.ok
        (by rw [immB_bit12, immB_hi, immB_lo, immB_bit11]; omega))
  · injection hdec with hdec
    subst hdec
    dsimp only [mkBType]
    exact (encode_B "bne" 0x63 1 rfl rfl _ _ (by omega) (by omega)
      _ _).trans (congrArg Except.ok
        (by rw [immB_bit12, immB_hi, immB_lo, immB_bit11]; omega))
  · injection hdec with hdec
    subst hdec
    dsimp only [mkBType]
    exact (encode_B "blt" 0x63 4 rfl rfl _ _ (by omega) (by omega)
      _ _).trans (congrArg Except.ok
        (by rw [immB_bit12, immB_hi, immB_lo, immB_bit11]; omega))
  · injection hdec with hdec
    subst hdec
    dsimp only [mkBType]
    exact (encode_B "bge" 0x63 5 rfl rfl _ _ (by omega) (by omega)
      _ _).trans (congrArg Except.ok
        (by rw [immB_bit12, immB_hi, immB_lo, immB_bit11]; omega))
  · injection hdec with hdec
    subst hdec
    dsimp only [mkBType]
    exact (encode_B "bltu" 0x63 6 rfl rfl _ _ (by omega) (by omega)
      _ _).trans (congrArg Except.ok
        (by rw [immB_bit12, immB_hi, immB_lo, immB_bit11]; omega))
  · injection hdec with hdec
    subst hdec
    dsimp only [mkBType]
    exact (encode_B "bgeu" 0x63 7 rfl rfl _ _ (by omega) (by omega)
      _ _).trans (congrArg Except.ok
        (by rw [immB_bit12, immB_hi, immB_lo, immB_bit11]; omega))
  · exact Option.noConfusion hdec

set_option maxHeartbeats 1000000 in
theorem rrsLoad_roundtrip (w : Nat) (hw : w < 2 ^ 32) (i : Instr)
    (h7 : w % 2 ^ 7 = 0x03) (hdec : rrsDecodeLoad w = some i) :
    encodeFromParts i.mnemonic i.rd i.rs1 i.rs2 i.imm = .ok w := by
  unfold rrsDecodeLoad at hdec
  repeat' (split at hdec)
  · injection hdec with hdec
    subst hdec
    dsimp only [mkIType]
    exact (encode_I "lb" 0x03 0 rfl rfl rfl _ _ (by omega) (by omega)
      _).trans (congrArg Except.ok
        (by rw [u32_signExt12_mod12 _ (by omega)]; omega))
  · injection hdec with hdec
    subst hdec
    dsimp only [mkIType]
    exact (encode_I "lh" 0x03 1 rfl rfl rfl _ _ (by omega) (by omega)
      _).trans (congrArg Except.ok
        (by rw [u32_signExt12_mod12 _ (by omega)]; omega))
  · injection hdec with hdec
    subst hdec
    dsimp only [mkIType]
    exact (encode_I "lw" 0x03 2 rfl rfl rfl _ _ (by omega) (by omega)
      _).trans (congrArg Except.ok
        (by rw [u32_signExt12_mod12 _ (by omega)]; omega))
  · injection hdec with hdec
    subst hdec
    dsimp only [mkIType]
    exact (encode_I "lbu" 0x03 4 rfl rfl rfl _ _ (by omega) (by omega)
      _).trans (congrArg Except.ok
        (by rw [u32_signExt12_mod12 _ (by omega)]; omega))
  · injection hdec with hdec
    subst hdec
    dsimp only [mkIType]
    exact (encode_I "lhu" 0x03 5 rfl rfl rfl _ _ (by omega) (by omega)
      _).trans (congrArg Except.ok
        (by rw [u32_signExt12_mod12 _ (by omega)]; omega))
  · exact Option.noConfusion hdec

set_option maxHeartbeats 1000000 in
theorem rrsStore_roundtrip (w : Nat) (hw : w < 2 ^ 32) (i : Instr)
    (h7 : w % 2 ^ 7 = 0x23) (hdec : rrsDecodeStore w = some i) :
    encodeFromParts i.mnemonic i.rd i.rs1 i.rs2 i.imm = .ok w := by
  unfold rrsDecodeStore at hdec
  repeat' (split at hdec)
  · injection hdec with hdec
    subst hdec
    dsimp only [mkSType]
    exact (encode_S "sb" 0x23 0 rfl rfl _ _ (by omega) (by omega)
      _ _).trans (congrArg Except.ok
        (by rw [immS_hi, immS_lo]; omega))
  · injection hdec with hdec
    subst hdec
    dsimp only [mkSType]
    exact (encode_S "sh" 0x23 1 rfl rfl _ _ (by omega) (by omega)
      _ _).trans (congrArg Except.ok
        (by rw [immS_hi, immS_lo]; omega))
  · injection hdec with hdec
    subst hdec
    dsimp only [mkSType]
    exact (encode_S "sw" 0x23 2 rfl rfl _ _ (by omega) (by omega)
      _ _).trans (congrArg Except.ok
        (by rw [immS_hi, immS_lo]; omega))
  · exact Option.noConfusion hdec

set_option maxHeartbeats 1000000 in
theorem rrsCtrl_roundtrip (w : Nat) (hw : w < 2 ^ 32) (i : Instr)
    (hdec : rrsDecodeCtrl w = some i) :
    excludedC1 i.mnemonic = true ∨
      encodeFromParts i.mnemonic i.rd i.rs1 i.rs2 i.imm = .ok w := by
  unfold rrsDecodeCtrl at hdec
  repeat' (split at hdec)
  · injection hdec with hdec
    subst hdec
    dsimp only [mkJType]
    exact Or.inr ((encode_J "jal" 0x6F 0 rfl rfl _ (by omega) _ _ _).trans
      (congrArg Except.ok
        (by rw [immJ_bit20, immJ_lo, immJ_bit11, immJ_hi]; omega)))
  · injection hdec with hdec
    subst hdec
    dsimp only [mkIType]
    exact Or.inr ((encode_I "jalr" 0x67 0 rfl rfl rfl _ _ (by omega)
      (by omega) _).trans (congrArg Except.ok
        (by rw [u32_signExt12_mod12 _ (by omega)]; omega)))
  · exact Option.noConfusion hdec
  · injection hdec with hdec
    subst hdec
    exact Or.inl rfl
  · exact Option.noConfusion hdec
  · exact Option.noConfusion hdec

set_option maxHeartbeats 1000000 in
theorem rrs_roundtrip (w : Nat) (hw : w < 2 ^ 32) (i : Instr)
    (hdec : rrsDecode w = some i) :
    excludedC1 i.mnemonic = true ∨
      encodeFromParts i.mnemonic i.rd i.rs1 i.rs2 i.imm = .ok w := by
  unfold rrsDecode at hdec
  repeat' (split at hdec)
  · exact Or.inr (rrsOp_roundtrip w hw i (by omega) hdec)
  · exact Or.inr (rrsOpImm_roundtrip w hw i (by omega) hdec)
  · injection hdec with hdec
    subst hdec
    exact Or.inl rfl
  · injection hdec with hdec
    subst hdec
    exact Or.inl rfl
  · exact Or.inr (rrsBranch_roundtrip w hw i (by omega) hdec)
  · exact Or.inr (rrsLoad_roundtrip w hw i (by omega) hdec)
  · exact Or.inr (rrsStore_roundtrip w hw i (by omega) hdec)
  · exact rrsCtrl_roundtrip w hw i hdec

set_option maxHeartbeats 1000000 in
theorem csr_roundtrip (w : Nat) (hw : w < 2 ^ 32) (i : Instr)
    (h7 : w % 2 ^ 7 = 0x73)
    (hf3 : w / 2 ^ 12 % 2 ^ 3 = 1 ∨ w / 2 ^ 12 % 2 ^ 3 = 2 ∨
      w / 2 ^ 12 % 2 ^ 3 = 3 ∨ w / 2 ^ 12 % 2 ^ 3 = 5 ∨
      w / 2 ^ 12 % 2 ^ 3 = 6 ∨ w / 2 ^ 12 % 2 ^ 3 = 7)
    (hdec : decodeCsr w = some i) :
    encodeFromParts i.mnemonic i.rd i.rs1 i.rs2 i.imm = .ok w := by
  unfold decodeCsr at hdec
  repeat' (split at hdec)
  · injection hdec with hdec
    subst hdec
    dsimp only [mkCsr]
    exact (encode_CSR "csrrw" 0x73 1 rfl rfl _ _ (by omega) (by omega)
      _ _).trans (congrArg Except.ok
        (by rw [u32_natCast_mod12 _ (by omega)]; omega))
  · injection hdec with hdec
    subst hdec
    dsimp only [mkCsr]
    exact (encode_CSR "csrrs" 0x73 2 rfl rfl _ _ (by omega) (by omega)
      _ _).trans (congrArg Except.ok
        (by rw [u32_natCast_mod12 _ (by omega)]; omega))
  · injection hdec with hdec
    subst hdec
    dsimp only [mkCsr]
    exact (encode_CSR "csrrc" 0x73 3 rfl rfl _ _ (by omega) (by omega)
      _ _).trans (congrArg Except.ok
        (by rw [u32_natCast_mod12 _ (by omega)]; omega))
  · injection hdec with hdec
    subst hdec
    dsimp only [mkCsr]
    exact (encode_CSR "csrrwi" 0x73 5 rfl rfl _ _ (by omega) (by omega)
      _ _).trans (congrArg Except.ok
        (by rw [u32_natCast_mod12 _ (by omega)]; omega))
  · injection hdec with hdec
    subst hdec
    dsimp only [mkCsr]
    exact (encode_CSR "csrrsi" 0x73 6 rfl rfl _ _ (by omega) (by omega)
      _ _).trans (congrArg Except.ok
        (by rw [u32_natCast_mod12 _ (by omega)]; omega))
  · injection hdec with hdec
    subst hdec
    dsimp only [mkCsr]
    exact (encode_CSR "csrrci" 0x73 7 rfl rfl _ _ (by omega) (by omega)
      _ _).trans (congrArg Except.ok
        (by rw [u32_natCast_mod12 _ (by omega)]; omega))

set_option maxHeartbeats 1000000 in
theorem sys_roundtrip (w : Nat) (hw : w < 2 ^ 32) (i : Instr)
    (hdec : decodeSystemInstruction w = some i) :
    excludedC1 i.mnemonic = true ∨
      encodeFromParts i.mnemonic i.rd i.rs1 i.rs2 i.imm = .ok w := by
  unfold decodeSystemInstruction at hdec
  repeat' (split at hdec)
  · injection hdec with hdec
    subst hdec
    refine Or.inr ?_
    have hw2 : w = 0x100F := by omega
    subst hw2
    rfl
  · injection hdec with hdec
    subst hdec
    refine Or.inr ?_
    have hw2 : w = 0x73 := by omega
    subst hw2
    rfl
  · injection hdec with hdec
    subst hdec
    refine Or.inr ?_
    have hw2 : w = 0x00100073 := by omega
    subst hw2
    rfl
  · injection hdec with hdec
    subst hdec
    exact Or.inl rfl
  · injection hdec with hdec
    subst hdec
    exact Or.inl rfl
  · injection hdec with hdec
    subst hdec
    exact Or.inl rfl
  · injection hdec with hdec
    subst hdec
    exact Or.inl rfl
  · exact Or.inr (csr_roundtrip w hw i (by omega) (by omega) hdec)
  · exact Option.noConfusion hdec

theorem rrsOp0_word (w : Nat) (i : Instr)
    (h : rrsDecodeOp0 w = some i) : i.word = w := by
  unfold rrsDecodeOp0 at h
  repeat' (split at h)
  all_goals first
    | exact Option.noConfusion h
    | (injection h with h
       subst h
       rfl)

theorem rrsOp1_word (w : Nat) (i : Instr)
    (h : rrsDecodeOp1 w = some i) : i.word = w := by
  unfold rrsDecodeOp1 at h
  repeat' (split at h)
  all_goals first
    | exact Option.noConfusion h
    | (injection h with h
       subst h
       rfl)

theorem rrsOp2_word (w : Nat) (i : Instr)
    (h : rrsDecodeOp2 w = some i) : i.word = w := by
  unfold rrsDecodeOp2 at h
  repeat' (split at h)
  all_goals first
    | exact Option.noConfusion h
    | (injection h with h
       subst h
       rfl)

theorem rrsOp3_word (w : Nat) (i : Instr)
    (h : rrsDecodeOp3 w = some i) : i.word = w := by
  unfold rrsDecodeOp3 at h
  repeat' (split at h)
  all_goals first
    | exact Option.noConfusion h
    | (injection h with h
       subst h
       rfl)

theorem rrsOp4_word (w : Nat) (i : Instr)
    (h : rrsDecodeOp4 w = some i) : i.word = w := by
  unfold rrsDecodeOp4 at h
  repeat' (split at h)
  all_goals first
    | exact Option.noConfusion h
    | (injection h with h
       subst h
       rfl)

theorem rrsOp5_word (w : Nat) (i : Instr)
    (h : rrsDecodeOp5 w = some i) : i.word = w := by
  unfold rrsDecodeOp5 at h
  repeat' (split at h)
  all_goals first
    | exact Option.noConfusion h
    | (injection h with h
       subst h
       rfl)

theorem rrsOp6_word (w : Nat) (i : Instr)
    (h : rrsDecodeOp6 w = some i) : i.word = w := by
  unfold rrsDecodeOp6 at h
  repeat' (split at h)
  all_goals first
    | exact Option.noConfusion h
    | (injection h with h
       subst h
       rfl)

theorem rrsOp7_word (w : Nat) (i : Instr)
    (h : rrsDecodeOp7 w = some i) : i.word = w := by
  unfold rrsDecodeOp7 at h
  repeat' (split at h)
  all_goals first
    | exact Option.noConfusion h
    | (injection h with h
       subst h
       rfl)

theorem rrsOp_word (w : Nat) (i : Instr)
    (h : rrsDecodeOp w = some i) : i.word = w := by
  unfold rrsDecodeOp at h
  repeat' (split at h)
  · exact rrsOp0_word w i h
  · exact rrsOp1_word w i h
  · exact rrsOp2_word w i h
  · exact rrsOp3_word w i h
  · exact rrsOp4_word w i h
  · exact rrsOp5_word w i h
  · exact rrsOp6_word w i h
  · exact rrsOp7_word w i h

theorem rrsOpImm_word (w : Nat) (i : Instr)
    (h : rrsDecodeOpImm w = some i) : i.word = w := by
  unfold rrsDecodeOpImm at h
  repeat' (split at h)
  all_goals first
    | exact Option.noConfusion h
    | (injection h with h
       subst h
       rfl)

theorem rrsBranch_word (w : Nat) (i : Instr)
    (h : rrsDecodeBranch w = some i) : i.word = w := by
  unfold rrsDecodeBranch at h
  repeat' (split at h)
  all_goals first
    | exact Option.noConfusion h
    | (injection h with h
       subst h
       rfl)

theorem rrsLoad_word (w : Nat) (i : Instr)
    (h : rrsDecodeLoad w = some i) : i.word = w := by
  unfold rrsDecodeLoad at h
  repeat' (split at h)
  all_goals first
    | exact Option.noConfusion h
    | (injection h with h
       subst h
       rfl)

theorem rrsStore_word (w : Nat) (i : Instr)
    (h : rrsDecodeStore w = some i) : i.word = w := by
  unfold rrsDecodeStore at h
  repeat' (split at h)
  all_goals first
    | exact Option.noConfusion h
    | (injection h with h
       subst h
       rfl)

theorem rrsCtrl_word (w : Nat) (i : Instr)
    (h : rrsDecodeCtrl w = some i) : i.word = w := by
  unfold rrsDecodeCtrl at h
  repeat' (split at h)
  all_goals first
    | exact Option.noConfusion h
    | (injection h with h
       subst h
       rfl)

theorem rrs_word (w : Nat) (i : Instr)
    (h : rrsDecode w = some i) : i.word = w := by
  unfold rrsDecode at h
  repeat' (split at h)
  · exact rrsOp_word w i h
  · exact rrsOpImm_word w i h
  · injection h with h
    subst h
    rfl
  · injection h with h
    subst h
    rfl
  · exact rrsBranch_word w i h
  · exact rrsLoad_word w i h
  · exact rrsStore_word w i h
  · exact rrsCtrl_word w i h

theorem decodeCsr_word (w : Nat) (i : Instr)
    (h : decodeCsr w = some i) : i.word = w := by
  unfold decodeCsr at h
  repeat' (split at h)
  all_goals (injection h with h
             subst h
             rfl)

theorem sys_word (w : Nat) (i : Instr)
    (h : decodeSystemInstruction w = some i) : i.word = w := by
  unfold decodeSystemInstruction at h
  repeat' (split at h)
  all_goals first
    | exact Option.noConfusion h
    | exact decodeCsr_word w i h
    | (injection h with h
       subst h
       rfl)

theorem decode_word (w : Nat) (i : Instr)
    (h : decode w = some i) : i.word = w := by
  unfold decode at h
  rcases hs : decodeSystemInstruction w with _ | j <;> rw [hs] at h <;>
    dsimp only at h
  · exact rrs_word w i h
  · injection h with h
    subst h
    exact sys_word w j hs

theorem excludedC1_mem (m : String) :
    excludedC1 m = true ↔
      m ∈ (["lui", "auipc", "fence", "sret", "mret", "wfi",
        "sfence.vma"] : List String) := by
  simp only [excludedC1, Bool.or_eq_true, decide_eq_true_eq, List.mem_cons,
    List.not_mem_nil, or_false]
  tauto

set_option maxHeartbeats 1000000 in
/-- C1 (amended): codec round-trip. Forward: for every 32-bit word `w` that
`decode` accepts, if the decoded mnemonic is not one of
lui / auipc / fence / sret / mret / wfi / sfence.vma then re-encoding the
decoded (mnemonic, rd, rs1, rs2, imm) via `encodeFromParts` succeeds and
returns exactly `w`. Backward: every instruction built by `fromParts`
decodes from its recorded word back to itself. The excluded mnemonics are
genuine exceptions, exhibited in `c1_counterexample_privileged`. -/
theorem c1_codec_roundtrip :
    (∀ w, w < 2 ^ 32 → ∀ i, decode w = some i →
      i.mnemonic ∉ (["lui", "auipc", "fence", "sret", "mret", "wfi",
        "sfence.vma"] : List String) →
      encodeFromParts i.mnemonic i.rd i.rs1 i.rs2 i.imm = .ok w) ∧
    (∀ (m : String) (rd rs1 rs2 : Option Nat) (imm : Option Int)
      (i : Instr), fromParts m rd rs1 rs2 imm = some i →
      decode i.word = some i) := by
  constructor
  · intro w hw i hdec hm
    have hmx : excludedC1 i.mnemonic = false := by
      cases hx : excludedC1 i.mnemonic
      · rfl
      · exact absurd ((excludedC1_mem i.mnemonic).mp hx) hm
    unfold decode at hdec
    rcases hs : decodeSystemInstruction w with _ | j <;> rw [hs] at hdec <;>
      dsimp only at hdec
    · rcases rrs_roundtrip w hw i hdec with hexcl | hok
      · rw [hexcl] at hmx
        exact Bool.noConfusion hmx
      · exact hok
    · injection hdec with hdec
      subst hdec
      rcases sys_roundtrip w hw j hs with hexcl | hok
      · rw [hexcl] at hmx
        exact Bool.noConfusion hmx
      · exact hok
  · intro m rd rs1 rs2 imm i h
    unfold fromParts at h
    rcases he : encodeFromParts m.toLower rd rs1 rs2 imm with e | v <;>
      rw [he] at h <;> dsimp only at h
    · exact Option.noConfusion h
    · unfold fromWord at h
      rw [decode_word v i h]
      exact h

theorem c1_counterexample_privileged :
    decode 0x10200073 =
      some ⟨"sret", none, none, none, none, 0x10200073⟩ ∧
    encodeFromParts "sret" none none none none =
      .error (.unknownMnemonic "sret") ∧
    decode 0x00001037 =
      some ⟨"lui", some 0, none, none, some 4096, 0x00001037⟩ ∧
    encodeFromParts "lui" (some 0) none none (some 4096) = .ok 0x01000037 ∧
    (0x01000037 : Nat) ≠ 0x00001037 ∧
    decode 0x0330000F =
      some ⟨"fence", some 0, some 0, none, some 51, 0x0330000F⟩ ∧
    encodeFromParts "fence" (some 0) (some 0) none (some 51) = .ok 0x0F ∧
    (0x0F : Nat) ≠ 0x0330000F :=
  ⟨rfl, rfl, rfl, rfl, by decide, rfl, rfl, by decide⟩

theorem c1_codec_roundtrip_witness :
    encodeFromParts "add" (some 1) (some 2) (some 3) none =
      .ok 0x003100B3 ∧
    decode 0x003100B3 =
      some ⟨"add", some 1, some 2, some 3, none, 0x003100B3⟩ := by
  refine ⟨?_, rfl⟩
  exact c1_codec_roundtrip.1 0x003100B3 (by decide)
    ⟨"add", some 1, some 2, some 3, none, 0x003100B3⟩ (by decide) (by decide)

end Beak

namespace Beak.Core

theorem fromParts_word_decodable (m : String) (rd rs1 rs2 : Option Nat)
    (imm : Option Int) (i : Beak.Instr)
    (h : Beak.fromParts m rd rs1 rs2 imm = some i) :
    decodableWord i.word = true := by
  unfold Beak.fromParts at h
  rcases he : Beak.encodeFromParts m.toLower rd rs1 rs2 imm with e | v <;>
    rw [he] at h <;> dsimp only at h
  · exact Option.noConfusion h
  · unfold Beak.fromWord at h
    unfold decodableWord Beak.fromWord
    rw [Beak.decode_word v i h, h]
    rfl

theorem mem_getD {α : Type} (l : List α) (d : α) :
    ∀ i, i < l.length → l.getD i d ∈ l := by
  induction l with
  | nil =>
    intro i h
    exact absurd h (by simp)
  | cons a t ih =>
    intro i h
    cases i with
    | zero => exact List.mem_cons_self a t
    | succ n => exact List.mem_cons_of_mem a (ih n (by simpa using h))

theorem decodable_of_mem_set {ws : List Nat} {n v w : Nat}
    (hw : w ∈ ws.set n v)
    (h : ∀ x ∈ ws, decodableWord x = true)
    (hv : decodableWord v = true) : decodableWord w = true := by
  rcases List.mem_or_eq_of_mem_set hw with h1 | h2
  · exact h w h1
  · rw [h2]
    exact hv

theorem decodable_of_mem_append {ws tail : List Nat} {w : Nat}
    (hw : w ∈ ws ++ tail)
    (h : ∀ x ∈ ws, decodableWord x = true)
    (ht : ∀ x ∈ tail, decodableWord x = true) : decodableWord w = true := by
  rcases List.mem_append.mp hw with h1 | h2
  · exact h w h1
  · exact ht w h2

theorem mutateRegisters_decodable (r : MutRand) (ws regs : List Nat)
    (h : ∀ x ∈ ws, decodableWord x = true) :
    ∀ w ∈ mutateRegisters r ws regs, decodableWord w = true := by
  intro w hw
  simp only [mutateRegisters] at hw
  repeat' (split at hw)
  all_goals first
    | exact h w hw
    | (rename_i i hsome
       exact decodable_of_mem_set hw h
         (fromParts_word_decodable _ _ _ _ _ _ hsome))

theorem mutateConstants_decodable (r : MutRand) (ws : List Nat)
    (h : ∀ x ∈ ws, decodableWord x = true) :
    ∀ w ∈ mutateConstants r ws, decodableWord w = true := by
  intro w hw
  simp only [mutateConstants] at hw
  repeat' (split at hw)
  all_goals first
    | exact h w hw
    | (rename_i i hsome
       exact decodable_of_mem_set hw h
         (fromParts_word_decodable _ _ _ _ _ _ hsome))

theorem insertRandomInstruction_decodable (r : MutRand) (ws : List Nat)
    (used : UsedOperands)
    (h : ∀ x ∈ ws, decodableWord x = true) :
    ∀ w ∈ insertRandomInstruction r ws used, decodableWord w = true := by
  intro w hw
  simp only [insertRandomInstruction] at hw
  repeat' (split at hw)
  all_goals first
    | exact h w hw
    | (rename_i i hsome
       refine decodable_of_mem_append hw h ?_
       intro x hx
       rw [show x = i.word from by simpa using hx]
       repeat' (split at hsome)
       all_goals exact fromParts_word_decodable _ _ _ _ _ _ hsome)

theorem deleteOneInstruction_decodable (r : MutRand) (ws : List Nat)
    (h : ∀ x ∈ ws, decodableWord x = true) :
    ∀ w ∈ deleteOneInstruction r ws, decodableWord w = true := by
  intro w hw
  simp only [deleteOneInstruction] at hw
  split at hw
  · exact h w hw
  · exact h w ((List.eraseIdx_sublist ws (r.idx % ws.length)).subset hw)

theorem duplicateOneInstruction_decodable (r : MutRand) (ws : List Nat)
    (h : ∀ x ∈ ws, decodableWord x = true) :
    ∀ w ∈ duplicateOneInstruction r ws, decodableWord w = true := by
  intro w hw
  simp only [duplicateOneInstruction] at hw
  split at hw
  · exact h w hw
  · rename_i hcond
    have hne : ws.length ≠ 0 := by
      intro h0
      exact hcond (Or.inl (by simpa [List.isEmpty_iff, List.length_eq_zero] using h0))
    have hidx : r.idx % ws.length < ws.length := Nat.mod_lt _ (by omega)
    rcases (List.mem_insertIdx (by omega)).mp hw with h1 | h2
    · rw [h1]
      exact h _ (mem_getD ws 0 _ hidx)
    · exact h w h2

theorem swapAdjacentInstructions_decodable (r : MutRand) (ws : List Nat)
    (h : ∀ x ∈ ws, decodableWord x = true) :
    ∀ w ∈ swapAdjacentInstructions r ws, decodableWord w = true := by
  intro w hw
  simp only [swapAdjacentInstructions] at hw
  split at hw
  · exact h w hw
  · rename_i hcond
    have hlen : 2 ≤ ws.length := by omega
    have hidx : r.idx % (ws.length - 1) < ws.length - 1 :=
      Nat.mod_lt _ (by omega)
    rcases List.mem_or_eq_of_mem_set hw with h1 | h2
    · rcases List.mem_or_eq_of_mem_set h1 with h3 | h4
      · exact h w h3
      · rw [h4]
        exact h _ (mem_getD ws 0 _ (by omega))
    · rw [h2]
      exact h _ (mem_getD ws 0 _ (by omega))

theorem replaceMnemonicSameFormat_decodable (r : MutRand) (ws : List Nat)
    (h : ∀ x ∈ ws, decodableWord x = true) :
    ∀ w ∈ replaceMnemonicSameFormat r ws, decodableWord w = true := by
  intro w hw
  simp only [replaceMnemonicSameFormat] at hw
  repeat' (split at hw)
  all_goals first
    | exact h w hw
    | (rename_i i hsome
       exact decodable_of_mem_set hw h
         (fromParts_word_decodable _ _ _ _ _ _ hsome))

theorem spliceTwo_decodable (r : MutRand) (ws : List Nat)
    (corpus : List (List Nat))
    (h : ∀ x ∈ ws, decodableWord x = true)
    (hc : ∀ c ∈ corpus, ∀ x ∈ c, decodableWord x = true) :
    ∀ w ∈ spliceTwo r ws corpus, decodableWord w = true := by
  intro w hw
  simp only [spliceTwo] at hw
  repeat' (split at hw)
  all_goals try exact h w hw
  rename_i hcond hne hnemp
  have hclen : 0 < corpus.length := by
    rcases Nat.lt_or_ge corpus.length 2 with hl | hl
    · exact absurd (Or.inl hl) hcond
    · omega
  have hw2 := List.mem_of_mem_take hw
  rcases List.mem_append.mp hw2 with h1 | h2
  · exact h w (List.mem_of_mem_take h1)
  · have h3 := List.mem_of_mem_take (List.mem_of_mem_drop h2)
    exact hc _ (mem_getD corpus [] _ (Nat.mod_lt _ hclen)) w h3

/-- C6: every `SeedMutator` arm preserves full decodability of the program.
If every word of the input decodes and every corpus entry used for
splicing is fully decodable, then every word of the mutated program
still decodes; arms whose re-encoding step fails leave the program
unchanged, which is subsumed by this statement. -/
theorem c6_mutators_preserve_decodability (maxInstructions : Nat) (r : MutRand)
    (arm : Nat) (corpus : List (List Nat)) (input : List Nat)
    (h : ∀ x ∈ input, decodableWord x = true)
    (hc : ∀ c ∈ corpus, ∀ x ∈ c, decodableWord x = true) :
    ∀ w ∈ seedMutate maxInstructions r arm corpus input,
      decodableWord w = true := by
  intro w hw
  have hwords : ∀ x ∈ input.take maxInstructions, decodableWord x = true :=
    fun x hx => h x (List.mem_of_mem_take hx)
  simp only [seedMutate] at hw
  split at hw
  · exact h w (List.mem_of_mem_take hw)
  · have hw2 := List.mem_of_mem_take hw
    repeat' (split at hw2)
    · exact spliceTwo_decodable r _ corpus hwords hc w hw2
    · exact mutateRegisters_decodable r _ _ hwords w hw2
    · exact mutateConstants_decodable r _ hwords w hw2
    · exact insertRandomInstruction_decodable r _ _ hwords w hw2
    · exact deleteOneInstruction_decodable r _ hwords w hw2
    · exact duplicateOneInstruction_decodable r _ hwords w hw2
    · exact swapAdjacentInstructions_decodable r _ hwords w hw2
    · exact replaceMnemonicSameFormat_decodable r _ hwords w hw2
    · exact insertRandomInstruction_decodable r _ _ hwords w hw2


theorem c6_mutators_preserve_decodability_witness :
    (seedMutate 16 ⟨1, 0, 0, 0, 0, 0, 0, 0, 0, 0⟩ 4 []
      [0x003100B3, 0x00000013]).all decodableWord = true :=
  List.all_eq_true.mpr
    (fun x hx => c6_mutators_preserve_decodability 16
      ⟨1, 0, 0, 0, 0, 0, 0, 0, 0, 0⟩ 4 [] [0x003100B3, 0x00000013]
      (by decide) (by decide) x hx)

end Beak.Core
